import Mathlib

/-!
# ISeeML path geometry: a shallow embedding

The C++ library works on `double`.  The embedding idealises `double` as an ordered
field: definitions that only add, multiply and compare are written over an arbitrary
`LinearOrderedField α` (and so run on `ℚ`), definitions that call `cos`, `sin` or use
`M_PI` are written over `ℝ`.  Rounding is not modelled there.

Where the end of a loop or the choice of a piece depends on the rounding of a sum or of
a difference (`Object::mod2pi`, `CompoundPath::length`, `CompoundPath::operator[]`), a
second definition, named `...Rounded`, makes the rounding explicit: every addition and
subtraction of the source is followed by the rounding of its exact result.
`roundDouble` is the rounding of IEEE 754 binary64 (to nearest, ties to even).

C++ `int` is `Int`.  An access outside an array is undefined behaviour in C++; here
the accessing function returns `none`.  A `while` loop becomes a function with a fuel
argument that returns `none` when the fuel runs out.

The compile-time flags of `CompilerFlags.h` that change what the code computes are
explicit `Bool` arguments.
-/

namespace iSeeML

/-! ## `iSeeML::Object`: tolerance predicates -/

namespace Object

variable {α : Type} [LinearOrderedField α]

/-- Method `sqr(x)`: the square of a double. -/
def sqr (x : α) : α := x * x

/-- Method `isPositive(x)`: `x > smallDouble`.  The constant `smallDouble` is defined outside
the headers, it is the argument `small`. -/
def isPositive (small x : α) : Prop := x > small

/-- Method `isNegative(x)`: `isPositive(-x)`. -/
def isNegative (small x : α) : Prop := isPositive small (-x)

/-- Method `isZero(x)`: `fabs(x) < smallDouble`. -/
def isZero (small x : α) : Prop := |x| < small

instance (small x : α) : Decidable (isPositive small x) := by
  unfold isPositive; infer_instance

instance (small x : α) : Decidable (isNegative small x) := by
  unfold isNegative; infer_instance

instance (small x : α) : Decidable (isZero small x) := by
  unfold isZero; infer_instance

/-- Method `sign(x)`: `isZero(x) ? 0 : (x < 0 ? -1 : 1)`. -/
def sign (small x : α) : Int := if isZero small x then 0 else if x < 0 then -1 else 1

/-- First loop of `mod2pi`, `while (res > M_PI) res -= PIx2;`, in exact arithmetic, `M_PI`
being `π`: over the reals the loop ends for every `res`.  The loop on doubles is
`mod2piDownRounded`. -/
noncomputable def mod2piDown (res : ℝ) : ℝ :=
  if res > Real.pi then mod2piDown (res - 2 * Real.pi) else res
termination_by Int.toNat ⌈(res - Real.pi) / (2 * Real.pi)⌉
decreasing_by
  rename_i h
  have hpi := Real.pi_pos
  have h2 : (res - 2 * Real.pi - Real.pi) / (2 * Real.pi)
      = (res - Real.pi) / (2 * Real.pi) - 1 := by
    field_simp
    ring
  have h3 : 0 < (res - Real.pi) / (2 * Real.pi) := by
    apply div_pos <;> linarith
  have h4 : 0 < ⌈(res - Real.pi) / (2 * Real.pi)⌉ := Int.ceil_pos.mpr h3
  rw [h2, Int.ceil_sub_one]
  omega

/-- Second loop of `mod2pi`, `while (res <= - M_PI) res += PIx2;`, in exact arithmetic.  The
loop on doubles is `mod2piUpRounded`. -/
noncomputable def mod2piUp (res : ℝ) : ℝ :=
  if res ≤ -Real.pi then mod2piUp (res + 2 * Real.pi) else res
termination_by Int.toNat (⌊(-Real.pi - res) / (2 * Real.pi)⌋ + 1)
decreasing_by
  rename_i h
  have hpi := Real.pi_pos
  have h2 : (-Real.pi - (res + 2 * Real.pi)) / (2 * Real.pi)
      = (-Real.pi - res) / (2 * Real.pi) - 1 := by
    field_simp
    ring
  have h3 : 0 ≤ (-Real.pi - res) / (2 * Real.pi) := by
    apply div_nonneg <;> linarith
  have h4 : 0 ≤ ⌊(-Real.pi - res) / (2 * Real.pi)⌋ := Int.floor_nonneg.mpr h3
  rw [h2, Int.floor_sub_one]
  omega

/-- Method `mod2pi(theta)` in exact arithmetic: the two loops one after the other.  The
method on doubles is `mod2piRounded`. -/
noncomputable def mod2pi (theta : ℝ) : ℝ := mod2piUp (mod2piDown theta)

end Object

/-! ## `iSeeML::geom`: vectors and points -/

namespace geom

/-- Class `iSeeML::geom::Vector`: the two Cartesian coordinates. -/
@[ext]
structure Vector (α : Type) where
  XCoord : α
  YCoord : α

/-- Class `iSeeML::geom::Point`: the two Cartesian coordinates. -/
@[ext]
structure Point (α : Type) where
  XCoord : α
  YCoord : α

namespace Vector

variable {α : Type} [LinearOrderedField α]

/-- Constructor `Vector()`: the zero vector. -/
def zero : Vector α := ⟨0, 0⟩

/-- Method `add(v)`, `operator+(v)`. -/
def add (u v : Vector α) : Vector α := ⟨u.XCoord + v.XCoord, u.YCoord + v.YCoord⟩

/-- Method `multiply(f)`, `operator*(f)`. -/
def multiply (u : Vector α) (f : α) : Vector α := ⟨u.XCoord * f, u.YCoord * f⟩

/-- Method `operator-()`: `multiply(-1)`. -/
def neg (u : Vector α) : Vector α := u.multiply (-1)

/-- Method `operator-(v)`: `*this + (-v)`. -/
def sub (u v : Vector α) : Vector α := u.add v.neg

/-- Method `operator*(v)`: the scalar product. -/
def dot (u v : Vector α) : α := u.XCoord * v.XCoord + u.YCoord * v.YCoord

/-- Method `operator^(v)`: the vectorial product. -/
def cross (u v : Vector α) : α := u.XCoord * v.YCoord - u.YCoord * v.XCoord

/-- Method `sqrLength()`: `(*this) * (*this)`. -/
def sqrLength (u : Vector α) : α := u.dot u

/-- Method `operator==(other)`: both coordinate differences are `isZero`. -/
def eq (small : α) (u v : Vector α) : Prop :=
  Object.isZero small (u.XCoord - v.XCoord) ∧ Object.isZero small (u.YCoord - v.YCoord)

/-- Method `rotate(theta)`: with `ct = cos(theta)`, `st = sin(theta)`. -/
noncomputable def rotate (u : Vector ℝ) (theta : ℝ) : Vector ℝ :=
  let x := u.XCoord
  let y := u.YCoord
  let ct := Real.cos theta
  let st := Real.sin theta
  ⟨x * ct - y * st, x * st + y * ct⟩

end Vector

namespace Point

variable {α : Type} [LinearOrderedField α]

/-- Constructor `Point()`: the frame origin. -/
def origin : Point α := ⟨0, 0⟩

/-- Method `translate(v)`, `operator+(v)`. -/
def translate (p : Point α) (v : Vector α) : Point α :=
  ⟨p.XCoord + v.XCoord, p.YCoord + v.YCoord⟩

/-- Method `operator-(other)`: the vector going from `other` to the current point. -/
def sub (p other : Point α) : Vector α :=
  ⟨p.XCoord - other.XCoord, p.YCoord - other.YCoord⟩

/-- Method `operator==(other)`: both coordinate differences are `isZero`. -/
def eq (small : α) (p q : Point α) : Prop :=
  Object.isZero small (p.XCoord - q.XCoord) ∧ Object.isZero small (p.YCoord - q.YCoord)

end Point

end geom

/-! ## `iSeeML::rob::OrPtConfig` -/

namespace rob

open geom

/-- Class `iSeeML::rob::OrPtConfig`: position of the reference point and orientation of the
main axis. -/
@[ext]
structure OrPtConfig (α : Type) where
  Position : Point α
  Orientation : α

namespace OrPtConfig

/-- Constructor `OrPtConfig()`: default point, zero orientation. -/
def default {α : Type} [LinearOrderedField α] : OrPtConfig α := ⟨Point.origin, 0⟩

/-- Constructor `OrPtConfig(P, theta)`: the main constructor, `Orientation(mod2pi(theta))`. -/
noncomputable def new (P : Point ℝ) (theta : ℝ) : OrPtConfig ℝ :=
  ⟨P, Object.mod2pi theta⟩

/-- Method `projection(P)` of a point: `(P - position()).rotate(-orientation())`. -/
noncomputable def projectionPt (c : OrPtConfig ℝ) (P : Point ℝ) : Vector ℝ :=
  (P.sub c.Position).rotate (-c.Orientation)

/-- Method `projection(q)` of a configuration:
`OrPtConfig(Point() + projection(q.position()), q.orientation() - orientation())`. -/
noncomputable def projection (c q : OrPtConfig ℝ) : OrPtConfig ℝ :=
  new (Point.origin.translate (c.projectionPt q.Position)) (q.Orientation - c.Orientation)

/-- Method `operator+(other)`:
`OrPtConfig(position() + v.rotate(theta), other.orientation() + theta)` with
`theta = orientation()` and `v = other.position() - Point()`. -/
noncomputable def plus (c other : OrPtConfig ℝ) : OrPtConfig ℝ :=
  let theta := c.Orientation
  let v := other.Position.sub Point.origin
  new (c.Position.translate (v.rotate theta)) (other.Orientation + theta)

/-- Method `isParallelTo(other)`: `isZero(mod2pi(orientation() - other.orientation()))`. -/
def isParallelTo (small : ℝ) (c other : OrPtConfig ℝ) : Prop :=
  Object.isZero small (Object.mod2pi (c.Orientation - other.Orientation))

/-- Method `operator==(other)`: `position() == other.position() && isParallelTo(other)`. -/
def eq (small : ℝ) (c other : OrPtConfig ℝ) : Prop :=
  Point.eq small c.Position other.Position ∧ isParallelTo small c other

end OrPtConfig

/-! ## `iSeeML::rob::CurvConfig` -/

/-- Class `iSeeML::rob::CurvConfig`: an `OrPtConfig` (base class) and a curvature. -/
@[ext]
structure CurvConfig (α : Type) extends OrPtConfig α where
  Curvature : α

namespace CurvConfig

/-- Constructor `CurvConfig()`: default oriented point, zero curvature. -/
def default {α : Type} [LinearOrderedField α] : CurvConfig α := ⟨OrPtConfig.default, 0⟩

/-- Constructor `CurvConfig(OrPt, kappa)`: the main constructor, the oriented point is copied. -/
def new {α : Type} (OrPt : OrPtConfig α) (kappa : α) : CurvConfig α := ⟨OrPt, kappa⟩

/-- Constructor `CurvConfig(P, theta, kappa)`: `OrPtConfig(P, theta), Curvature(kappa)`. -/
noncomputable def ofPoint (P : Point ℝ) (theta kappa : ℝ) : CurvConfig ℝ :=
  ⟨OrPtConfig.new P theta, kappa⟩

end CurvConfig

/-! ## `iSeeML::rob::Path`: the abstract interface and its order -/

/-- Class `iSeeML::rob::Path` (and `BasicPath`): the virtual methods of a path object,
`start()`, `end()`, `length()`, `deflection()` and `operator[](s)`. -/
structure Path (α : Type) where
  start : OrPtConfig α
  end_ : OrPtConfig α
  length : α
  deflection : α
  operatorIdx : α → CurvConfig α

namespace Path

variable {α : Type} [LinearOrderedField α]

/-- Method `Path::operator<(other)`:
`(isPositive(length()) && (length() < other.length())) || (! isPositive(other.length()))`. -/
def lt (small : α) (a other : Path α) : Prop :=
  (Object.isPositive small a.length ∧ a.length < other.length)
    ∨ ¬ Object.isPositive small other.length

instance (small : α) (a other : Path α) : Decidable (lt small a other) := by
  unfold lt; infer_instance

end Path

/-! ## `iSeeML::rob::LinCurvPath` -/

/-- Class `iSeeML::rob::LinCurvPath`: the five fields of the class. -/
structure LinCurvPath (α : Type) where
  Sharpness : α
  Length : α
  Deflection : α
  Start : CurvConfig α
  End : CurvConfig α

namespace LinCurvPath

/-- Modelled from the spec: `LinCurvPath::operator[]`, which the header declares and
whose body is outside the headers.  With `c0 = Start`, the configuration at arc length
`s` has curvature `c0.curvature + sharpness * s`, heading
`c0.heading + c0.curvature * s + sharpness * s² / 2` and its position is `c0`'s plus the
integral of `(cos(heading(u)), sin(heading(u)))` from `0` to `s`.  When
`ISEEML_CHECK_ARRAY_ELEMT` is defined (`checkElemt`) the arc length is first taken as
zero if smaller than zero and as the path's length if bigger.  The function reads
`Start`, `Sharpness` and `Length` only, as the main constructor calls it before `End`
is set. -/
noncomputable def configAt (checkElemt : Bool) (Start : CurvConfig ℝ)
    (Sharpness Length s : ℝ) : CurvConfig ℝ :=
  let s1 := if checkElemt then (if s < 0 then 0 else if s > Length then Length else s) else s
  let heading := fun u : ℝ => Start.Orientation + Start.Curvature * u + Sharpness * u ^ 2 / 2
  let dx := intervalIntegral (fun u => Real.cos (heading u)) 0 s1 MeasureTheory.volume
  let dy := intervalIntegral (fun u => Real.sin (heading u)) 0 s1 MeasureTheory.volume
  CurvConfig.ofPoint (Start.Position.translate ⟨dx, dy⟩) (heading s1)
    (Start.Curvature + Sharpness * s1)

/-- Constructor `LinCurvPath()`: zero sharpness, length and deflection, default configurations. -/
def default {α : Type} [LinearOrderedField α] : LinCurvPath α :=
  ⟨0, 0, 0, CurvConfig.default, CurvConfig.default⟩

/-- Constructor `LinCurvPath(start, sharpness, length)`: the main constructor,
`Deflection(start.curvature() * length + sharpness * sqr(length) / 2)` and
`End(operator[](length))`. -/
noncomputable def new (checkElemt : Bool) (start : CurvConfig ℝ) (sharpness length : ℝ) :
    LinCurvPath ℝ :=
  { Sharpness := sharpness
    Length := length
    Deflection := start.Curvature * length + sharpness * Object.sqr length / 2
    Start := start
    End := configAt checkElemt start sharpness length length }

/-- Method `operator[](s)` on a constructed object. -/
noncomputable def operatorIdx (checkElemt : Bool) (p : LinCurvPath ℝ) (s : ℝ) : CurvConfig ℝ :=
  configAt checkElemt p.Start p.Sharpness p.Length s

/-- A `LinCurvPath` seen through the `Path` interface: `start()`, `end()`, `length()`,
`deflection()` return the fields. -/
noncomputable def toPath (checkElemt : Bool) (p : LinCurvPath ℝ) : Path ℝ :=
  { start := p.Start.toOrPtConfig
    end_ := p.End.toOrPtConfig
    length := p.Length
    deflection := p.Deflection
    operatorIdx := operatorIdx checkElemt p }

end LinCurvPath

/-! ## `iSeeML::rob::CompoundPath` -/

/-- What a call gives after a bounded number of loop iterations. -/
inductive Outcome (β : Type) where
  /-- The call returned this value. -/
  | value (b : β)
  /-- The call read an array outside its bounds (undefined behaviour). -/
  | undefined
  /-- The loop was still running when the fuel ran out. -/
  | outOfFuel

/-- Class `iSeeML::rob::CompoundPath`: an abstract class without fields, whose sub-classes give
the two virtual methods `nbPieces()` and `_piece(index)`.  `_piece` returns `none` where
the sub-class would read outside its storage. -/
structure CompoundPath (α : Type) where
  nbPieces : Int
  _piece : Int → Option (Path α)

namespace CompoundPath

variable {α : Type} [LinearOrderedField α]

/-- The local `nb` of `getPiece(index)`: with `ISEEML_CHECK_ARRAY_ELEMT` (`checkElemt`)
`index < 2 ? 1 : index >= nbPieces() ? nbPieces() : index`, else `index`. -/
def getPieceIndex (checkElemt : Bool) (P : CompoundPath α) (index : Int) : Int :=
  if checkElemt then
    (if index < 2 then 1 else if index ≥ P.nbPieces then P.nbPieces else index)
  else index

/-- Method `getPiece(index)`: `_piece(nb)`. -/
def getPiece (checkElemt : Bool) (P : CompoundPath α) (index : Int) : Option (Path α) :=
  P._piece (getPieceIndex checkElemt P index)

/-- Method `piece(index)`: `getPiece(index)`. -/
def piece (checkElemt : Bool) (P : CompoundPath α) (index : Int) : Option (Path α) :=
  getPiece checkElemt P index

/-- Method `start()`: `piece(1).start()`. -/
def start (checkElemt : Bool) (P : CompoundPath α) : Option (OrPtConfig α) :=
  (piece checkElemt P 1).map (fun p => p.start)

/-- Method `end()`: `piece( nbPieces() ).end()`. -/
def end_ (checkElemt : Bool) (P : CompoundPath α) : Option (OrPtConfig α) :=
  (piece checkElemt P P.nbPieces).map (fun p => p.end_)

/-- The loop of `length()`, `for(i = 1; i <= nbPieces(); i++) res += piece(i).length()`:
the first argument counts the iterations still to run, then come `i` and `res`. -/
def lengthLoop (checkElemt : Bool) (P : CompoundPath α) : Nat → Int → α → Option α
  | 0, _, res => some res
  | n + 1, i, res =>
    (piece checkElemt P i).bind fun p => lengthLoop checkElemt P n (i + 1) (res + p.length)

/-- Method `length()`: `res = 0`, the loop over all pieces, `return res`. -/
def length (checkElemt : Bool) (P : CompoundPath α) : Option α :=
  lengthLoop checkElemt P P.nbPieces.toNat 1 0

/-- The loop of `deflection()`, as for `length()`. -/
def deflectionLoop (checkElemt : Bool) (P : CompoundPath α) : Nat → Int → α → Option α
  | 0, _, res => some res
  | n + 1, i, res =>
    (piece checkElemt P i).bind fun p =>
      deflectionLoop checkElemt P n (i + 1) (res + p.deflection)

/-- Method `deflection()`: the sum of the pieces' deflections. -/
def deflection (checkElemt : Bool) (P : CompoundPath α) : Option α :=
  deflectionLoop checkElemt P P.nbPieces.toNat 1 0

/-- The `while (arcLength > l)` loop of `operator[]` and the final
`return piece(pieceNb)[arcLength]`, on the loop state `pieceNb`, `arcLength`, `l`.
`checkPrecond` is `ISEEML_CHECK_COMP_PATH_PRECOND`: on the last piece the loop body only
writes a message and changes nothing.  `checkElemt` is `ISEEML_CHECK_ARRAY_ELEMT`: on
the last piece `l = arcLength` after `arcLength -= l`. -/
def operatorLoop (checkPrecond checkElemt : Bool) (P : CompoundPath α) :
    Nat → Int → α → α → Outcome (CurvConfig α)
  | 0, _, _, _ => Outcome.outOfFuel
  | fuel + 1, pieceNb, arcLength, l =>
    if arcLength > l then
      if checkPrecond && pieceNb == P.nbPieces then
        operatorLoop checkPrecond checkElemt P fuel pieceNb arcLength l
      else
        if checkElemt && pieceNb == P.nbPieces then
          operatorLoop checkPrecond checkElemt P fuel pieceNb (arcLength - l) (arcLength - l)
        else
          match piece checkElemt P (pieceNb + 1) with
          | none => Outcome.undefined
          | some p =>
            operatorLoop checkPrecond checkElemt P fuel (pieceNb + 1) (arcLength - l) p.length
    else
      match piece checkElemt P pieceNb with
      | none => Outcome.undefined
      | some p => Outcome.value (p.operatorIdx arcLength)

/-- Method `operator[](s)`: `pieceNb = 1`, `arcLength = s`, `l = piece(pieceNb).length()`, then
the loop. -/
def operatorIdx (checkPrecond checkElemt : Bool) (P : CompoundPath α) (fuel : Nat) (s : α) :
    Outcome (CurvConfig α) :=
  match piece checkElemt P 1 with
  | none => Outcome.undefined
  | some p => operatorLoop checkPrecond checkElemt P fuel 1 s p.length

/-- The piece `k` of the sentence "walking the pieces and accumulating their lengths until
the cumulative length would exceed `s`", read literally, for pieces `g 1, g 2, ...`: the
cumulated length of the pieces `1..k` exceeds `s`, and that of the pieces `1..j` does
not for any `j < k`. -/
def ExceedsAt (g : Int → Path α) (s : α) (k : Int) : Prop :=
  s < ∑ j in Finset.Icc 1 k, (g j).length ∧
    ∀ j, 1 ≤ j → j < k → ∑ i in Finset.Icc 1 j, (g i).length ≤ s

end CompoundPath

/-! ## `iSeeML::rob::ArrayPaths` -/

/-- Class `ArrayPaths::CoupleTypePointer`: a slot of the array.  `null` is the slot left by the
default constructor (`isBasicPath(true), path(NULL)`), `basic` a slot set with
`isBasic = true` and a basic path, `compound` a slot set with `isBasic = false` and a
compound path. -/
inductive CoupleTypePointer (α : Type) where
  | null
  | basic (path : Path α)
  | compound (path : CompoundPath α)

/-- Method `CoupleTypePointer::nbPieces()`: `isBasicPath ? 1 : path->nbPieces()`. -/
def CoupleTypePointer.nbPieces {α : Type} : CoupleTypePointer α → Int
  | .null => 1
  | .basic _ => 1
  | .compound c => c.nbPieces

/-- Class `iSeeML::rob::ArrayPaths`: the array of slots; `nb_paths` is its size. -/
structure ArrayPaths (α : Type) where
  array : List (CoupleTypePointer α)

namespace ArrayPaths

variable {α : Type} [LinearOrderedField α]

/-- Field `nb_paths`: the size given to the constructor. -/
def nb_paths (A : ArrayPaths α) : Int := A.array.length

/-- Constructor `ArrayPaths(n)`: an array of `n` default slots. -/
def new (n : Nat) : ArrayPaths α := ⟨List.replicate n CoupleTypePointer.null⟩

/-- Method `setPath(index, isBasic, path)`: `array[index] = CoupleTypePointer(isBasic, path)`,
for an index inside the array. -/
def setPath (A : ArrayPaths α) (index : Nat) (slot : CoupleTypePointer α) : ArrayPaths α :=
  ⟨A.array.set index slot⟩

/-- Method `nbPieces()`: the sum of the slots' `nbPieces()`. -/
def nbPieces (A : ArrayPaths α) : Int := (A.array.map CoupleTypePointer.nbPieces).sum

/-- The `do ... while ( (i < nb_paths) && (step) )` loop of `_piece`, on the state `i`,
`idx`; it returns `i`, `idx` and `pieces` at the exit.  The first argument bounds the
number of iterations (`i` grows at each iteration that is followed by another one). -/
def _pieceLoop (A : ArrayPaths α) : Nat → Nat → Int → Option (Nat × Int × Int)
  | 0, _, _ => none
  | fuel + 1, i, idx =>
    match A.array.get? i with
    | none => none
    | some slot =>
      let pieces := slot.nbPieces
      if idx > pieces then
        (if ((i + 1 : Nat) : Int) < A.nb_paths then _pieceLoop A fuel (i + 1) (idx - pieces)
          else some (i + 1, idx - pieces, pieces))
      else some (i, idx, pieces)

/-- Method `_piece(index)`: the loop, then `if (i >= nb_paths) { idx = pieces ; i = nb_paths - 1; }`
and the slot's own path, or `piece(idx)` of the slot's compound path. -/
def _piece (checkElemt : Bool) (A : ArrayPaths α) (index : Int) : Option (Path α) :=
  match _pieceLoop A (A.array.length + 1) 0 index with
  | none => none
  | some (i, idx, pieces) =>
    let idx1 := if (i : Int) ≥ A.nb_paths then pieces else idx
    let i1 := if (i : Int) ≥ A.nb_paths then A.array.length - 1 else i
    match A.array.get? i1 with
    | none => none
    | some .null => none
    | some (.basic p) => some p
    | some (.compound c) => CompoundPath.piece checkElemt c idx1

/-- An `ArrayPaths` as the `CompoundPath` it inherits from. -/
def toCompoundPath (checkElemt : Bool) (A : ArrayPaths α) : CompoundPath α :=
  { nbPieces := A.nbPieces
    _piece := _piece checkElemt A }

end ArrayPaths

/-! ## `iSeeML::rob::DubinsLikePath` -/

/-- Enumeration `DubinsLikePath::Type`: the six path types, in the order of the `enum`. -/
inductive DubinsType where
  | lsl | lsr | rsl | rsr | lrl | rlr
  deriving DecidableEq, Repr

/-- The integer value of a `Type` enumerator. -/
def DubinsType.toInt : DubinsType → Int
  | .lsl => 0 | .lsr => 1 | .rsl => 2 | .rsr => 3 | .lrl => 4 | .rlr => 5

/-- Class `iSeeML::rob::DubinsLikePath`: the four fields of the class. -/
structure DubinsLikePath (α : Type) where
  NbPieces : Int
  LcPieces : List (LinCurvPath α)
  PathType : DubinsType
  MaximumCurvature : α

namespace DubinsLikePath

/-- Constant `nbPossiblePaths = 6`. -/
def nbPossiblePaths : Int := 6

/-- Method `_piece(index)`: `LcPieces[index - 1]`, undefined outside the array. -/
def _piece {α : Type} (D : DubinsLikePath α) (index : Int) : Option (LinCurvPath α) :=
  if 0 ≤ index - 1 then D.LcPieces.get? (index - 1).toNat else none

/-- A `DubinsLikePath` as the `CompoundPath` it inherits from: `nbPieces()` returns
`NbPieces`, `_piece` returns the array element through the `Path` interface. -/
noncomputable def toCompoundPath (checkElemt : Bool) (D : DubinsLikePath ℝ) : CompoundPath ℝ :=
  { nbPieces := D.NbPieces
    _piece := fun index => (D._piece index).map (LinCurvPath.toPath checkElemt) }

variable {α : Type} [LinearOrderedField α]

/-- Method `DubinsPath::getSolution(paths, index)` and `FscPath::getSolution(paths, index)`:
`array[i]` with `i = index`, or with `ISEEML_CHECK_ARRAY_ELEMT` (`checkElemt`)
`i = index < 0 ? 0 : index > nbPossiblePaths ? nbPossiblePaths : index`.  The array
elements are seen through the `Path` interface. -/
def getSolution (checkElemt : Bool) (paths : List (Path α)) (index : Int) : Option (Path α) :=
  let i := if checkElemt then
      (if index < 0 then 0 else if index > nbPossiblePaths then nbPossiblePaths else index)
    else index
  if 0 ≤ i then paths.get? i.toNat else none

/-- One comparison of `bestPathIndex`: `getSolution(paths, i) < getSolution(paths, j)`. -/
def solutionLt (checkElemt : Bool) (small : α) (paths : List (Path α)) (i j : Int) :
    Option Bool :=
  (getSolution checkElemt paths i).bind fun a =>
    (getSolution checkElemt paths j).map fun b => decide (Path.lt small a b)

/-- Method `bestPathIndex(paths)`: the five comparisons, in the order of the source. -/
def bestPathIndex (checkElemt : Bool) (small : α) (paths : List (Path α)) : Option Int :=
  (solutionLt checkElemt small paths DubinsType.lsl.toInt DubinsType.lsr.toInt).bind
  fun test1 =>
  let ls := if test1 then DubinsType.lsl.toInt else DubinsType.lsr.toInt
  (solutionLt checkElemt small paths DubinsType.rsl.toInt DubinsType.rsr.toInt).bind
  fun test2 =>
  let rs := if test2 then DubinsType.rsl.toInt else DubinsType.rsr.toInt
  (solutionLt checkElemt small paths DubinsType.lrl.toInt DubinsType.rlr.toInt).bind
  fun test3 =>
  let ccc := if test3 then DubinsType.lrl.toInt else DubinsType.rlr.toInt
  (solutionLt checkElemt small paths ls rs).bind
  fun test4 =>
  let csc := if test4 then ls else rs
  (solutionLt checkElemt small paths csc ccc).map
  fun test5 => if test5 then csc else ccc

/-- The claim "globally shortest candidate" for a path `w` and a list `S` of candidates:
if some candidate has positive length, then `w` has positive length and no candidate of
positive length is shorter than `w`. -/
def IsShortest (small : α) (S : List (Path α)) (w : Path α) : Prop :=
  (∃ q ∈ S, Object.isPositive small q.length) →
    Object.isPositive small w.length ∧
      ∀ q ∈ S, Object.isPositive small q.length → w.length ≤ q.length

end DubinsLikePath

namespace OrPtConfig

/-- Constructor `OrPtConfig(x, y, theta)`: `Position(x, y), Orientation( mod2pi(theta) )`. -/
noncomputable def ofCoords (x y theta : ℝ) : OrPtConfig ℝ :=
  ⟨⟨x, y⟩, Object.mod2pi theta⟩

/-- Method `uTurn()`: `Orientation += (Orientation > 0 ? - M_PI : M_PI)`, the position is
kept. -/
noncomputable def uTurn (c : OrPtConfig ℝ) : OrPtConfig ℝ :=
  { c with Orientation := c.Orientation + (if c.Orientation > 0 then -Real.pi else Real.pi) }

/-- Method `opposite()`: `OrPtConfig res(*this);  return res.uTurn();`. -/
noncomputable def opposite (c : OrPtConfig ℝ) : OrPtConfig ℝ :=
  let res := c
  res.uTurn

end OrPtConfig

end rob

/-! ## `Vector::orientation` and the polar angle -/

namespace geom

/-- Method `Vector::orientation()`:
`isPositive(XCoord) ? atan(YCoord / XCoord) : isNegative(XCoord) ?
( YCoord < 0 ? atan(YCoord / XCoord) - M_PI : atan(YCoord / XCoord) + M_PI ) :
sign(YCoord) * M_PI_2`. -/
noncomputable def Vector.orientation (small : ℝ) (v : Vector ℝ) : ℝ :=
  if Object.isPositive small v.XCoord then Real.arctan (v.YCoord / v.XCoord)
  else if Object.isNegative small v.XCoord then
    (if v.YCoord < 0 then Real.arctan (v.YCoord / v.XCoord) - Real.pi
      else Real.arctan (v.YCoord / v.XCoord) + Real.pi)
  else (Object.sign small v.YCoord : ℝ) * (Real.pi / 2)

/-- The function `atan2(y, x)` of the C library: the polar angle of the point `(x, y)`, in
`(-π, π]`, and 0 at the origin.  It is the argument of the complex number `x + y i`. -/
noncomputable def atan2 (y x : ℝ) : ℝ := Complex.arg ⟨x, y⟩

end geom

namespace rob

/-! ## Building the pieces of a Dubins-like path -/

namespace DubinsLikePath

/-- Constructor `DubinsLikePath(type, maxCurv)`:
`NbPieces(0), LcPieces(NULL), PathType(type), MaximumCurvature(fabs(maxCurv))`. -/
def new {α : Type} [LinearOrderedField α] (type : DubinsType) (maxCurv : α) :
    DubinsLikePath α :=
  ⟨0, [], type, |maxCurv|⟩

/-- An assignment `lcPiece(index) = p`: `lcPiece(index)` is the reference
`piece(index)`, that is `LcPieces[nb - 1]` with `nb` the index that `getPiece` hands to
`_piece`; undefined outside the array. -/
noncomputable def setLcPiece (checkElemt : Bool) (D : DubinsLikePath ℝ) (index : Int)
    (p : LinCurvPath ℝ) : Option (DubinsLikePath ℝ) :=
  let nb := CompoundPath.getPieceIndex checkElemt (D.toCompoundPath checkElemt) index
  if 0 ≤ nb - 1 ∧ (nb - 1).toNat < D.LcPieces.length then
    some { D with LcPieces := D.LcPieces.set (nb - 1).toNat p }
  else none

/-- The loop `ISEEML_ROB_COMPATH_forall_pieces(i)  lcPiece(i) = stdPath;` of `reset`:
the first argument counts the iterations still to run, then comes `i`. -/
noncomputable def resetLoop (checkElemt : Bool) (stdPath : LinCurvPath ℝ) :
    Nat → Int → DubinsLikePath ℝ → Option (DubinsLikePath ℝ)
  | 0, _, D => some D
  | n + 1, i, D =>
    (setLcPiece checkElemt D i stdPath).bind (resetLoop checkElemt stdPath n (i + 1))

/-- Method `reset(newNbPieces, stdPath)`: the previous array is freed,
`NbPieces = newNbPieces > 0 ? newNbPieces : 0`, then either a new array of `NbPieces`
default paths, each assigned `stdPath`, or `LcPieces = NULL`. -/
noncomputable def reset (checkElemt : Bool) (D : DubinsLikePath ℝ) (newNbPieces : Int)
    (stdPath : LinCurvPath ℝ) : Option (DubinsLikePath ℝ) :=
  let nb := if newNbPieces > 0 then newNbPieces else 0
  if nb ≠ 0 then
    resetLoop checkElemt stdPath nb.toNat 1
      { D with NbPieces := nb, LcPieces := List.replicate nb.toNat LinCurvPath.default }
  else some { D with NbPieces := nb, LcPieces := [] }

/-- Method `setNoPiece(start)`:
`reset( 1, LinCurvPath(CurvConfig(start, 0), 0, 0) )`. -/
noncomputable def setNoPiece (checkElemt : Bool) (D : DubinsLikePath ℝ) (start : OrPtConfig ℝ) :
    Option (DubinsLikePath ℝ) :=
  reset checkElemt D 1 (LinCurvPath.new checkElemt (CurvConfig.new start 0) 0 0)

/-- Method `addPiece(index, start, curvDeriv, length)`:
`lcPiece(++index) = LinCurvPath( start, curvDeriv, fabs(length) )`; it returns the path
and the new value of `index`. -/
noncomputable def addPiece (checkElemt : Bool) (D : DubinsLikePath ℝ) (index : Int)
    (start : CurvConfig ℝ) (curvDeriv length : ℝ) : Option (DubinsLikePath ℝ × Int) :=
  (setLcPiece checkElemt D (index + 1) (LinCurvPath.new checkElemt start curvDeriv |length|)).map
    fun D1 => (D1, index + 1)

end DubinsLikePath

/-! ## `iSeeML::rob::DubinsPath` and `iSeeML::rob::FscPath` -/

/-- Method `DubinsPath::turnNbPieces(defl)`: `isZero(defl) ? 0 : 1`. -/
def DubinsPath.turnNbPieces {α : Type} [LinearOrderedField α] (small defl : α) : Int :=
  if Object.isZero small defl then 0 else 1

/-- Class `iSeeML::rob::FscPath`: a `DubinsLikePath` (base class) and the four fields of
the class. -/
structure FscPath (α : Type) extends DubinsLikePath α where
  MaximumCurvDerivative : α
  LimDefl : α
  TurnRadius : α
  TurnAngle : α

namespace FscPath

variable {α : Type} [LinearOrderedField α]

/-- Method `limDefl()`. -/
def limDefl (F : FscPath α) : α := F.LimDefl

/-- Method `turnRadius()`. -/
def turnRadius (F : FscPath α) : α := F.TurnRadius

/-- Method `turnAngle()`. -/
def turnAngle (F : FscPath α) : α := F.TurnAngle

/-- Method `isShortTurn(defl)`: `fabs(defl) <= limDefl()`. -/
def isShortTurn (F : FscPath α) (defl : α) : Prop := |defl| ≤ F.limDefl

instance (F : FscPath α) (defl : α) : Decidable (isShortTurn F defl) := by
  unfold isShortTurn; infer_instance

/-- Method `turnNbPieces(defl)`: `isZero(defl) ? 1 : isShortTurn(defl) ? 2 : 3`. -/
def turnNbPieces (small : α) (F : FscPath α) (defl : α) : Int :=
  if Object.isZero small defl then 1 else if isShortTurn F defl then 2 else 3

/-- The forward constructor `FscPath(start, type, maxCurv, maxCDer, length1, length2,
length3)`: `DubinsLikePath(type, fabs(maxCurv))`, `MaximumCurvDerivative( fabs(maxCDer) )`,
then `computeValues(maxCurv, maxCDer, LimDefl, TurnRadius, TurnAngle)` and
`definePieces(start, length1, length2, length3)`.  The bodies of `computeValues` and of
`definePieces` are outside the headers: `computeValues` is the argument of that name,
giving the three outputs, and `definePieces`, with its arguments, is the argument
`build`, which reads the object and gives its `DubinsLikePath` part with the pieces. -/
def forward (computeValues : α → α → α × α × α) (build : FscPath α → DubinsLikePath α)
    (type : DubinsType) (maxCurv maxCDer : α) : FscPath α :=
  let v := computeValues maxCurv maxCDer
  let p : FscPath α :=
    { toDubinsLikePath := DubinsLikePath.new type |maxCurv|
      MaximumCurvDerivative := |maxCDer|
      LimDefl := v.1
      TurnRadius := v.2.1
      TurnAngle := v.2.2 }
  { p with toDubinsLikePath := build p }

/-- The complete forward constructor `FscPath(start, type, maxCurv, maxCDer, limDefl,
turnRad, turnAng, length1, length2, length3)`: `DubinsLikePath(type, fabs(maxCurv))`,
`MaximumCurvDerivative(fabs(maxCDer))`, `LimDefl( fabs(limDefl) )`,
`TurnRadius( fabs(turnRad) )`, `TurnAngle( fabs(turnAng) )`, then `definePieces`, the
argument `build` as in `forward`. -/
def complete (build : FscPath α → DubinsLikePath α) (type : DubinsType)
    (maxCurv maxCDer limDefl turnRad turnAng : α) : FscPath α :=
  let p : FscPath α :=
    { toDubinsLikePath := DubinsLikePath.new type |maxCurv|
      MaximumCurvDerivative := |maxCDer|
      LimDefl := |limDefl|
      TurnRadius := |turnRad|
      TurnAngle := |turnAng| }
  { p with toDubinsLikePath := build p }

end FscPath

namespace DubinsLikePath

/-- The local `i` of `getSolution(paths, index)`: `index`, or with
`ISEEML_CHECK_ARRAY_ELEMT` (`checkElemt`)
`index < 0 ? 0 : index > nbPossiblePaths ? nbPossiblePaths : index`. -/
def getSolutionIndex (checkElemt : Bool) (index : Int) : Int :=
  if checkElemt then
    (if index < 0 then 0 else if index > nbPossiblePaths then nbPossiblePaths else index)
  else index

/-- The static array `values[3][nbPossiblePaths]` of `turnSign`. -/
def turnSignValues : List (List Int) :=
  [[1, 1, -1, -1, 1, -1], [0, 0, 0, 0, -1, 1], [1, -1, 1, -1, 1, -1]]

/-- Method `turnSign(number, type)`: `values[nb][(int) type]` with `nb = number - 1`, or
with `ISEEML_CHECK_ARRAY_ELEMT` (`checkElemt`)
`nb = number < 1 ? 0 : (number > 3) ? 2 : number - 1`; undefined outside the array. -/
def turnSign (checkElemt : Bool) (number : Int) (type : DubinsType) : Option Int :=
  let nb := if checkElemt then
      (if number < 1 then 0 else if number > 3 then 2 else number - 1)
    else number - 1
  if 0 ≤ nb then (turnSignValues.get? nb.toNat).bind fun row => row.get? type.toInt.toNat
  else none

/-- A letter of the name of a type: `l`, `r` or `s`. -/
inductive Letter where
  | l | r | s
  deriving DecidableEq, Repr

/-- The sign the documentation gives to a letter: 1 for left, -1 for right, 0 for a
segment. -/
def Letter.sign : Letter → Int
  | .l => 1
  | .r => -1
  | .s => 0

/-- The three letters of the name of a type, part 1, part 2, part 3. -/
def typeLetters : DubinsType → Letter × Letter × Letter
  | .lsl => (.l, .s, .l)
  | .lsr => (.l, .s, .r)
  | .rsl => (.r, .s, .l)
  | .rsr => (.r, .s, .r)
  | .lrl => (.l, .r, .l)
  | .rlr => (.r, .l, .r)

end DubinsLikePath

/-! ## The pieces of an `ArrayPaths`, in order -/

/-- The pieces that a slot stands for, in order: the path of an elementary slot, the
pieces `1..nbPieces()` of the path of a compound slot; `none` stands for a piece that
does not exist (the one piece counted for a slot that was never set, or a piece that the
compound path of the slot does not define). -/
def CoupleTypePointer.pieces {α : Type} : CoupleTypePointer α → List (Option (Path α))
  | .null => [none]
  | .basic p => [some p]
  | .compound c => (List.range c.nbPieces.toNat).map fun (j : Nat) => c._piece ((j : Int) + 1)

/-- The in-order concatenation of the pieces of a list of slots. -/
def CoupleTypePointer.concat {α : Type} : List (CoupleTypePointer α) → List (Option (Path α))
  | [] => []
  | slot :: rest => slot.pieces ++ CoupleTypePointer.concat rest

/-- The in-order concatenation of the pieces of the slots of an `ArrayPaths`. -/
def ArrayPaths.flatten {α : Type} (A : ArrayPaths α) : List (Option (Path α)) :=
  CoupleTypePointer.concat A.array

end rob

/-! ## Lengths and distances -/

namespace geom

/-- Method `Vector::length()`: `sqrt(sqrLength())`. -/
noncomputable def Vector.length (u : Vector ℝ) : ℝ := Real.sqrt u.sqrLength

/-- Method `Point::distance(other)`: `(other - *this).length()`. -/
noncomputable def Point.distance (p other : Point ℝ) : ℝ := (other.sub p).length

/-- Method `Point::sqrDist(other)`: `(other - *this).sqrLength()`. -/
def Point.sqrDist {α : Type} [LinearOrderedField α] (p other : Point α) : α :=
  (other.sub p).sqrLength

end geom

/-! ## Arithmetic of `double` -/

namespace Object

/-- The exponent of the unit in the last place of the doubles of the magnitude of `x`:
a double has 53 significant bits, and no bit below `2 ^ (-1074)`. -/
def ulpExponent {α : Type} [LinearOrderedField α] [FloorRing α] (x : α) : Int :=
  max (Int.log 2 |x| - 52) (-1074)

/-- Rounding to the nearest integer, a tie going to the even one. -/
def roundHalfEven {α : Type} [LinearOrderedField α] [FloorRing α] (q : α) : Int :=
  if q - ⌊q⌋ < 1 / 2 then ⌊q⌋
  else if 1 / 2 < q - ⌊q⌋ then ⌊q⌋ + 1
  else if ⌊q⌋ % 2 = 0 then ⌊q⌋ else ⌊q⌋ + 1

/-- The double nearest to `x`, a tie going to the double whose last bit is 0: what an
addition or a subtraction of doubles stores, `x` being its exact result.  A result
beyond the largest double is not modelled. -/
def roundDouble {α : Type} [LinearOrderedField α] [FloorRing α] (x : α) : α :=
  (roundHalfEven (x / 2 ^ ulpExponent x) : α) * 2 ^ ulpExponent x

/-- The constant `M_PI` of `math.h`, the double nearest to `π`:
`3.141592653589793115997963468544185161590576171875`. -/
def M_PI : ℚ := 884279719003555 / 281474976710656

/-- First loop of `mod2pi` on doubles, `while (res > M_PI) res -= PIx2;`: the difference
is rounded.  The first argument bounds the number of iterations. -/
def mod2piDownRounded (PIx2 : ℚ) : Nat → ℚ → rob.Outcome ℚ
  | 0, _ => rob.Outcome.outOfFuel
  | fuel + 1, res =>
    if res > M_PI then mod2piDownRounded PIx2 fuel (roundDouble (res - PIx2))
    else rob.Outcome.value res

/-- Second loop of `mod2pi` on doubles, `while (res <= - M_PI) res += PIx2;`. -/
def mod2piUpRounded (PIx2 : ℚ) : Nat → ℚ → rob.Outcome ℚ
  | 0, _ => rob.Outcome.outOfFuel
  | fuel + 1, res =>
    if res ≤ -M_PI then mod2piUpRounded PIx2 fuel (roundDouble (res + PIx2))
    else rob.Outcome.value res

/-- Method `mod2pi(theta)` on doubles: `res = theta`, `PIx2 = 2 * M_PI`, the two loops,
`return res`.  Each loop may run `fuel` iterations. -/
def mod2piRounded (fuel : Nat) (theta : ℚ) : rob.Outcome ℚ :=
  match mod2piDownRounded (roundDouble (2 * M_PI)) fuel theta with
  | rob.Outcome.value res => mod2piUpRounded (roundDouble (2 * M_PI)) fuel res
  | rob.Outcome.undefined => rob.Outcome.undefined
  | rob.Outcome.outOfFuel => rob.Outcome.outOfFuel

end Object

namespace rob

/-- Constructor `OrPtConfig(P, theta)` on doubles:
`Position(P), Orientation( mod2pi(theta) )`. -/
def OrPtConfig.newRounded (fuel : Nat) (P : geom.Point ℚ) (theta : ℚ) : Outcome (OrPtConfig ℚ) :=
  match Object.mod2piRounded fuel theta with
  | Outcome.value res => Outcome.value ⟨P, res⟩
  | Outcome.undefined => Outcome.undefined
  | Outcome.outOfFuel => Outcome.outOfFuel

namespace CompoundPath

variable {α : Type} [LinearOrderedField α]

/-- The loop of `length()` on doubles: `res += piece(i).length()` stores the rounded sum,
`rnd` being the rounding. -/
def lengthLoopRounded (rnd : α → α) (checkElemt : Bool) (P : CompoundPath α) :
    Nat → Int → α → Option α
  | 0, _, res => some res
  | n + 1, i, res =>
    (piece checkElemt P i).bind fun p =>
      lengthLoopRounded rnd checkElemt P n (i + 1) (rnd (res + p.length))

/-- Method `length()` on doubles. -/
def lengthRounded (rnd : α → α) (checkElemt : Bool) (P : CompoundPath α) : Option α :=
  lengthLoopRounded rnd checkElemt P P.nbPieces.toNat 1 0

/-- The loop of `operator[]` on doubles: `arcLength -= l` stores the rounded difference,
`rnd` being the rounding; the rest is as in `operatorLoop`. -/
def operatorLoopRounded (rnd : α → α) (checkPrecond checkElemt : Bool) (P : CompoundPath α) :
    Nat → Int → α → α → Outcome (CurvConfig α)
  | 0, _, _, _ => Outcome.outOfFuel
  | fuel + 1, pieceNb, arcLength, l =>
    if arcLength > l then
      if checkPrecond && pieceNb == P.nbPieces then
        operatorLoopRounded rnd checkPrecond checkElemt P fuel pieceNb arcLength l
      else
        if checkElemt && pieceNb == P.nbPieces then
          operatorLoopRounded rnd checkPrecond checkElemt P fuel pieceNb
            (rnd (arcLength - l)) (rnd (arcLength - l))
        else
          match piece checkElemt P (pieceNb + 1) with
          | none => Outcome.undefined
          | some p =>
            operatorLoopRounded rnd checkPrecond checkElemt P fuel (pieceNb + 1)
              (rnd (arcLength - l)) p.length
    else
      match piece checkElemt P pieceNb with
      | none => Outcome.undefined
      | some p => Outcome.value (p.operatorIdx arcLength)

/-- Method `operator[](s)` on doubles. -/
def operatorIdxRounded (rnd : α → α) (checkPrecond checkElemt : Bool) (P : CompoundPath α)
    (fuel : Nat) (s : α) : Outcome (CurvConfig α) :=
  match piece checkElemt P 1 with
  | none => Outcome.undefined
  | some p => operatorLoopRounded rnd checkPrecond checkElemt P fuel 1 s p.length

/-- The arc length left when the walk of `operator[](s)` has gone past the pieces
`g 1, ..., g n`, as the machine computes it: `s`, then the rounded difference with the
length of each piece walked. -/
def arcLengthLeft (rnd : α → α) (g : Int → Path α) (s : α) : Nat → α
  | 0 => s
  | n + 1 => rnd (arcLengthLeft rnd g s n - (g ((n : Int) + 1)).length)

end CompoundPath

end rob

end iSeeML

/-! # Theorems -/

namespace iSeeML

open geom rob

/-! ## Angles modulo `2π` -/

namespace Object

theorem mod2piDown_le (x : ℝ) : mod2piDown x ≤ Real.pi := by
  induction x using mod2piDown.induct with
  | case1 x h ih => rw [mod2piDown, if_pos h]; exact ih
  | case2 x h => rw [mod2piDown, if_neg h]; exact not_lt.mp h

theorem mod2piDown_of_le {x : ℝ} (h : x ≤ Real.pi) : mod2piDown x = x := by
  rw [mod2piDown, if_neg (not_lt.mpr h)]

theorem mod2piDown_gt {x : ℝ} (h : -Real.pi < x) : -Real.pi < mod2piDown x := by
  induction x using mod2piDown.induct with
  | case1 x hx ih =>
    rw [mod2piDown, if_pos hx]
    apply ih
    have : x > Real.pi := hx
    linarith
  | case2 x hx => rw [mod2piDown, if_neg hx]; exact h

theorem mod2piDown_cong (x : ℝ) : ∃ k : ℤ, mod2piDown x = x + k * (2 * Real.pi) := by
  induction x using mod2piDown.induct with
  | case1 x h ih =>
    obtain ⟨k, hk⟩ := ih
    refine ⟨k - 1, ?_⟩
    rw [mod2piDown, if_pos h, hk]
    push_cast
    ring
  | case2 x h => exact ⟨0, by rw [mod2piDown, if_neg h]; simp⟩

theorem mod2piUp_gt (x : ℝ) : -Real.pi < mod2piUp x := by
  induction x using mod2piUp.induct with
  | case1 x h ih => rw [mod2piUp, if_pos h]; exact ih
  | case2 x h => rw [mod2piUp, if_neg h]; exact not_le.mp h

theorem mod2piUp_of_gt {x : ℝ} (h : -Real.pi < x) : mod2piUp x = x := by
  rw [mod2piUp, if_neg (not_le.mpr h)]

theorem mod2piUp_le {x : ℝ} (h : x ≤ Real.pi) : mod2piUp x ≤ Real.pi := by
  induction x using mod2piUp.induct with
  | case1 x hx ih =>
    rw [mod2piUp, if_pos hx]
    apply ih
    linarith
  | case2 x hx => rw [mod2piUp, if_neg hx]; exact h

theorem mod2piUp_cong (x : ℝ) : ∃ k : ℤ, mod2piUp x = x + k * (2 * Real.pi) := by
  induction x using mod2piUp.induct with
  | case1 x h ih =>
    obtain ⟨k, hk⟩ := ih
    refine ⟨k + 1, ?_⟩
    rw [mod2piUp, if_pos h, hk]
    push_cast
    ring
  | case2 x h => exact ⟨0, by rw [mod2piUp, if_neg h]; simp⟩

/-- The result of `mod2pi` lies in `(-π, π]`. -/
theorem mod2pi_mem (x : ℝ) : -Real.pi < mod2pi x ∧ mod2pi x ≤ Real.pi :=
  ⟨mod2piUp_gt _, mod2piUp_le (mod2piDown_le x)⟩

/-- The result of `mod2pi` differs from its argument by a multiple of `2π`. -/
theorem mod2pi_cong (x : ℝ) : ∃ k : ℤ, mod2pi x = x + k * (2 * Real.pi) := by
  obtain ⟨k1, h1⟩ := mod2piDown_cong x
  obtain ⟨k2, h2⟩ := mod2piUp_cong (mod2piDown x)
  refine ⟨k1 + k2, ?_⟩
  rw [mod2pi, h2, h1]
  push_cast
  ring

/-- An angle already in `(-π, π]` is left unchanged. -/
theorem mod2pi_of_mem {x : ℝ} (h1 : -Real.pi < x) (h2 : x ≤ Real.pi) : mod2pi x = x := by
  rw [mod2pi, mod2piDown_of_le h2, mod2piUp_of_gt h1]

/-- Two angles of `(-π, π]` that differ by a multiple of `2π` are equal. -/
theorem eq_of_cong {x y : ℝ} (hx1 : -Real.pi < x) (hx2 : x ≤ Real.pi)
    (hy1 : -Real.pi < y) (hy2 : y ≤ Real.pi) (k : ℤ) (h : x = y + k * (2 * Real.pi)) :
    x = y := by
  have hpi := Real.pi_pos
  have hk : k = 0 := by
    by_contra hne
    rcases lt_or_gt_of_ne hne with hlt | hgt
    · have : (k : ℝ) ≤ -1 := by exact_mod_cast Int.le_sub_one_of_lt hlt
      nlinarith
    · have : (1 : ℝ) ≤ k := by exact_mod_cast hgt
      nlinarith
  rw [hk] at h
  simpa using h

/-- Function `mod2pi` returns the representative in `(-π, π]`. -/
theorem mod2pi_eq_of_cong {x y : ℝ} (hy1 : -Real.pi < y) (hy2 : y ≤ Real.pi) (k : ℤ)
    (h : x = y + k * (2 * Real.pi)) : mod2pi x = y := by
  obtain ⟨j, hj⟩ := mod2pi_cong x
  obtain ⟨h1, h2⟩ := mod2pi_mem x
  refine eq_of_cong h1 h2 hy1 hy2 (j + k) ?_
  rw [hj, h]
  push_cast
  ring

end Object

/-! ## Frame composition and projection -/

namespace geom.Vector

theorem rotate_rotate_neg (v : Vector ℝ) (theta : ℝ) :
    (v.rotate theta).rotate (-theta) = v := by
  have h := Real.cos_sq_add_sin_sq theta
  ext
  · simp only [rotate, Real.cos_neg, Real.sin_neg]
    linear_combination v.XCoord * h
  · simp only [rotate, Real.cos_neg, Real.sin_neg]
    linear_combination v.YCoord * h

end geom.Vector

namespace rob.OrPtConfig

/-- Claim C1. For all oriented configurations `a` and `b`, `b` with its orientation in
`(-π, π]`, projecting `a + b` into the frame of `a` gives back `b`: same position and
same orientation, hence `a.projection(a + b) == b` for every positive tolerance. -/
theorem projection_plus (a b : OrPtConfig ℝ)
    (hb : -Real.pi < b.Orientation ∧ b.Orientation ≤ Real.pi) :
    a.projection (a.plus b) = b ∧
      ∀ small : ℝ, 0 < small → OrPtConfig.eq small (a.projection (a.plus b)) b := by
  have key : a.projection (a.plus b) = b := by
    obtain ⟨k, hk⟩ := Object.mod2pi_cong (b.Orientation + a.Orientation)
    ext
    · simp [projection, plus, new, projectionPt, Point.translate, Point.sub, Point.origin,
        Vector.rotate]
      linear_combination b.Position.XCoord * Real.cos_sq_add_sin_sq a.Orientation
    · simp [projection, plus, new, projectionPt, Point.translate, Point.sub, Point.origin,
        Vector.rotate]
      linear_combination b.Position.YCoord * Real.cos_sq_add_sin_sq a.Orientation
    · simp only [projection, plus, new]
      apply Object.mod2pi_eq_of_cong hb.1 hb.2 k
      rw [hk]
      ring
  refine ⟨key, fun small hs => ?_⟩
  rw [key]
  have hpi := Real.pi_pos
  refine ⟨⟨?_, ?_⟩, ?_⟩
  · simpa [Object.isZero] using hs
  · simpa [Object.isZero] using hs
  · unfold isParallelTo Object.isZero
    rw [sub_self, Object.mod2pi_of_mem (by linarith) (by linarith)]
    simpa using hs

theorem projection_plus_witness :
    (-Real.pi < (0 : ℝ) ∧ (0 : ℝ) ≤ Real.pi) ∧
      (projection (⟨⟨1, 2⟩, 1⟩ : OrPtConfig ℝ) (plus ⟨⟨1, 2⟩, 1⟩ ⟨⟨3, 4⟩, 0⟩) = ⟨⟨3, 4⟩, 0⟩) :=
  ⟨⟨neg_lt_zero.mpr Real.pi_pos, Real.pi_pos.le⟩,
    (projection_plus ⟨⟨1, 2⟩, 1⟩ ⟨⟨3, 4⟩, 0⟩
      ⟨neg_lt_zero.mpr Real.pi_pos, Real.pi_pos.le⟩).1⟩

end rob.OrPtConfig

/-! ## The order on paths and the choice of the shortest candidate -/

namespace rob.Path

variable {α : Type} [LinearOrderedField α]

/-- Claim C4. `Path::operator<` orders paths by length with non-positive lengths last:
a path of positive length is smaller than one whose length is not positive and not the
other way round; two paths of positive length compare by length; a path whose length
is not positive is smaller than `b` iff the length of `b` is not positive either. -/
theorem lt_spec (small : α) (a b : Path α) :
    (Object.isPositive small a.length ∧ ¬ Object.isPositive small b.length →
        lt small a b ∧ ¬ lt small b a) ∧
    (Object.isPositive small a.length ∧ Object.isPositive small b.length →
        (lt small a b ↔ a.length < b.length)) ∧
    (¬ Object.isPositive small a.length →
        (lt small a b ↔ ¬ Object.isPositive small b.length)) := by
  unfold lt
  refine ⟨?_, ?_, ?_⟩
  · rintro ⟨ha, hb⟩
    exact ⟨Or.inr hb, fun h => h.elim (fun h1 => hb h1.1) (fun h1 => h1 ha)⟩
  · rintro ⟨ha, hb⟩
    exact ⟨fun h => h.elim (fun h1 => h1.2) (fun h1 => absurd hb h1), fun h => Or.inl ⟨ha, h⟩⟩
  · intro ha
    exact ⟨fun h => h.elim (fun h1 => absurd h1.1 ha) id, fun h => Or.inr h⟩

end rob.Path

namespace rob.DubinsLikePath

theorem getSolution_of_lt {α : Type} (checkElemt : Bool) (paths : List (Path α)) (k : Nat)
    (hk : k < 6) : getSolution checkElemt paths (k : Int) = paths.get? k := by
  have h0 : ¬ ((k : Int) < 0) := by omega
  have h1 : ¬ ((k : Int) > 6) := by omega
  have h2 : (0 : Int) ≤ k := by omega
  cases checkElemt <;> simp [getSolution, nbPossiblePaths, h0, h1, h2]

variable {α : Type} [LinearOrderedField α]

theorem isShortest_single (small : α) (p : Path α) : IsShortest small [p] p := by
  intro h
  obtain ⟨q, hq, hpos⟩ := h
  rw [List.mem_singleton] at hq
  subst hq
  refine ⟨hpos, fun r hr _ => ?_⟩
  rw [List.mem_singleton] at hr
  rw [hr]

/-- The winner of one comparison is shortest among the candidates of both sides. -/
theorem isShortest_pick (small : α) (S T : List (Path α)) (a b : Path α)
    (ha : IsShortest small S a) (hb : IsShortest small T b) :
    IsShortest small (S ++ T) (if Path.lt small a b then a else b) := by
  intro h
  obtain ⟨q, hq, hpos⟩ := h
  by_cases hS : ∃ q ∈ S, Object.isPositive small q.length
  · obtain ⟨hpa, hmina⟩ := ha hS
    by_cases hT : ∃ q ∈ T, Object.isPositive small q.length
    · obtain ⟨hpb, hminb⟩ := hb hT
      by_cases hlt : Path.lt small a b
      · rw [if_pos hlt]
        have hab : a.length < b.length := hlt.elim (fun h1 => h1.2) (fun h1 => absurd hpb h1)
        refine ⟨hpa, fun r hr hrp => ?_⟩
        rcases List.mem_append.mp hr with h1 | h1
        · exact hmina r h1 hrp
        · exact hab.le.trans (hminb r h1 hrp)
      · rw [if_neg hlt]
        have hba : b.length ≤ a.length := by
          by_contra hcon
          exact hlt (Or.inl ⟨hpa, not_le.mp hcon⟩)
        refine ⟨hpb, fun r hr hrp => ?_⟩
        rcases List.mem_append.mp hr with h1 | h1
        · exact hba.trans (hmina r h1 hrp)
        · exact hminb r h1 hrp
    · by_cases hlt : Path.lt small a b
      · rw [if_pos hlt]
        refine ⟨hpa, fun r hr hrp => ?_⟩
        rcases List.mem_append.mp hr with h1 | h1
        · exact hmina r h1 hrp
        · exact absurd ⟨r, h1, hrp⟩ hT
      · rw [if_neg hlt]
        have hpb : Object.isPositive small b.length := by
          by_contra hcon
          exact hlt (Or.inr hcon)
        have hba : b.length ≤ a.length := by
          by_contra hcon
          exact hlt (Or.inl ⟨hpa, not_le.mp hcon⟩)
        refine ⟨hpb, fun r hr hrp => ?_⟩
        rcases List.mem_append.mp hr with h1 | h1
        · exact hba.trans (hmina r h1 hrp)
        · exact absurd ⟨r, h1, hrp⟩ hT
  · have hT : ∃ q ∈ T, Object.isPositive small q.length := by
      rcases List.mem_append.mp hq with h1 | h1
      · exact absurd ⟨q, h1, hpos⟩ hS
      · exact ⟨q, h1, hpos⟩
    obtain ⟨hpb, hminb⟩ := hb hT
    by_cases hlt : Path.lt small a b
    · rw [if_pos hlt]
      have hpa : Object.isPositive small a.length :=
        hlt.elim (fun h1 => h1.1) (fun h1 => absurd hpb h1)
      have hab : a.length < b.length := hlt.elim (fun h1 => h1.2) (fun h1 => absurd hpb h1)
      refine ⟨hpa, fun r hr hrp => ?_⟩
      rcases List.mem_append.mp hr with h1 | h1
      · exact absurd ⟨r, h1, hrp⟩ hS
      · exact hab.le.trans (hminb r h1 hrp)
    · rw [if_neg hlt]
      refine ⟨hpb, fun r hr hrp => ?_⟩
      rcases List.mem_append.mp hr with h1 | h1
      · exact absurd ⟨r, h1, hrp⟩ hS
      · exact hminb r h1 hrp

/-- Claim C3. For every array of six candidate paths in which at least one has positive
length, `bestPathIndex` returns an index `best` of the array whose path has positive
length and is no longer than any candidate of positive length. -/
theorem bestPathIndex_shortest (checkElemt : Bool) (small : α) (paths : List (Path α))
    (hlen : paths.length = 6) (hpos : ∃ q ∈ paths, Object.isPositive small q.length) :
    ∃ (best : Int) (w : Path α),
      bestPathIndex checkElemt small paths = some best ∧ 0 ≤ best ∧ best < 6 ∧
      paths.get? best.toNat = some w ∧ Object.isPositive small w.length ∧
      ∀ q ∈ paths, Object.isPositive small q.length → w.length ≤ q.length := by
  obtain ⟨p0, p1, p2, p3, p4, p5, rfl⟩ :
      ∃ p0 p1 p2 p3 p4 p5, paths = [p0, p1, p2, p3, p4, p5] := by
    match paths, hlen with
    | [p0, p1, p2, p3, p4, p5], _ => exact ⟨_, _, _, _, _, _, rfl⟩
  have g0 : getSolution checkElemt [p0, p1, p2, p3, p4, p5] 0 = some p0 := by
    simpa using getSolution_of_lt checkElemt [p0, p1, p2, p3, p4, p5] 0 (by omega)
  have g1 : getSolution checkElemt [p0, p1, p2, p3, p4, p5] 1 = some p1 := by
    simpa using getSolution_of_lt checkElemt [p0, p1, p2, p3, p4, p5] 1 (by omega)
  have g2 : getSolution checkElemt [p0, p1, p2, p3, p4, p5] 2 = some p2 := by
    simpa using getSolution_of_lt checkElemt [p0, p1, p2, p3, p4, p5] 2 (by omega)
  have g3 : getSolution checkElemt [p0, p1, p2, p3, p4, p5] 3 = some p3 := by
    simpa using getSolution_of_lt checkElemt [p0, p1, p2, p3, p4, p5] 3 (by omega)
  have g4 : getSolution checkElemt [p0, p1, p2, p3, p4, p5] 4 = some p4 := by
    simpa using getSolution_of_lt checkElemt [p0, p1, p2, p3, p4, p5] 4 (by omega)
  have g5 : getSolution checkElemt [p0, p1, p2, p3, p4, p5] 5 = some p5 := by
    simpa using getSolution_of_lt checkElemt [p0, p1, p2, p3, p4, p5] 5 (by omega)
  have key := isShortest_pick small _ _ _ _
    (isShortest_pick small _ _ _ _
      (isShortest_pick small _ _ _ _ (isShortest_single small p0) (isShortest_single small p1))
      (isShortest_pick small _ _ _ _ (isShortest_single small p2) (isShortest_single small p3)))
    (isShortest_pick small _ _ _ _ (isShortest_single small p4) (isShortest_single small p5))
  have key2 := key (by simpa using hpos)
  clear key
  simp only [List.cons_append, List.nil_append] at key2
  by_cases h1 : Path.lt small p0 p1 <;> by_cases h2 : Path.lt small p2 p3 <;>
    by_cases h3 : Path.lt small p4 p5 <;>
    by_cases h4 : Path.lt small (if Path.lt small p0 p1 then p0 else p1)
      (if Path.lt small p2 p3 then p2 else p3) <;>
    by_cases h5 : Path.lt small
      (if Path.lt small (if Path.lt small p0 p1 then p0 else p1)
          (if Path.lt small p2 p3 then p2 else p3)
        then (if Path.lt small p0 p1 then p0 else p1)
        else (if Path.lt small p2 p3 then p2 else p3))
      (if Path.lt small p4 p5 then p4 else p5) <;>
    simp only [h1, h2, h3, if_true, if_false] at h4 h5 key2 <;>
    simp only [h4, if_true, if_false] at h5 key2 <;>
    simp only [h5, if_true, if_false] at key2 <;>
    simp only [bestPathIndex, solutionLt, DubinsType.toInt, g0, g1, g2, g3, g4, g5,
      Option.bind_some, Option.some_bind, Option.map_some', h1, h2, h3, h4, h5,
      decide_True, decide_False, if_true, if_false, Bool.false_eq_true] <;>
    exact ⟨_, _, rfl, by norm_num, by norm_num, rfl, key2.1, key2.2⟩

end rob.DubinsLikePath

/-! ## Compound paths: pieces and length -/

namespace rob.CompoundPath

theorem getPieceIndex_of_mem {α : Type} (checkElemt : Bool) (P : CompoundPath α) (i : Int)
    (h1 : 1 ≤ i) (h2 : i ≤ P.nbPieces) : getPieceIndex checkElemt P i = i := by
  unfold getPieceIndex
  cases checkElemt
  · simp
  · simp only [if_true]
    split_ifs <;> omega

theorem piece_of_mem {α : Type} (checkElemt : Bool) (P : CompoundPath α) (i : Int)
    (h1 : 1 ≤ i) (h2 : i ≤ P.nbPieces) : piece checkElemt P i = P._piece i := by
  rw [piece, getPiece, getPieceIndex_of_mem checkElemt P i h1 h2]

/-- Claim C8. With `ISEEML_CHECK_ARRAY_ELEMT`, for a compound path with at least one piece
and any integer index, `piece(index)` is `_piece` at `min(max(index, 1), nbPieces())`:
the first piece below 1, the last piece above `nbPieces()`, and the position handed to
`_piece` lies in `1..nbPieces()`; in a Dubins-like path, whose array `LcPieces` has
`NbPieces` elements, `_piece` then reads inside the array. -/
theorem piece_clamps {α : Type} (P : CompoundPath α) (index : Int) (hnb : 1 ≤ P.nbPieces) :
    piece true P index = P._piece (min (max index 1) P.nbPieces) ∧
    (index < 1 → piece true P index = P._piece 1) ∧
    (index > P.nbPieces → piece true P index = P._piece P.nbPieces) ∧
    getPieceIndex true P index = min (max index 1) P.nbPieces ∧
    1 ≤ getPieceIndex true P index ∧ getPieceIndex true P index ≤ P.nbPieces ∧
    ∀ D : DubinsLikePath α, D.NbPieces = D.LcPieces.length → D.NbPieces = P.nbPieces →
      ∃ lc, D._piece (getPieceIndex true P index) = some lc := by
  have hidx : getPieceIndex true P index = min (max index 1) P.nbPieces := by
    unfold getPieceIndex
    simp only [if_true]
    split_ifs <;> omega
  have hlo : 1 ≤ getPieceIndex true P index := by rw [hidx]; omega
  have hhi : getPieceIndex true P index ≤ P.nbPieces := by rw [hidx]; omega
  refine ⟨?_, ?_, ?_, hidx, hlo, hhi, ?_⟩
  · rw [piece, getPiece, hidx]
  · intro h
    rw [piece, getPiece, hidx]
    congr 1
    omega
  · intro h
    rw [piece, getPiece, hidx]
    congr 1
    omega
  · intro D hD hDP
    have hlt : (getPieceIndex true P index - 1).toNat < D.LcPieces.length := by omega
    refine ⟨D.LcPieces.get ⟨_, hlt⟩, ?_⟩
    unfold DubinsLikePath._piece
    rw [if_pos (by omega)]
    exact List.get?_eq_get hlt

variable {α : Type} [LinearOrderedField α]

theorem Ico_succ_left (i : Int) (n : Nat) :
    Finset.Ico i (i + (n + 1 : Nat)) = insert i (Finset.Ico (i + 1) (i + 1 + n)) := by
  ext j
  simp only [Finset.mem_Ico, Finset.mem_insert]
  push_cast
  omega

theorem lengthLoop_eq (checkElemt : Bool) (P : CompoundPath α) (g : Int → Path α) (n : Nat) :
    ∀ (i : Int) (res : α), (∀ j, i ≤ j → j < i + n → piece checkElemt P j = some (g j)) →
      lengthLoop checkElemt P n i res
        = some (res + ∑ j in Finset.Ico i (i + n), (g j).length) := by
  induction n with
  | zero => intro i res _; simp [lengthLoop]
  | succ n ih =>
    intro i res h
    have hi : piece checkElemt P i = some (g i) := h i le_rfl (by push_cast; omega)
    have hrest : ∀ j, i + 1 ≤ j → j < i + 1 + n → piece checkElemt P j = some (g j) :=
      fun j h1 h2 => h j (by omega) (by push_cast; omega)
    rw [lengthLoop, hi, Option.some_bind, ih (i + 1) _ hrest, Ico_succ_left,
      Finset.sum_insert (by simp), add_assoc]

theorem length_sum_Icc (checkElemt : Bool) (P : CompoundPath α) (g : Int → Path α)
    (hg : ∀ i, 1 ≤ i → i ≤ P.nbPieces → P._piece i = some (g i)) :
    length checkElemt P = some (∑ i in Finset.Icc 1 P.nbPieces, (g i).length) := by
  have hIco : Finset.Ico (1 : Int) (1 + P.nbPieces.toNat) = Finset.Icc 1 P.nbPieces := by
    ext j
    simp only [Finset.mem_Ico, Finset.mem_Icc]
    omega
  have h := lengthLoop_eq checkElemt P g P.nbPieces.toNat 1 0
    (fun j h1 h2 => by rw [piece_of_mem checkElemt P j h1 (by omega)]; exact hg j h1 (by omega))
  rw [hIco, zero_add] at h
  exact h

/-- Claim C9. For every compound path whose pieces `1..nbPieces()` are the paths `g i`,
`length()` is the sum of `(g i).length()` for `i` from 1 to `nbPieces()`; it is 0 when
there are no pieces. -/
theorem length_eq_sum (checkElemt : Bool) (P : CompoundPath α) (g : Int → Path α)
    (hg : ∀ i, 1 ≤ i → i ≤ P.nbPieces → P._piece i = some (g i)) :
    length checkElemt P = some (∑ i in Finset.Icc 1 P.nbPieces, (g i).length) ∧
    (P.nbPieces ≤ 0 → length checkElemt P = some 0) := by
  refine ⟨length_sum_Icc checkElemt P g hg, fun h0 => ?_⟩
  rw [length_sum_Icc checkElemt P g hg, Finset.Icc_eq_empty (by omega), Finset.sum_empty]

/-! ### Sampling a compound path -/

theorem sum_Icc_pred (f : Int → α) (k : Int) (hk : 1 ≤ k) :
    ∑ j in Finset.Icc 1 k, f j = ∑ j in Finset.Icc 1 (k - 1), f j + f k := by
  have h : Finset.Icc 1 k = insert k (Finset.Icc 1 (k - 1)) := by
    ext j
    simp only [Finset.mem_Icc, Finset.mem_insert]
    omega
  rw [h, Finset.sum_insert (by simp), add_comm]

theorem sum_Icc_two (f : Int → α) : ∑ j in Finset.Icc 1 2, f j = f 1 + f 2 := by
  rw [sum_Icc_pred f 2 (by decide)]
  have h : (2 : Int) - 1 = 1 := by decide
  rw [h, Finset.Icc_self, Finset.sum_singleton]

/-- There is a first piece whose cumulated length reaches `s`, when the total length
does. -/
theorem exists_first_piece (g : Int → Path α) (s : α) (nb : Int) (hnb : 1 ≤ nb)
    (hs : s ≤ ∑ j in Finset.Icc 1 nb, (g j).length) :
    ∃ k : Int, 1 ≤ k ∧ k ≤ nb ∧ s ≤ ∑ j in Finset.Icc 1 k, (g j).length ∧
      ∀ j, 1 ≤ j → j < k → ∑ i in Finset.Icc 1 j, (g i).length < s := by
  have hex : ∃ m : Nat, s ≤ ∑ j in Finset.Icc 1 ((m : Int) + 1), (g j).length :=
    ⟨(nb - 1).toNat, by
      have : (((nb - 1).toNat : Int) + 1) = nb := by omega
      rw [this]; exact hs⟩
  refine ⟨(Nat.find hex : Int) + 1, by omega, ?_, Nat.find_spec hex, ?_⟩
  · have hle : Nat.find hex ≤ (nb - 1).toNat := Nat.find_min' hex (by
      have : (((nb - 1).toNat : Int) + 1) = nb := by omega
      rw [this]; exact hs)
    omega
  · intro j hj1 hj2
    have hmin := Nat.find_min hex (m := (j - 1).toNat) (by omega)
    have : (((j - 1).toNat : Int) + 1) = j := by omega
    rw [this] at hmin
    exact not_le.mp hmin

end rob.CompoundPath

/-! ## Linear curvature paths -/

namespace rob.LinCurvPath

/-- Claim C10. For the path built by `LinCurvPath(start, sharpness, length)` and for the
default-constructed one,
`deflection() == start().curvature() * length() + sharpness() * length()^2 / 2`. -/
theorem deflection_eq (checkElemt : Bool) (start : CurvConfig ℝ) (sharpness length : ℝ) :
    (new checkElemt start sharpness length).Deflection
      = (new checkElemt start sharpness length).Start.Curvature
          * (new checkElemt start sharpness length).Length
        + (new checkElemt start sharpness length).Sharpness
          * (new checkElemt start sharpness length).Length ^ 2 / 2 ∧
    (default : LinCurvPath ℝ).Deflection
      = (default : LinCurvPath ℝ).Start.Curvature * (default : LinCurvPath ℝ).Length
        + (default : LinCurvPath ℝ).Sharpness * (default : LinCurvPath ℝ).Length ^ 2 / 2 := by
  constructor
  · simp only [new, Object.sqr]
    ring
  · simp [default, CurvConfig.default]

end rob.LinCurvPath

/-! ## Concrete paths -/

namespace rob.LinCurvPath

/-- The abscissa along a straight segment: start at `(x, y)` with zero heading, zero
curvature and zero sharpness, sampled inside the segment. -/
theorem configAt_line_x (checkElemt : Bool) (x y len s : ℝ) (h0 : 0 ≤ s) (h1 : s ≤ len) :
    (configAt checkElemt (CurvConfig.new ⟨⟨x, y⟩, 0⟩ 0) 0 len s).Position.XCoord = x + s := by
  have hc : (if checkElemt then (if s < 0 then 0 else if s > len then len else s) else s)
      = s := by
    cases checkElemt
    · simp
    · simp [not_lt.mpr h0, not_lt.mpr h1]
  unfold configAt
  simp only [hc]
  simp [CurvConfig.ofPoint, OrPtConfig.new, Point.translate, CurvConfig.new]

end rob.LinCurvPath

namespace rob.ArrayPaths

theorem nbPieces_two {α : Type} (checkElemt : Bool) (a b : Path α) :
    (toCompoundPath checkElemt
      (((new 2).setPath 0 (.basic a)).setPath 1 (.basic b))).nbPieces = 2 := rfl

theorem piece_two {α : Type} (checkElemt : Bool) (a b : Path α) (i : Int) (h1 : 1 ≤ i)
    (h2 : i ≤ (toCompoundPath checkElemt
      (((new 2).setPath 0 (.basic a)).setPath 1 (.basic b))).nbPieces) :
    (toCompoundPath checkElemt
      (((new 2).setPath 0 (.basic a)).setPath 1 (.basic b)))._piece i
      = some (if i = 1 then a else b) := by
  rw [nbPieces_two] at h2
  have h : i = 1 ∨ i = 2 := by omega
  rcases h with rfl | rfl <;> rfl

theorem nbPieces_one {α : Type} (checkElemt : Bool) (a : Path α) :
    (toCompoundPath checkElemt ((new 1).setPath 0 (.basic a))).nbPieces = 1 := rfl

theorem piece_one {α : Type} (checkElemt : Bool) (a : Path α) (i : Int) (h1 : 1 ≤ i)
    (h2 : i ≤ (toCompoundPath checkElemt ((new 1).setPath 0 (.basic a))).nbPieces) :
    (toCompoundPath checkElemt ((new 1).setPath 0 (.basic a)))._piece i = some a := by
  rw [nbPieces_one] at h2
  have h : i = 1 := by omega
  subst h
  rfl

end rob.ArrayPaths

namespace rob.CompoundPath

/-- Claim C7, the code at the failing input: with `ISEEML_CHECK_ARRAY_ELEMT` only, an
`ArrayPaths` of one elementary slot, a straight segment of length 2 starting at
`(0, 0)`, sampled at `s = 3`.  The loop subtracts the length of the last piece before it
stops, so the code returns `piece(1)[1]`, at abscissa 1, and not `end()`, at abscissa
2. -/
theorem operatorIdx_beyond_length :
    length true (ArrayPaths.toCompoundPath true
      ((ArrayPaths.new 1).setPath 0 (.basic ((LinCurvPath.new true (CurvConfig.new ⟨⟨0, 0⟩, 0⟩ 0) 0 2).toPath true)))) = some 2 ∧
    operatorIdx false true (ArrayPaths.toCompoundPath true
      ((ArrayPaths.new 1).setPath 0 (.basic ((LinCurvPath.new true (CurvConfig.new ⟨⟨0, 0⟩, 0⟩ 0) 0 2).toPath true)))) 2 3
      = Outcome.value ((LinCurvPath.new true (CurvConfig.new ⟨⟨0, 0⟩, 0⟩ 0) 0 2).operatorIdx true 1) ∧
    ((LinCurvPath.new true (CurvConfig.new ⟨⟨0, 0⟩, 0⟩ 0) 0 2).operatorIdx true 1).Position.XCoord = 1 ∧
    end_ true (ArrayPaths.toCompoundPath true
      ((ArrayPaths.new 1).setPath 0 (.basic ((LinCurvPath.new true (CurvConfig.new ⟨⟨0, 0⟩, 0⟩ 0) 0 2).toPath true))))
      = some (LinCurvPath.new true (CurvConfig.new ⟨⟨0, 0⟩, 0⟩ 0) 0 2).End.toOrPtConfig ∧
    (LinCurvPath.new true (CurvConfig.new ⟨⟨0, 0⟩, 0⟩ 0) 0 2).End.Position.XCoord = 2 := by
  have hx1 : ((LinCurvPath.new true (CurvConfig.new ⟨⟨0, 0⟩, 0⟩ 0) 0 2).operatorIdx true 1).Position.XCoord = 1 := by
    have h := LinCurvPath.configAt_line_x true 0 0 2 1 zero_le_one one_le_two
    rw [zero_add] at h
    exact h
  have hx2 : (LinCurvPath.new true (CurvConfig.new ⟨⟨0, 0⟩, 0⟩ 0) 0 2).End.Position.XCoord = 2 := by
    have h := LinCurvPath.configAt_line_x true 0 0 2 2 zero_le_two le_rfl
    rw [zero_add] at h
    exact h
  have hg : ∀ i, 1 ≤ i → i ≤ (ArrayPaths.toCompoundPath true
      ((ArrayPaths.new 1).setPath 0 (.basic ((LinCurvPath.new true (CurvConfig.new ⟨⟨0, 0⟩, 0⟩ 0) 0 2).toPath true)))).nbPieces → (ArrayPaths.toCompoundPath true
      ((ArrayPaths.new 1).setPath 0 (.basic ((LinCurvPath.new true (CurvConfig.new ⟨⟨0, 0⟩, 0⟩ 0) 0 2).toPath true))))._piece i = some ((fun _ : Int => ((LinCurvPath.new true (CurvConfig.new ⟨⟨0, 0⟩, 0⟩ 0) 0 2).toPath true)) i) :=
    ArrayPaths.piece_one true ((LinCurvPath.new true (CurvConfig.new ⟨⟨0, 0⟩, 0⟩ 0) 0 2).toPath true)
  have hlen := length_sum_Icc true _ _ hg
  rw [ArrayPaths.nbPieces_one] at hlen
  simp [LinCurvPath.toPath, LinCurvPath.new] at hlen
  have hp1 : piece true (ArrayPaths.toCompoundPath true
      ((ArrayPaths.new 1).setPath 0 (.basic ((LinCurvPath.new true (CurvConfig.new ⟨⟨0, 0⟩, 0⟩ 0) 0 2).toPath true)))) 1 = some ((LinCurvPath.new true (CurvConfig.new ⟨⟨0, 0⟩, 0⟩ 0) 0 2).toPath true) := rfl
  refine ⟨hlen, ?_, hx1, rfl, hx2⟩
  rw [operatorIdx, hp1]
  have h32 : (3 : ℝ) > (((LinCurvPath.new true (CurvConfig.new ⟨⟨0, 0⟩, 0⟩ 0) 0 2).toPath true)).length := by
    simp [LinCurvPath.toPath, LinCurvPath.new]
    norm_num
  have h11 : ¬ ((3 : ℝ) - (((LinCurvPath.new true (CurvConfig.new ⟨⟨0, 0⟩, 0⟩ 0) 0 2).toPath true)).length > 3 - (((LinCurvPath.new true (CurvConfig.new ⟨⟨0, 0⟩, 0⟩ 0) 0 2).toPath true)).length) := lt_irrefl _
  have h31 : (3 : ℝ) - (((LinCurvPath.new true (CurvConfig.new ⟨⟨0, 0⟩, 0⟩ 0) 0 2).toPath true)).length = 1 := by
    simp [LinCurvPath.toPath, LinCurvPath.new]
    norm_num
  simp only [operatorLoop, if_pos h32, Bool.false_and, Bool.false_eq_true, if_false,
    ArrayPaths.nbPieces_one, beq_self_eq_true, Bool.and_self, if_true, if_neg h11, hp1, h31,
    gt_iff_lt, lt_self_iff_false]
  rfl

/-! ## The theorems at concrete paths -/

theorem length_two_unit :
    length false (ArrayPaths.toCompoundPath false
      (((ArrayPaths.new 2).setPath 0 (.basic ((LinCurvPath.new false (CurvConfig.new ⟨⟨0, 0⟩, 0⟩ 0) 0 1).toPath false))).setPath 1 (.basic ((LinCurvPath.new false (CurvConfig.new ⟨⟨5, 5⟩, 0⟩ 0) 0 1).toPath false)))) = some 2 := by
  have hlen := length_sum_Icc false _ _ (ArrayPaths.piece_two false ((LinCurvPath.new false (CurvConfig.new ⟨⟨0, 0⟩, 0⟩ 0) 0 1).toPath false) ((LinCurvPath.new false (CurvConfig.new ⟨⟨5, 5⟩, 0⟩ 0) 0 1).toPath false))
  rw [ArrayPaths.nbPieces_two, sum_Icc_two] at hlen
  have h12 : ((1 : ℝ) + 1) = 2 := by norm_num
  exact hlen.trans (congrArg some h12)

theorem piece_two_lc (i : Int) (h1 : 1 ≤ i) (h2 : i ≤ (ArrayPaths.toCompoundPath false
      (((ArrayPaths.new 2).setPath 0 (.basic ((LinCurvPath.new false (CurvConfig.new ⟨⟨0, 0⟩, 0⟩ 0) 0 1).toPath false))).setPath 1 (.basic ((LinCurvPath.new false (CurvConfig.new ⟨⟨5, 5⟩, 0⟩ 0) 0 1).toPath false)))).nbPieces) :
    (ArrayPaths.toCompoundPath false
      (((ArrayPaths.new 2).setPath 0 (.basic ((LinCurvPath.new false (CurvConfig.new ⟨⟨0, 0⟩, 0⟩ 0) 0 1).toPath false))).setPath 1 (.basic ((LinCurvPath.new false (CurvConfig.new ⟨⟨5, 5⟩, 0⟩ 0) 0 1).toPath false))))._piece i
      = some (((fun i : Int => if i = 1 then (LinCurvPath.new false (CurvConfig.new ⟨⟨0, 0⟩, 0⟩ 0) 0 1) else (LinCurvPath.new false (CurvConfig.new ⟨⟨5, 5⟩, 0⟩ 0) 0 1)) i).toPath false) := by
  rw [ArrayPaths.piece_two false _ _ i h1 h2]
  by_cases hi : i = 1
  · simp only [hi, if_true]
  · simp only [hi, if_false]

theorem piece_clamps_witness :
    (1 ≤ (ArrayPaths.toCompoundPath false
      (((ArrayPaths.new 2).setPath 0 (.basic ((LinCurvPath.new false (CurvConfig.new ⟨⟨0, 0⟩, 0⟩ 0) 0 1).toPath false))).setPath 1 (.basic ((LinCurvPath.new false (CurvConfig.new ⟨⟨5, 5⟩, 0⟩ 0) 0 1).toPath false)))).nbPieces) ∧
    (piece true (ArrayPaths.toCompoundPath false
      (((ArrayPaths.new 2).setPath 0 (.basic ((LinCurvPath.new false (CurvConfig.new ⟨⟨0, 0⟩, 0⟩ 0) 0 1).toPath false))).setPath 1 (.basic ((LinCurvPath.new false (CurvConfig.new ⟨⟨5, 5⟩, 0⟩ 0) 0 1).toPath false)))) 7 = (ArrayPaths.toCompoundPath false
      (((ArrayPaths.new 2).setPath 0 (.basic ((LinCurvPath.new false (CurvConfig.new ⟨⟨0, 0⟩, 0⟩ 0) 0 1).toPath false))).setPath 1 (.basic ((LinCurvPath.new false (CurvConfig.new ⟨⟨5, 5⟩, 0⟩ 0) 0 1).toPath false))))._piece (min (max 7 1) (ArrayPaths.toCompoundPath false
      (((ArrayPaths.new 2).setPath 0 (.basic ((LinCurvPath.new false (CurvConfig.new ⟨⟨0, 0⟩, 0⟩ 0) 0 1).toPath false))).setPath 1 (.basic ((LinCurvPath.new false (CurvConfig.new ⟨⟨5, 5⟩, 0⟩ 0) 0 1).toPath false)))).nbPieces) ∧
    ((7 : Int) < 1 → piece true (ArrayPaths.toCompoundPath false
      (((ArrayPaths.new 2).setPath 0 (.basic ((LinCurvPath.new false (CurvConfig.new ⟨⟨0, 0⟩, 0⟩ 0) 0 1).toPath false))).setPath 1 (.basic ((LinCurvPath.new false (CurvConfig.new ⟨⟨5, 5⟩, 0⟩ 0) 0 1).toPath false)))) 7 = (ArrayPaths.toCompoundPath false
      (((ArrayPaths.new 2).setPath 0 (.basic ((LinCurvPath.new false (CurvConfig.new ⟨⟨0, 0⟩, 0⟩ 0) 0 1).toPath false))).setPath 1 (.basic ((LinCurvPath.new false (CurvConfig.new ⟨⟨5, 5⟩, 0⟩ 0) 0 1).toPath false))))._piece 1) ∧
    ((7 : Int) > (ArrayPaths.toCompoundPath false
      (((ArrayPaths.new 2).setPath 0 (.basic ((LinCurvPath.new false (CurvConfig.new ⟨⟨0, 0⟩, 0⟩ 0) 0 1).toPath false))).setPath 1 (.basic ((LinCurvPath.new false (CurvConfig.new ⟨⟨5, 5⟩, 0⟩ 0) 0 1).toPath false)))).nbPieces → piece true (ArrayPaths.toCompoundPath false
      (((ArrayPaths.new 2).setPath 0 (.basic ((LinCurvPath.new false (CurvConfig.new ⟨⟨0, 0⟩, 0⟩ 0) 0 1).toPath false))).setPath 1 (.basic ((LinCurvPath.new false (CurvConfig.new ⟨⟨5, 5⟩, 0⟩ 0) 0 1).toPath false)))) 7 = (ArrayPaths.toCompoundPath false
      (((ArrayPaths.new 2).setPath 0 (.basic ((LinCurvPath.new false (CurvConfig.new ⟨⟨0, 0⟩, 0⟩ 0) 0 1).toPath false))).setPath 1 (.basic ((LinCurvPath.new false (CurvConfig.new ⟨⟨5, 5⟩, 0⟩ 0) 0 1).toPath false))))._piece (ArrayPaths.toCompoundPath false
      (((ArrayPaths.new 2).setPath 0 (.basic ((LinCurvPath.new false (CurvConfig.new ⟨⟨0, 0⟩, 0⟩ 0) 0 1).toPath false))).setPath 1 (.basic ((LinCurvPath.new false (CurvConfig.new ⟨⟨5, 5⟩, 0⟩ 0) 0 1).toPath false)))).nbPieces) ∧
    getPieceIndex true (ArrayPaths.toCompoundPath false
      (((ArrayPaths.new 2).setPath 0 (.basic ((LinCurvPath.new false (CurvConfig.new ⟨⟨0, 0⟩, 0⟩ 0) 0 1).toPath false))).setPath 1 (.basic ((LinCurvPath.new false (CurvConfig.new ⟨⟨5, 5⟩, 0⟩ 0) 0 1).toPath false)))) 7 = min (max 7 1) (ArrayPaths.toCompoundPath false
      (((ArrayPaths.new 2).setPath 0 (.basic ((LinCurvPath.new false (CurvConfig.new ⟨⟨0, 0⟩, 0⟩ 0) 0 1).toPath false))).setPath 1 (.basic ((LinCurvPath.new false (CurvConfig.new ⟨⟨5, 5⟩, 0⟩ 0) 0 1).toPath false)))).nbPieces ∧
    1 ≤ getPieceIndex true (ArrayPaths.toCompoundPath false
      (((ArrayPaths.new 2).setPath 0 (.basic ((LinCurvPath.new false (CurvConfig.new ⟨⟨0, 0⟩, 0⟩ 0) 0 1).toPath false))).setPath 1 (.basic ((LinCurvPath.new false (CurvConfig.new ⟨⟨5, 5⟩, 0⟩ 0) 0 1).toPath false)))) 7 ∧ getPieceIndex true (ArrayPaths.toCompoundPath false
      (((ArrayPaths.new 2).setPath 0 (.basic ((LinCurvPath.new false (CurvConfig.new ⟨⟨0, 0⟩, 0⟩ 0) 0 1).toPath false))).setPath 1 (.basic ((LinCurvPath.new false (CurvConfig.new ⟨⟨5, 5⟩, 0⟩ 0) 0 1).toPath false)))) 7 ≤ (ArrayPaths.toCompoundPath false
      (((ArrayPaths.new 2).setPath 0 (.basic ((LinCurvPath.new false (CurvConfig.new ⟨⟨0, 0⟩, 0⟩ 0) 0 1).toPath false))).setPath 1 (.basic ((LinCurvPath.new false (CurvConfig.new ⟨⟨5, 5⟩, 0⟩ 0) 0 1).toPath false)))).nbPieces ∧
    ∀ D : DubinsLikePath ℝ, D.NbPieces = D.LcPieces.length → D.NbPieces = (ArrayPaths.toCompoundPath false
      (((ArrayPaths.new 2).setPath 0 (.basic ((LinCurvPath.new false (CurvConfig.new ⟨⟨0, 0⟩, 0⟩ 0) 0 1).toPath false))).setPath 1 (.basic ((LinCurvPath.new false (CurvConfig.new ⟨⟨5, 5⟩, 0⟩ 0) 0 1).toPath false)))).nbPieces →
      ∃ lc, D._piece (getPieceIndex true (ArrayPaths.toCompoundPath false
      (((ArrayPaths.new 2).setPath 0 (.basic ((LinCurvPath.new false (CurvConfig.new ⟨⟨0, 0⟩, 0⟩ 0) 0 1).toPath false))).setPath 1 (.basic ((LinCurvPath.new false (CurvConfig.new ⟨⟨5, 5⟩, 0⟩ 0) 0 1).toPath false)))) 7) = some lc) :=
  ⟨by decide, piece_clamps _ 7 (by decide)⟩

theorem length_eq_sum_witness :
    (∀ i : Int, 1 ≤ i → i ≤ (ArrayPaths.toCompoundPath false
      (((ArrayPaths.new 2).setPath 0 (.basic ((LinCurvPath.new false (CurvConfig.new ⟨⟨0, 0⟩, 0⟩ 0) 0 1).toPath false))).setPath 1 (.basic ((LinCurvPath.new false (CurvConfig.new ⟨⟨5, 5⟩, 0⟩ 0) 0 1).toPath false)))).nbPieces →
      (ArrayPaths.toCompoundPath false
      (((ArrayPaths.new 2).setPath 0 (.basic ((LinCurvPath.new false (CurvConfig.new ⟨⟨0, 0⟩, 0⟩ 0) 0 1).toPath false))).setPath 1 (.basic ((LinCurvPath.new false (CurvConfig.new ⟨⟨5, 5⟩, 0⟩ 0) 0 1).toPath false))))._piece i = some ((fun i : Int => if i = 1 then ((LinCurvPath.new false (CurvConfig.new ⟨⟨0, 0⟩, 0⟩ 0) 0 1).toPath false) else ((LinCurvPath.new false (CurvConfig.new ⟨⟨5, 5⟩, 0⟩ 0) 0 1).toPath false)) i)) ∧
    (length false (ArrayPaths.toCompoundPath false
      (((ArrayPaths.new 2).setPath 0 (.basic ((LinCurvPath.new false (CurvConfig.new ⟨⟨0, 0⟩, 0⟩ 0) 0 1).toPath false))).setPath 1 (.basic ((LinCurvPath.new false (CurvConfig.new ⟨⟨5, 5⟩, 0⟩ 0) 0 1).toPath false))))
        = some (∑ i in Finset.Icc 1 (ArrayPaths.toCompoundPath false
      (((ArrayPaths.new 2).setPath 0 (.basic ((LinCurvPath.new false (CurvConfig.new ⟨⟨0, 0⟩, 0⟩ 0) 0 1).toPath false))).setPath 1 (.basic ((LinCurvPath.new false (CurvConfig.new ⟨⟨5, 5⟩, 0⟩ 0) 0 1).toPath false)))).nbPieces, ((fun i : Int => if i = 1 then ((LinCurvPath.new false (CurvConfig.new ⟨⟨0, 0⟩, 0⟩ 0) 0 1).toPath false) else ((LinCurvPath.new false (CurvConfig.new ⟨⟨5, 5⟩, 0⟩ 0) 0 1).toPath false)) i).length) ∧
      ((ArrayPaths.toCompoundPath false
      (((ArrayPaths.new 2).setPath 0 (.basic ((LinCurvPath.new false (CurvConfig.new ⟨⟨0, 0⟩, 0⟩ 0) 0 1).toPath false))).setPath 1 (.basic ((LinCurvPath.new false (CurvConfig.new ⟨⟨5, 5⟩, 0⟩ 0) 0 1).toPath false)))).nbPieces ≤ 0 → length false (ArrayPaths.toCompoundPath false
      (((ArrayPaths.new 2).setPath 0 (.basic ((LinCurvPath.new false (CurvConfig.new ⟨⟨0, 0⟩, 0⟩ 0) 0 1).toPath false))).setPath 1 (.basic ((LinCurvPath.new false (CurvConfig.new ⟨⟨5, 5⟩, 0⟩ 0) 0 1).toPath false)))) = some 0)) :=
  ⟨ArrayPaths.piece_two false _ _,
    length_eq_sum false _ _ (ArrayPaths.piece_two false _ _)⟩

end rob.CompoundPath

namespace rob.DubinsLikePath

theorem bestPathIndex_shortest_witness :
    ([((LinCurvPath.new false (CurvConfig.new ⟨⟨0, 0⟩, 0⟩ 0) 0 0).toPath false),
      ((LinCurvPath.new false (CurvConfig.new ⟨⟨0, 0⟩, 0⟩ 0) 0 3).toPath false),
      ((LinCurvPath.new false (CurvConfig.new ⟨⟨0, 0⟩, 0⟩ 0) 0 2).toPath false),
      ((LinCurvPath.new false (CurvConfig.new ⟨⟨0, 0⟩, 0⟩ 0) 0 5).toPath false),
      ((LinCurvPath.new false (CurvConfig.new ⟨⟨0, 0⟩, 0⟩ 0) 0 0).toPath false),
      ((LinCurvPath.new false (CurvConfig.new ⟨⟨0, 0⟩, 0⟩ 0) 0 4).toPath false)] : List (Path ℝ)).length = 6 ∧
    (∃ q ∈ ([((LinCurvPath.new false (CurvConfig.new ⟨⟨0, 0⟩, 0⟩ 0) 0 0).toPath false),
      ((LinCurvPath.new false (CurvConfig.new ⟨⟨0, 0⟩, 0⟩ 0) 0 3).toPath false),
      ((LinCurvPath.new false (CurvConfig.new ⟨⟨0, 0⟩, 0⟩ 0) 0 2).toPath false),
      ((LinCurvPath.new false (CurvConfig.new ⟨⟨0, 0⟩, 0⟩ 0) 0 5).toPath false),
      ((LinCurvPath.new false (CurvConfig.new ⟨⟨0, 0⟩, 0⟩ 0) 0 0).toPath false),
      ((LinCurvPath.new false (CurvConfig.new ⟨⟨0, 0⟩, 0⟩ 0) 0 4).toPath false)] : List (Path ℝ)), Object.isPositive (1 / 1000) q.length) ∧
    ∃ (best : Int) (w : Path ℝ),
      bestPathIndex false (1 / 1000) [((LinCurvPath.new false (CurvConfig.new ⟨⟨0, 0⟩, 0⟩ 0) 0 0).toPath false),
      ((LinCurvPath.new false (CurvConfig.new ⟨⟨0, 0⟩, 0⟩ 0) 0 3).toPath false),
      ((LinCurvPath.new false (CurvConfig.new ⟨⟨0, 0⟩, 0⟩ 0) 0 2).toPath false),
      ((LinCurvPath.new false (CurvConfig.new ⟨⟨0, 0⟩, 0⟩ 0) 0 5).toPath false),
      ((LinCurvPath.new false (CurvConfig.new ⟨⟨0, 0⟩, 0⟩ 0) 0 0).toPath false),
      ((LinCurvPath.new false (CurvConfig.new ⟨⟨0, 0⟩, 0⟩ 0) 0 4).toPath false)] = some best ∧ 0 ≤ best ∧ best < 6 ∧
      ([((LinCurvPath.new false (CurvConfig.new ⟨⟨0, 0⟩, 0⟩ 0) 0 0).toPath false),
      ((LinCurvPath.new false (CurvConfig.new ⟨⟨0, 0⟩, 0⟩ 0) 0 3).toPath false),
      ((LinCurvPath.new false (CurvConfig.new ⟨⟨0, 0⟩, 0⟩ 0) 0 2).toPath false),
      ((LinCurvPath.new false (CurvConfig.new ⟨⟨0, 0⟩, 0⟩ 0) 0 5).toPath false),
      ((LinCurvPath.new false (CurvConfig.new ⟨⟨0, 0⟩, 0⟩ 0) 0 0).toPath false),
      ((LinCurvPath.new false (CurvConfig.new ⟨⟨0, 0⟩, 0⟩ 0) 0 4).toPath false)] : List (Path ℝ)).get? best.toNat = some w ∧
      Object.isPositive (1 / 1000) w.length ∧
      ∀ q ∈ ([((LinCurvPath.new false (CurvConfig.new ⟨⟨0, 0⟩, 0⟩ 0) 0 0).toPath false),
      ((LinCurvPath.new false (CurvConfig.new ⟨⟨0, 0⟩, 0⟩ 0) 0 3).toPath false),
      ((LinCurvPath.new false (CurvConfig.new ⟨⟨0, 0⟩, 0⟩ 0) 0 2).toPath false),
      ((LinCurvPath.new false (CurvConfig.new ⟨⟨0, 0⟩, 0⟩ 0) 0 5).toPath false),
      ((LinCurvPath.new false (CurvConfig.new ⟨⟨0, 0⟩, 0⟩ 0) 0 0).toPath false),
      ((LinCurvPath.new false (CurvConfig.new ⟨⟨0, 0⟩, 0⟩ 0) 0 4).toPath false)] : List (Path ℝ)), Object.isPositive (1 / 1000) q.length →
        w.length ≤ q.length :=
  have hpos : ∃ q ∈ ([((LinCurvPath.new false (CurvConfig.new ⟨⟨0, 0⟩, 0⟩ 0) 0 0).toPath false),
      ((LinCurvPath.new false (CurvConfig.new ⟨⟨0, 0⟩, 0⟩ 0) 0 3).toPath false),
      ((LinCurvPath.new false (CurvConfig.new ⟨⟨0, 0⟩, 0⟩ 0) 0 2).toPath false),
      ((LinCurvPath.new false (CurvConfig.new ⟨⟨0, 0⟩, 0⟩ 0) 0 5).toPath false),
      ((LinCurvPath.new false (CurvConfig.new ⟨⟨0, 0⟩, 0⟩ 0) 0 0).toPath false),
      ((LinCurvPath.new false (CurvConfig.new ⟨⟨0, 0⟩, 0⟩ 0) 0 4).toPath false)] : List (Path ℝ)), Object.isPositive (1 / 1000) q.length :=
    ⟨((LinCurvPath.new false (CurvConfig.new ⟨⟨0, 0⟩, 0⟩ 0) 0 3).toPath false), List.mem_cons_of_mem _ (List.mem_cons_self _ _), by
      show (3 : ℝ) > 1 / 1000
      norm_num⟩
  ⟨rfl, hpos, bestPathIndex_shortest false (1 / 1000) _ rfl hpos⟩

end rob.DubinsLikePath

/-! ## Sampling a linear curvature path at its length -/

namespace rob.LinCurvPath

/-- Claim C11. For every `LinCurvPath` `p` built by the main constructor
`LinCurvPath(start, sharpness, length)`, in either build, sampling at its length returns
its end configuration: `p[p.length()]` is `p.end()`, also through the `Path`
interface. -/
theorem operatorIdx_length (checkElemt : Bool) (start : CurvConfig ℝ) (sharpness length : ℝ) :
    operatorIdx checkElemt (new checkElemt start sharpness length)
        (new checkElemt start sharpness length).Length
      = (new checkElemt start sharpness length).End ∧
    ((new checkElemt start sharpness length).toPath checkElemt).operatorIdx
        ((new checkElemt start sharpness length).toPath checkElemt).length
      = (new checkElemt start sharpness length).End ∧
    (((new checkElemt start sharpness length).toPath checkElemt).operatorIdx
        ((new checkElemt start sharpness length).toPath checkElemt).length).toOrPtConfig
      = ((new checkElemt start sharpness length).toPath checkElemt).end_ :=
  ⟨rfl, rfl, rfl⟩

end rob.LinCurvPath

/-! ## The number of pieces of a turn -/

namespace rob.DubinsPath

/-- Claim C14. For every deflection, `DubinsPath::turnNbPieces(defl)` is 0 when the
deflection is zero, as tested by `isZero` with the tolerance `smallDouble`, and 1 when
it is not. -/
theorem dubinsTurnNbPieces_spec {α : Type} [LinearOrderedField α] (small defl : α) :
    (Object.isZero small defl → turnNbPieces small defl = 0) ∧
    (¬ Object.isZero small defl → turnNbPieces small defl = 1) ∧
    (turnNbPieces small defl = 0 ∨ turnNbPieces small defl = 1) := by
  unfold turnNbPieces
  by_cases h : Object.isZero small defl
  · simp [h]
  · simp [h]

end rob.DubinsPath

namespace rob.FscPath

/-- Claim C15, amended. For every deflection, `FscPath::turnNbPieces(defl)` is 1 when the
deflection is zero, as tested by `isZero`, 2 when it is not zero and
`|defl| <= limDefl()`, and 3 when it is not zero and `|defl| > limDefl()`. -/
theorem fscTurnNbPieces_spec {α : Type} [LinearOrderedField α] (small : α) (F : FscPath α)
    (defl : α) :
    (Object.isZero small defl → turnNbPieces small F defl = 1) ∧
    (¬ Object.isZero small defl → |defl| ≤ F.limDefl → turnNbPieces small F defl = 2) ∧
    (¬ Object.isZero small defl → |defl| > F.limDefl → turnNbPieces small F defl = 3) := by
  unfold turnNbPieces isShortTurn
  refine ⟨fun h => by simp [h], fun h1 h2 => by simp [h1, h2], fun h1 h2 => ?_⟩
  simp [h1, not_le.mpr h2]

/-- Claim C15 fails as stated: for the deflection 0, with the tolerance `1 / 1000` and a
limit deflection of 1, `turnNbPieces` gives 1 piece and not 0. -/
theorem fscTurnNbPieces_counterexample :
    Object.isZero (1 / 1000 : ℚ) 0 ∧
    turnNbPieces (1 / 1000 : ℚ)
      { toDubinsLikePath := DubinsLikePath.new DubinsType.lsl 1
        MaximumCurvDerivative := 1, LimDefl := 1, TurnRadius := 1, TurnAngle := 1 } 0 = 1 ∧
    turnNbPieces (1 / 1000 : ℚ)
      { toDubinsLikePath := DubinsLikePath.new DubinsType.lsl 1
        MaximumCurvDerivative := 1, LimDefl := 1, TurnRadius := 1, TurnAngle := 1 } 0 ≠ 0 := by
  have h : Object.isZero (1 / 1000 : ℚ) 0 := by
    unfold Object.isZero
    norm_num
  refine ⟨h, ?_, ?_⟩
  · rw [turnNbPieces, if_pos h]
  · rw [turnNbPieces, if_pos h]
    decide

end rob.FscPath

/-! ## Orientation of a configuration -/

namespace rob.OrPtConfig

/-- In exact arithmetic, where the two loops of `mod2pi` end: for every point `P` and
every real `theta`, the orientation of `OrPtConfig(P, theta)`, as of
`OrPtConfig(x, y, theta)`, lies in `(-π, π]` and differs from `theta` by an integer
multiple of `2π`; the position is `P`. -/
theorem new_orientation (P : Point ℝ) (theta : ℝ) :
    (new P theta).Position = P ∧
    -Real.pi < (new P theta).Orientation ∧ (new P theta).Orientation ≤ Real.pi ∧
    (∃ k : ℤ, (new P theta).Orientation = theta + k * (2 * Real.pi)) ∧
    (ofCoords P.XCoord P.YCoord theta) = new P theta :=
  ⟨rfl, (Object.mod2pi_mem theta).1, (Object.mod2pi_mem theta).2, Object.mod2pi_cong theta, rfl⟩

/-- Claim C18. For every configuration `c` whose orientation lies in `(-π, π]`,
`c.uTurn()` and `c.opposite()` keep the position and give an orientation that lies in
`(-π, π]` and is the orientation of `c` plus `π` or minus `π`. -/
theorem uTurn_spec (c : OrPtConfig ℝ)
    (hc : -Real.pi < c.Orientation ∧ c.Orientation ≤ Real.pi) :
    c.uTurn.Position = c.Position ∧
    -Real.pi < c.uTurn.Orientation ∧ c.uTurn.Orientation ≤ Real.pi ∧
    (c.uTurn.Orientation = c.Orientation + Real.pi ∨
      c.uTurn.Orientation = c.Orientation - Real.pi) ∧
    c.opposite = c.uTurn := by
  have hpi := Real.pi_pos
  refine ⟨rfl, ?_, ?_, ?_, rfl⟩
  · show -Real.pi < c.Orientation + (if c.Orientation > 0 then -Real.pi else Real.pi)
    split_ifs with h <;> linarith [hc.1, hc.2]
  · show c.Orientation + (if c.Orientation > 0 then -Real.pi else Real.pi) ≤ Real.pi
    split_ifs with h
    · linarith [hc.2]
    · linarith [not_lt.mp h]
  · show c.Orientation + (if c.Orientation > 0 then -Real.pi else Real.pi) = _ ∨
      c.Orientation + (if c.Orientation > 0 then -Real.pi else Real.pi) = _
    split_ifs with h
    · right; ring
    · left; rfl

theorem uTurn_spec_witness :
    (-Real.pi < (⟨⟨1, 2⟩, 0⟩ : OrPtConfig ℝ).Orientation ∧
      (⟨⟨1, 2⟩, 0⟩ : OrPtConfig ℝ).Orientation ≤ Real.pi) ∧
    ((⟨⟨1, 2⟩, 0⟩ : OrPtConfig ℝ).uTurn.Position = (⟨⟨1, 2⟩, 0⟩ : OrPtConfig ℝ).Position ∧
    -Real.pi < (⟨⟨1, 2⟩, 0⟩ : OrPtConfig ℝ).uTurn.Orientation ∧
    (⟨⟨1, 2⟩, 0⟩ : OrPtConfig ℝ).uTurn.Orientation ≤ Real.pi ∧
    ((⟨⟨1, 2⟩, 0⟩ : OrPtConfig ℝ).uTurn.Orientation
        = (⟨⟨1, 2⟩, 0⟩ : OrPtConfig ℝ).Orientation + Real.pi ∨
      (⟨⟨1, 2⟩, 0⟩ : OrPtConfig ℝ).uTurn.Orientation
        = (⟨⟨1, 2⟩, 0⟩ : OrPtConfig ℝ).Orientation - Real.pi) ∧
    (⟨⟨1, 2⟩, 0⟩ : OrPtConfig ℝ).opposite = (⟨⟨1, 2⟩, 0⟩ : OrPtConfig ℝ).uTurn) :=
  ⟨⟨neg_lt_zero.mpr Real.pi_pos, Real.pi_pos.le⟩,
    uTurn_spec ⟨⟨1, 2⟩, 0⟩ ⟨neg_lt_zero.mpr Real.pi_pos, Real.pi_pos.le⟩⟩

/-- Claim C19. For all oriented configurations `P` and `Q`, `Q` with its orientation in
`(-π, π]`, composing onto `P` the projection `R = P.projection(Q)` gives back `Q`: same
position and same orientation, hence `P + R == Q` for every positive tolerance. -/
theorem plus_projection (P Q : OrPtConfig ℝ)
    (hQ : -Real.pi < Q.Orientation ∧ Q.Orientation ≤ Real.pi) :
    P.plus (P.projection Q) = Q ∧
      ∀ small : ℝ, 0 < small → OrPtConfig.eq small (P.plus (P.projection Q)) Q := by
  have key : P.plus (P.projection Q) = Q := by
    obtain ⟨k, hk⟩ := Object.mod2pi_cong (Q.Orientation - P.Orientation)
    ext
    · simp [projection, plus, new, projectionPt, Point.translate, Point.sub, Point.origin,
        Vector.rotate]
      linear_combination
        (Q.Position.XCoord - P.Position.XCoord) * Real.cos_sq_add_sin_sq P.Orientation
    · simp [projection, plus, new, projectionPt, Point.translate, Point.sub, Point.origin,
        Vector.rotate]
      linear_combination
        (Q.Position.YCoord - P.Position.YCoord) * Real.cos_sq_add_sin_sq P.Orientation
    · simp only [projection, plus, new]
      apply Object.mod2pi_eq_of_cong hQ.1 hQ.2 k
      rw [hk]
      ring
  refine ⟨key, fun small hs => ?_⟩
  rw [key]
  have hpi := Real.pi_pos
  refine ⟨⟨?_, ?_⟩, ?_⟩
  · simpa [Object.isZero] using hs
  · simpa [Object.isZero] using hs
  · unfold isParallelTo Object.isZero
    rw [sub_self, Object.mod2pi_of_mem (by linarith) (by linarith)]
    simpa using hs

theorem plus_projection_witness :
    (-Real.pi < (0 : ℝ) ∧ (0 : ℝ) ≤ Real.pi) ∧
      (plus (⟨⟨1, 2⟩, 1⟩ : OrPtConfig ℝ) (projection ⟨⟨1, 2⟩, 1⟩ ⟨⟨3, 4⟩, 0⟩) = ⟨⟨3, 4⟩, 0⟩) :=
  ⟨⟨neg_lt_zero.mpr Real.pi_pos, Real.pi_pos.le⟩,
    (plus_projection ⟨⟨1, 2⟩, 1⟩ ⟨⟨3, 4⟩, 0⟩
      ⟨neg_lt_zero.mpr Real.pi_pos, Real.pi_pos.le⟩).1⟩

end rob.OrPtConfig

/-! ## Lengths are what the caller gives -/

namespace rob.DubinsLikePath

theorem setLcPiece_eq (checkElemt : Bool) (D D1 : DubinsLikePath ℝ) (index : Int)
    (p : LinCurvPath ℝ) (h : setLcPiece checkElemt D index p = some D1) :
    ∃ pos : Nat, D1.LcPieces = D.LcPieces.set pos p := by
  unfold setLcPiece at h
  simp only at h
  split_ifs at h with hc
  exact ⟨_, by rw [← Option.some.inj h]⟩

end rob.DubinsLikePath

namespace rob.CompoundPath

/-- Claim C12, amended. The path built by `LinCurvPath(start, sharpness, length)` reports
the length it was given, so `length() >= 0` exactly when the argument is; a piece
added by `DubinsLikePath::addPiece` is built with `fabs(length)` and has
`length() >= 0`; and every compound path whose pieces all have a non-negative length
has `length() >= 0`. -/
theorem length_nonneg (checkElemt : Bool) (start : CurvConfig ℝ) (sharpness len : ℝ)
    (P : CompoundPath ℝ) (g : Int → Path ℝ)
    (hg : ∀ i, 1 ≤ i → i ≤ P.nbPieces → P._piece i = some (g i))
    (hpos : ∀ i, 1 ≤ i → i ≤ P.nbPieces → 0 ≤ (g i).length) :
    ((LinCurvPath.new checkElemt start sharpness len).toPath checkElemt).length = len ∧
    (0 ≤ ((LinCurvPath.new checkElemt start sharpness len).toPath checkElemt).length
      ↔ 0 ≤ len) ∧
    (∀ (D D1 : DubinsLikePath ℝ) (index i1 : Int),
      DubinsLikePath.addPiece checkElemt D index start sharpness len = some (D1, i1) →
      i1 = index + 1 ∧
      (∃ pos : Nat,
        D1.LcPieces = D.LcPieces.set pos (LinCurvPath.new checkElemt start sharpness |len|)) ∧
      0 ≤ ((LinCurvPath.new checkElemt start sharpness |len|).toPath checkElemt).length) ∧
    ∃ total, length checkElemt P = some total ∧ 0 ≤ total := by
  refine ⟨rfl, Iff.rfl, ?_, _, length_sum_Icc checkElemt P g hg, ?_⟩
  · intro D D1 index i1 h
    unfold DubinsLikePath.addPiece at h
    cases hs : DubinsLikePath.setLcPiece checkElemt D (index + 1)
        (LinCurvPath.new checkElemt start sharpness |len|) with
    | none => rw [hs] at h; exact absurd h (by simp)
    | some D2 =>
      rw [hs] at h
      simp only [Option.map_some', Option.some.injEq, Prod.mk.injEq] at h
      obtain ⟨hD, hi⟩ := h
      subst hD
      exact ⟨hi.symm, DubinsLikePath.setLcPiece_eq checkElemt D D2 _ _ hs, abs_nonneg len⟩
  · exact Finset.sum_nonneg (fun i hi =>
      hpos i (Finset.mem_Icc.mp hi).1 (Finset.mem_Icc.mp hi).2)

theorem length_two_unit_nonneg (i : Int) (_h1 : 1 ≤ i)
    (_h2 : i ≤ (ArrayPaths.toCompoundPath false
      (((ArrayPaths.new 2).setPath 0 (.basic ((LinCurvPath.new false (CurvConfig.new ⟨⟨0, 0⟩, 0⟩ 0) 0 1).toPath false))).setPath 1 (.basic ((LinCurvPath.new false (CurvConfig.new ⟨⟨5, 5⟩, 0⟩ 0) 0 1).toPath false)))).nbPieces) :
    0 ≤ ((fun i : Int => if i = 1 then ((LinCurvPath.new false (CurvConfig.new ⟨⟨0, 0⟩, 0⟩ 0) 0 1).toPath false) else ((LinCurvPath.new false (CurvConfig.new ⟨⟨5, 5⟩, 0⟩ 0) 0 1).toPath false)) i).length := by
  by_cases hi : i = 1
  · simp only [hi, if_true]
    exact zero_le_one
  · simp only [hi, if_false]
    exact zero_le_one

theorem length_nonneg_witness :
    (∀ i : Int, 1 ≤ i → i ≤ (ArrayPaths.toCompoundPath false
      (((ArrayPaths.new 2).setPath 0 (.basic ((LinCurvPath.new false (CurvConfig.new ⟨⟨0, 0⟩, 0⟩ 0) 0 1).toPath false))).setPath 1 (.basic ((LinCurvPath.new false (CurvConfig.new ⟨⟨5, 5⟩, 0⟩ 0) 0 1).toPath false)))).nbPieces →
      (ArrayPaths.toCompoundPath false
      (((ArrayPaths.new 2).setPath 0 (.basic ((LinCurvPath.new false (CurvConfig.new ⟨⟨0, 0⟩, 0⟩ 0) 0 1).toPath false))).setPath 1 (.basic ((LinCurvPath.new false (CurvConfig.new ⟨⟨5, 5⟩, 0⟩ 0) 0 1).toPath false))))._piece i = some ((fun i : Int => if i = 1 then ((LinCurvPath.new false (CurvConfig.new ⟨⟨0, 0⟩, 0⟩ 0) 0 1).toPath false) else ((LinCurvPath.new false (CurvConfig.new ⟨⟨5, 5⟩, 0⟩ 0) 0 1).toPath false)) i)) ∧
    (∀ i : Int, 1 ≤ i → i ≤ (ArrayPaths.toCompoundPath false
      (((ArrayPaths.new 2).setPath 0 (.basic ((LinCurvPath.new false (CurvConfig.new ⟨⟨0, 0⟩, 0⟩ 0) 0 1).toPath false))).setPath 1 (.basic ((LinCurvPath.new false (CurvConfig.new ⟨⟨5, 5⟩, 0⟩ 0) 0 1).toPath false)))).nbPieces → 0 ≤ ((fun i : Int => if i = 1 then ((LinCurvPath.new false (CurvConfig.new ⟨⟨0, 0⟩, 0⟩ 0) 0 1).toPath false) else ((LinCurvPath.new false (CurvConfig.new ⟨⟨5, 5⟩, 0⟩ 0) 0 1).toPath false)) i).length) ∧
    ∃ total, length false (ArrayPaths.toCompoundPath false
      (((ArrayPaths.new 2).setPath 0 (.basic ((LinCurvPath.new false (CurvConfig.new ⟨⟨0, 0⟩, 0⟩ 0) 0 1).toPath false))).setPath 1 (.basic ((LinCurvPath.new false (CurvConfig.new ⟨⟨5, 5⟩, 0⟩ 0) 0 1).toPath false)))) = some total ∧ 0 ≤ total :=
  ⟨ArrayPaths.piece_two false _ _, length_two_unit_nonneg,
    (length_nonneg false (CurvConfig.new ⟨⟨0, 0⟩, 0⟩ 0) 0 1 _ _ (ArrayPaths.piece_two false _ _)
      length_two_unit_nonneg).2.2.2⟩

/-- Claim C12 fails as stated: `LinCurvPath(CurvConfig(OrPtConfig(0, 0, 0), 0), 0, -1)` has
`length() == -1`, and so has the `ArrayPaths` of one elementary slot that holds it. -/
theorem length_nonneg_counterexample :
    (LinCurvPath.new false (CurvConfig.new ⟨⟨0, 0⟩, 0⟩ 0) 0 (-1)).Length = -1 ∧
    ((LinCurvPath.new false (CurvConfig.new ⟨⟨0, 0⟩, 0⟩ 0) 0 (-1)).toPath false).length < 0 ∧
    length false (ArrayPaths.toCompoundPath false
      ((ArrayPaths.new 1).setPath 0 (.basic ((LinCurvPath.new false (CurvConfig.new ⟨⟨0, 0⟩, 0⟩ 0) 0 (-1)).toPath false)))) = some (-1) := by
  refine ⟨rfl, ?_, ?_⟩
  · show (-1 : ℝ) < 0
    norm_num
  · have hg : ∀ i, 1 ≤ i → i ≤ (ArrayPaths.toCompoundPath false
      ((ArrayPaths.new 1).setPath 0 (.basic ((LinCurvPath.new false (CurvConfig.new ⟨⟨0, 0⟩, 0⟩ 0) 0 (-1)).toPath false)))).nbPieces →
        (ArrayPaths.toCompoundPath false
      ((ArrayPaths.new 1).setPath 0 (.basic ((LinCurvPath.new false (CurvConfig.new ⟨⟨0, 0⟩, 0⟩ 0) 0 (-1)).toPath false))))._piece i = some ((fun _ : Int => ((LinCurvPath.new false (CurvConfig.new ⟨⟨0, 0⟩, 0⟩ 0) 0 (-1)).toPath false)) i) :=
      ArrayPaths.piece_one false ((LinCurvPath.new false (CurvConfig.new ⟨⟨0, 0⟩, 0⟩ 0) 0 (-1)).toPath false)
    have hlen := length_sum_Icc false _ _ hg
    rw [ArrayPaths.nbPieces_one, Finset.Icc_self, Finset.sum_singleton] at hlen
    exact hlen

end rob.CompoundPath

/-! ## The fallback path without pieces -/

namespace rob.DubinsLikePath

/-- Claim C13. For every start configuration and whatever the path held before, in either
build, `setNoPiece(start)` leaves a path of exactly one piece, with the type and the
maximum curvature unchanged; that piece has zero length and zero sharpness and starts at
`start` with zero curvature, so `length()` is 0 and `start()` is `start`. -/
theorem setNoPiece_spec (checkElemt : Bool) (D : DubinsLikePath ℝ) (start : OrPtConfig ℝ) :
    ∃ D1, setNoPiece checkElemt D start = some D1 ∧
      D1.NbPieces = 1 ∧ (D1.toCompoundPath checkElemt).nbPieces = 1 ∧
      D1.LcPieces = [LinCurvPath.new checkElemt (CurvConfig.new start 0) 0 0] ∧
      (∃ lc, D1._piece 1 = some lc ∧ lc.Length = 0 ∧ lc.Sharpness = 0 ∧
        lc.Start.toOrPtConfig = start ∧ lc.Start.Curvature = 0) ∧
      CompoundPath.length checkElemt (D1.toCompoundPath checkElemt) = some 0 ∧
      CompoundPath.start checkElemt (D1.toCompoundPath checkElemt) = some start ∧
      D1.PathType = D.PathType ∧ D1.MaximumCurvature = D.MaximumCurvature := by
  refine ⟨⟨1, [LinCurvPath.new checkElemt (CurvConfig.new start 0) 0 0], D.PathType,
      D.MaximumCurvature⟩, ?_, rfl, rfl,
    rfl, ⟨_, rfl, rfl, rfl, rfl, rfl⟩, ?_, ?_, rfl, rfl⟩
  · cases checkElemt <;> rfl
  · have h : CompoundPath.length checkElemt
        (toCompoundPath checkElemt ⟨1, [LinCurvPath.new checkElemt (CurvConfig.new start 0) 0 0], D.PathType,
      D.MaximumCurvature⟩)
        = some ((0 : ℝ) + 0) := by
      cases checkElemt <;> rfl
    rw [h, add_zero]
  · cases checkElemt <;> rfl

end rob.DubinsLikePath

/-! ## The derived constants of a continuous-curvature path -/

namespace rob.FscPath

/-- Claim C16, amended. Whatever `computeValues` computes and however the pieces are
defined afterwards, the path built by the forward constructor from `(maxCurv, maxCDer)`
reports the three outputs of `computeValues(maxCurv, maxCDer)`, and the path built by
the complete constructor, given those outputs, reports their absolute values.  The two
paths report equal `limDefl()`, `turnRadius()` and `turnAngle()` when the three outputs
are non-negative. -/
theorem forward_complete_values {α : Type} [LinearOrderedField α]
    (computeValues : α → α → α × α × α) (build build1 : FscPath α → DubinsLikePath α)
    (type : DubinsType) (maxCurv maxCDer : α) :
    (forward computeValues build type maxCurv maxCDer).limDefl
      = (computeValues maxCurv maxCDer).1 ∧
    (forward computeValues build type maxCurv maxCDer).turnRadius
      = (computeValues maxCurv maxCDer).2.1 ∧
    (forward computeValues build type maxCurv maxCDer).turnAngle
      = (computeValues maxCurv maxCDer).2.2 ∧
    (complete build1 type maxCurv maxCDer (computeValues maxCurv maxCDer).1
        (computeValues maxCurv maxCDer).2.1 (computeValues maxCurv maxCDer).2.2).limDefl
      = |(computeValues maxCurv maxCDer).1| ∧
    (complete build1 type maxCurv maxCDer (computeValues maxCurv maxCDer).1
        (computeValues maxCurv maxCDer).2.1 (computeValues maxCurv maxCDer).2.2).turnRadius
      = |(computeValues maxCurv maxCDer).2.1| ∧
    (complete build1 type maxCurv maxCDer (computeValues maxCurv maxCDer).1
        (computeValues maxCurv maxCDer).2.1 (computeValues maxCurv maxCDer).2.2).turnAngle
      = |(computeValues maxCurv maxCDer).2.2| ∧
    (0 ≤ (computeValues maxCurv maxCDer).1 → 0 ≤ (computeValues maxCurv maxCDer).2.1 →
      0 ≤ (computeValues maxCurv maxCDer).2.2 →
      (forward computeValues build type maxCurv maxCDer).limDefl
        = (complete build1 type maxCurv maxCDer (computeValues maxCurv maxCDer).1
            (computeValues maxCurv maxCDer).2.1 (computeValues maxCurv maxCDer).2.2).limDefl ∧
      (forward computeValues build type maxCurv maxCDer).turnRadius
        = (complete build1 type maxCurv maxCDer (computeValues maxCurv maxCDer).1
            (computeValues maxCurv maxCDer).2.1
            (computeValues maxCurv maxCDer).2.2).turnRadius ∧
      (forward computeValues build type maxCurv maxCDer).turnAngle
        = (complete build1 type maxCurv maxCDer (computeValues maxCurv maxCDer).1
            (computeValues maxCurv maxCDer).2.1
            (computeValues maxCurv maxCDer).2.2).turnAngle) := by
  refine ⟨rfl, rfl, rfl, rfl, rfl, rfl, fun h1 h2 h3 => ⟨?_, ?_, ?_⟩⟩
  · exact (abs_of_nonneg h1).symm
  · exact (abs_of_nonneg h2).symm
  · exact (abs_of_nonneg h3).symm

/-- Claim C16 fails as stated when an output of `computeValues` is negative, which the
header announces for a maximum curvature that is too small (`turnRadius()` is then -1):
from the outputs `(0, -1, -π)` the forward constructor reports the turning radius -1 and
the complete constructor reports 1. -/
theorem forward_complete_counterexample :
    (forward (fun _ _ => ((0 : ℝ), (-1 : ℝ), -Real.pi)) (fun p => p.toDubinsLikePath)
      DubinsType.lsl 0 1).turnRadius = -1 ∧
    (complete (fun p => p.toDubinsLikePath) DubinsType.lsl (0 : ℝ) 1 0 (-1) (-Real.pi)).turnRadius
      = 1 ∧
    (forward (fun _ _ => ((0 : ℝ), (-1 : ℝ), -Real.pi)) (fun p => p.toDubinsLikePath)
      DubinsType.lsl 0 1).turnRadius
      ≠ (complete (fun p => p.toDubinsLikePath) DubinsType.lsl (0 : ℝ) 1 0 (-1) (-Real.pi)).turnRadius := by
  have h1 : (forward (fun _ _ => ((0 : ℝ), (-1 : ℝ), -Real.pi)) (fun p => p.toDubinsLikePath)
      DubinsType.lsl 0 1).turnRadius = -1 := rfl
  have h2 : (complete (fun p => p.toDubinsLikePath) DubinsType.lsl (0 : ℝ) 1 0 (-1)
      (-Real.pi)).turnRadius = 1 := by
    show |(-1 : ℝ)| = 1
    norm_num
  refine ⟨h1, h2, ?_⟩
  rw [h1, h2]
  norm_num

end rob.FscPath

/-! ## The orientation of a vector -/

namespace geom

theorem div_sqrt_of_pos (x y : ℝ) (hx : 0 < x) :
    y / x / √(1 + (y / x) ^ 2) = y / √(x * x + y * y) := by
  have h1 : 1 + (y / x) ^ 2 = (x * x + y * y) / x ^ 2 := by
    field_simp
    ring
  rw [h1, Real.sqrt_div' _ (sq_nonneg x), Real.sqrt_sq hx.le]
  have hr : 0 < √(x * x + y * y) := Real.sqrt_pos.mpr (by nlinarith)
  field_simp

theorem div_sqrt_of_neg (x y : ℝ) (hx : x < 0) :
    y / x / √(1 + (y / x) ^ 2) = -y / √(x * x + y * y) := by
  have h := div_sqrt_of_pos (-x) (-y) (by linarith)
  have e1 : -y / -x = y / x := neg_div_neg_eq y x
  have e2 : -x * -x + -y * -y = x * x + y * y := by ring
  rw [e1, e2] at h
  exact h

theorem atan2_of_pos (x y : ℝ) (hx : 0 < x) : atan2 y x = Real.arctan (y / x) := by
  unfold atan2
  rw [Complex.arg_of_re_nonneg (show (0 : ℝ) ≤ (⟨x, y⟩ : ℂ).re from hx.le), Real.arctan_eq_arcsin,
    div_sqrt_of_pos x y hx, Complex.abs_apply, Complex.normSq_mk]

theorem atan2_of_neg_of_nonneg (x y : ℝ) (hx : x < 0) (hy : 0 ≤ y) :
    atan2 y x = Real.arctan (y / x) + Real.pi := by
  unfold atan2
  rw [Complex.arg_of_re_neg_of_im_nonneg (show (⟨x, y⟩ : ℂ).re < 0 from hx)
    (show 0 ≤ (⟨x, y⟩ : ℂ).im from hy), Real.arctan_eq_arcsin,
    div_sqrt_of_neg x y hx, Complex.abs_apply, Complex.normSq_mk]
  rfl

theorem atan2_of_neg_of_neg (x y : ℝ) (hx : x < 0) (hy : y < 0) :
    atan2 y x = Real.arctan (y / x) - Real.pi := by
  unfold atan2
  rw [Complex.arg_of_re_neg_of_im_neg (show (⟨x, y⟩ : ℂ).re < 0 from hx)
    (show (⟨x, y⟩ : ℂ).im < 0 from hy), Real.arctan_eq_arcsin,
    div_sqrt_of_neg x y hx, Complex.abs_apply, Complex.normSq_mk]
  rfl

theorem sign_of_not_isZero_pos (small y : ℝ) (h1 : ¬ Object.isZero small y) (h2 : 0 < y) :
    Object.sign small y = 1 := by
  unfold Object.sign
  rw [if_neg h1, if_neg (not_lt.mpr h2.le)]

theorem sign_of_not_isZero_neg (small y : ℝ) (h1 : ¬ Object.isZero small y) (h2 : y < 0) :
    Object.sign small y = -1 := by
  unfold Object.sign
  rw [if_neg h1, if_pos h2]

namespace Vector

theorem orientation_of_pos (small : ℝ) (hs : 0 ≤ small) (v : Vector ℝ)
    (hx : small < v.XCoord) : orientation small v = atan2 v.YCoord v.XCoord := by
  unfold orientation
  rw [if_pos (show Object.isPositive small v.XCoord from hx),
    atan2_of_pos v.XCoord v.YCoord (by linarith)]

theorem orientation_of_neg (small : ℝ) (hs : 0 ≤ small) (v : Vector ℝ)
    (hx : v.XCoord < -small) : orientation small v = atan2 v.YCoord v.XCoord := by
  have hnp : ¬ Object.isPositive small v.XCoord := by
    unfold Object.isPositive
    intro h
    linarith
  have hn : Object.isNegative small v.XCoord := by
    unfold Object.isNegative Object.isPositive
    linarith
  unfold orientation
  rw [if_neg hnp, if_pos hn]
  by_cases hy : v.YCoord < 0
  · rw [if_pos hy, atan2_of_neg_of_neg v.XCoord v.YCoord (by linarith) hy]
  · rw [if_neg hy, atan2_of_neg_of_nonneg v.XCoord v.YCoord (by linarith) (not_lt.mp hy)]

theorem orientation_of_abs_le (small : ℝ) (v : Vector ℝ) (hx : |v.XCoord| ≤ small) :
    orientation small v = (Object.sign small v.YCoord : ℝ) * (Real.pi / 2) := by
  have h := abs_le.mp hx
  have hnp : ¬ Object.isPositive small v.XCoord := by
    unfold Object.isPositive
    intro h1
    linarith [h.2]
  have hn : ¬ Object.isNegative small v.XCoord := by
    unfold Object.isNegative Object.isPositive
    intro h1
    linarith [h.1]
  unfold orientation
  rw [if_neg hnp, if_neg hn]

/-- Claim C20, amended. With a positive tolerance `smallDouble`, `Vector::orientation()`
lies in `(-π, π]`; for every vector whose abscissa is above `smallDouble` or below
`-smallDouble` it returns `atan2(y, x)`; for a vector whose abscissa is within
`smallDouble` of zero it returns `sign(y) * π / 2`, which is 0 when the ordinate is
within `smallDouble` of zero too, as for the zero vector, and which is `atan2(y, x)`
when the abscissa is exactly 0 and the ordinate is not within `smallDouble` of zero. -/
theorem orientation_spec (small : ℝ) (hs : 0 < small) (v : Vector ℝ) :
    (-Real.pi < orientation small v ∧ orientation small v ≤ Real.pi) ∧
    (small < v.XCoord → orientation small v = atan2 v.YCoord v.XCoord) ∧
    (v.XCoord < -small → orientation small v = atan2 v.YCoord v.XCoord) ∧
    (|v.XCoord| ≤ small →
      orientation small v = (Object.sign small v.YCoord : ℝ) * (Real.pi / 2)) ∧
    (|v.XCoord| ≤ small → |v.YCoord| < small → orientation small v = 0) ∧
    (v.XCoord = 0 → small ≤ |v.YCoord| → orientation small v = atan2 v.YCoord v.XCoord) ∧
    orientation small (Vector.zero : Vector ℝ) = 0 ∧ atan2 0 0 = 0 := by
  have hpi := Real.pi_pos
  have hzero : ∀ w : Vector ℝ, |w.XCoord| ≤ small → |w.YCoord| < small →
      orientation small w = 0 := by
    intro w h1 h2
    rw [orientation_of_abs_le small w h1]
    unfold Object.sign
    rw [if_pos (show Object.isZero small w.YCoord from h2)]
    simp
  refine ⟨?_, orientation_of_pos small hs.le v, orientation_of_neg small hs.le v,
    orientation_of_abs_le small v, hzero v, ?_, ?_, ?_⟩
  · by_cases h1 : small < v.XCoord
    · rw [orientation_of_pos small hs.le v h1, atan2]
      exact ⟨Complex.neg_pi_lt_arg _, Complex.arg_le_pi _⟩
    · by_cases h2 : v.XCoord < -small
      · rw [orientation_of_neg small hs.le v h2, atan2]
        exact ⟨Complex.neg_pi_lt_arg _, Complex.arg_le_pi _⟩
      · rw [orientation_of_abs_le small v (abs_le.mpr ⟨by linarith, by linarith⟩)]
        unfold Object.sign
        split_ifs
        · simp only [Int.cast_zero, zero_mul]
          exact ⟨by linarith, by linarith⟩
        · simp only [Int.cast_neg, Int.cast_one]
          exact ⟨by linarith, by linarith⟩
        · simp only [Int.cast_one, one_mul]
          exact ⟨by linarith, by linarith⟩
  · intro hx hy
    have hnz : ¬ Object.isZero small v.YCoord := by
      unfold Object.isZero
      exact not_lt.mpr hy
    rw [orientation_of_abs_le small v (by rw [hx, abs_zero]; exact hs.le)]
    rcases lt_trichotomy v.YCoord 0 with hneg | h0 | hpos
    · rw [sign_of_not_isZero_neg small _ hnz hneg, atan2,
        Complex.arg_eq_neg_pi_div_two_iff.mpr ⟨hx, hneg⟩]
      simp
    · rw [h0, abs_zero] at hy
      linarith
    · rw [sign_of_not_isZero_pos small _ hnz hpos, atan2,
        Complex.arg_eq_pi_div_two_iff.mpr ⟨hx, hpos⟩]
      simp
  · exact hzero _ (by simp [Vector.zero, hs.le]) (by simp [Vector.zero, hs])
  · unfold atan2
    exact Complex.arg_eq_zero_iff.mpr ⟨le_rfl, rfl⟩

theorem orientation_spec_witness :
    (0 < (1 / 1000 : ℝ)) ∧
    ((1 / 1000 : ℝ) < (⟨1, 1⟩ : Vector ℝ).XCoord →
      orientation (1 / 1000) ⟨1, 1⟩ = atan2 (⟨1, 1⟩ : Vector ℝ).YCoord (⟨1, 1⟩ : Vector ℝ).XCoord) :=
  ⟨by norm_num, (orientation_spec (1 / 1000) (by norm_num) ⟨1, 1⟩).2.1⟩

/-- Claim C20 fails as stated, for vectors other than the zero vector whose abscissa is
within the tolerance of zero.  With the tolerance `1 / 1000`: the vector
`(1 / 2000, 1)` has orientation `π / 2` while `atan2(1, 1 / 2000)` is below `π / 2`, and
the vector `(0, 1 / 2000)` has orientation 0 while `atan2(1 / 2000, 0)` is `π / 2`. -/
theorem orientation_counterexample :
    orientation (1 / 1000) ⟨1 / 2000, 1⟩ = Real.pi / 2 ∧
    atan2 1 (1 / 2000) < Real.pi / 2 ∧
    orientation (1 / 1000) ⟨1 / 2000, 1⟩ ≠ atan2 1 (1 / 2000) ∧
    orientation (1 / 1000) ⟨0, 1 / 2000⟩ = 0 ∧
    atan2 (1 / 2000) 0 = Real.pi / 2 ∧
    orientation (1 / 1000) ⟨0, 1 / 2000⟩ ≠ atan2 (1 / 2000) 0 := by
  have hpi := Real.pi_pos
  have h1 : orientation (1 / 1000) ⟨1 / 2000, 1⟩ = Real.pi / 2 := by
    rw [orientation_of_abs_le (1 / 1000) ⟨1 / 2000, 1⟩ (by
      show |(1 / 2000 : ℝ)| ≤ 1 / 1000
      rw [abs_of_pos (by norm_num)]
      norm_num)]
    rw [sign_of_not_isZero_pos (1 / 1000) _ (by
      show ¬ |(1 : ℝ)| < 1 / 1000
      rw [abs_one]
      norm_num) (by
      show (0 : ℝ) < 1
      norm_num)]
    simp
  have h2 : atan2 1 (1 / 2000) < Real.pi / 2 := by
    rw [atan2_of_pos (1 / 2000) 1 (by norm_num)]
    exact Real.arctan_lt_pi_div_two _
  have h3 : orientation (1 / 1000) ⟨0, 1 / 2000⟩ = 0 := by
    rw [orientation_of_abs_le (1 / 1000) ⟨0, 1 / 2000⟩ (by
      show |(0 : ℝ)| ≤ 1 / 1000
      rw [abs_zero]
      norm_num)]
    unfold Object.sign
    rw [if_pos (by
      show |(1 / 2000 : ℝ)| < 1 / 1000
      rw [abs_of_pos (by norm_num)]
      norm_num)]
    simp
  have h4 : atan2 (1 / 2000) 0 = Real.pi / 2 := by
    unfold atan2
    exact Complex.arg_eq_pi_div_two_iff.mpr ⟨rfl, by
      show (0 : ℝ) < 1 / 2000
      norm_num⟩
  refine ⟨h1, h2, ?_, h3, h4, ?_⟩
  · rw [h1]
    exact h2.ne'
  · rw [h3, h4]
    linarith

end Vector

end geom

/-! ## Vector and point algebra -/

namespace geom

/-- Claim C21. For every vector `v`, `v + (-v)` is the zero vector: both Cartesian
coordinates are 0, so it compares equal to `Vector()` for every positive tolerance. -/
theorem Vector.add_neg_self {α : Type} [LinearOrderedField α] (v : Vector α) :
    v.add v.neg = Vector.zero ∧
    (v.add v.neg).XCoord = 0 ∧ (v.add v.neg).YCoord = 0 ∧
    ∀ small : α, 0 < small → Vector.eq small (v.add v.neg) Vector.zero := by
  have hx : (v.add v.neg).XCoord = 0 := by
    show v.XCoord + v.XCoord * (-1) = 0
    ring
  have hy : (v.add v.neg).YCoord = 0 := by
    show v.YCoord + v.YCoord * (-1) = 0
    ring
  have h0 : v.add v.neg = Vector.zero := Vector.ext hx hy
  refine ⟨h0, hx, hy, fun small hs => ?_⟩
  rw [h0]
  unfold Vector.eq Object.isZero
  simp only [sub_self, abs_zero]
  exact ⟨hs, hs⟩

/-- Claim C22. For every vector `v` and every real `f`,
`(v * f).length() == v.length() * |f|`. -/
theorem Vector.length_multiply (v : Vector ℝ) (f : ℝ) :
    (v.multiply f).length = v.length * |f| := by
  unfold Vector.length Vector.sqrLength Vector.dot Vector.multiply
  have h : v.XCoord * f * (v.XCoord * f) + v.YCoord * f * (v.YCoord * f)
      = (v.XCoord * v.XCoord + v.YCoord * v.YCoord) * f ^ 2 := by ring
  rw [h, Real.sqrt_mul (by nlinarith [mul_self_nonneg v.XCoord, mul_self_nonneg v.YCoord]),
    Real.sqrt_sq_eq_abs]

theorem Vector.length_sub_comm (a b : Point ℝ) : (a.sub b).length = (b.sub a).length := by
  unfold Vector.length Vector.sqrLength Vector.dot Point.sub
  congr 1
  ring

/-- Claim C23. For all points `a` and `b`, `a.distance(b)` is the length of the vector
`a - b`; so `a.distance(b) == b.distance(a)` and `a.sqrDist(b) == a.distance(b)^2`. -/
theorem Point.distance_spec (a b : Point ℝ) :
    a.distance b = (a.sub b).length ∧
    a.distance b = b.distance a ∧
    a.sqrDist b = (a.distance b) ^ 2 := by
  refine ⟨Vector.length_sub_comm b a, Vector.length_sub_comm b a, ?_⟩
  unfold Point.distance Point.sqrDist Vector.length
  rw [Real.sq_sqrt]
  unfold Vector.sqrLength Vector.dot
  nlinarith [mul_self_nonneg (b.sub a).XCoord, mul_self_nonneg (b.sub a).YCoord]

end geom

/-! ## Tolerance predicates -/

namespace Object

/-- Claim C29, amended. For every `x` and any positive `smallDouble`, at most one of
`isPositive(x)`, `isZero(x)`, `isNegative(x)` holds, and one of them holds unless
`|x|` is exactly `smallDouble`, where none does; `sign(x)` is 0 exactly when
`isZero(x)` holds, it is 1 when `isPositive(x)` holds and -1 when `isNegative(x)`
holds, and it is 1 at `x == smallDouble` and -1 at `x == -smallDouble`. -/
theorem sign_trichotomy {α : Type} [LinearOrderedField α] (small x : α) (hs : 0 < small) :
    ¬ (isPositive small x ∧ isZero small x) ∧
    ¬ (isPositive small x ∧ isNegative small x) ∧
    ¬ (isZero small x ∧ isNegative small x) ∧
    (|x| ≠ small → (isPositive small x ∨ isZero small x ∨ isNegative small x)) ∧
    (|x| = small → ¬ isPositive small x ∧ ¬ isZero small x ∧ ¬ isNegative small x) ∧
    (sign small x = 0 ↔ isZero small x) ∧
    (isPositive small x → sign small x = 1) ∧
    (isNegative small x → sign small x = -1) ∧
    (x = small → sign small x = 1) ∧
    (x = -small → sign small x = -1) := by
  unfold sign isNegative isPositive isZero
  refine ⟨?_, ?_, ?_, ?_, ?_, ?_, ?_, ?_, ?_, ?_⟩
  · rintro ⟨h1, h2⟩
    have := (abs_lt.mp h2).2
    linarith
  · rintro ⟨h1, h2⟩
    linarith
  · rintro ⟨h1, h2⟩
    have := (abs_lt.mp h1).1
    linarith
  · intro hne
    rcases lt_trichotomy |x| small with h | h | h
    · exact Or.inr (Or.inl h)
    · exact absurd h hne
    · rcases lt_abs.mp h with h1 | h1
      · exact Or.inl h1
      · exact Or.inr (Or.inr h1)
  · intro he
    refine ⟨fun h => ?_, fun h => ?_, fun h => ?_⟩
    · have := le_abs_self x
      linarith
    · linarith
    · have := neg_abs_le x
      linarith
  · constructor
    · intro h
      by_contra hz
      rw [if_neg hz] at h
      split_ifs at h
      omega
    · intro h
      rw [if_pos h]
  · intro h
    have hz : ¬ |x| < small := by
      have := le_abs_self x
      intro h2
      linarith
    rw [if_neg hz, if_neg (by linarith)]
  · intro h
    have hz : ¬ |x| < small := by
      have := neg_abs_le x
      intro h2
      linarith
    rw [if_neg hz, if_pos (by linarith)]
  · intro h
    subst h
    rw [if_neg (by rw [abs_of_pos hs]; exact lt_irrefl _), if_neg (by linarith)]
  · intro h
    subst h
    rw [if_neg (by rw [abs_neg, abs_of_pos hs]; exact lt_irrefl _), if_pos (by linarith)]

theorem sign_trichotomy_witness :
    (0 < (1 : ℚ)) ∧ ¬ (isPositive (1 : ℚ) 3 ∧ isZero (1 : ℚ) 3) :=
  ⟨zero_lt_one, (sign_trichotomy (1 : ℚ) 3 zero_lt_one).1⟩

/-- Claim C29 fails as stated at `x == smallDouble`: with the tolerance 1 and `x = 1`,
none of `isPositive(x)`, `isZero(x)`, `isNegative(x)` holds, and `sign(x)` is 1. -/
theorem sign_trichotomy_counterexample :
    ¬ isPositive (1 : ℚ) 1 ∧ ¬ isZero (1 : ℚ) 1 ∧ ¬ isNegative (1 : ℚ) 1 ∧
    sign (1 : ℚ) 1 = 1 := by
  unfold sign isNegative isPositive isZero
  refine ⟨by norm_num, by norm_num, by norm_num, ?_⟩
  norm_num

end Object

/-! ## Types of Dubins-like paths -/

namespace rob.DubinsLikePath

/-- Claim C27. For each of the six types and each part number 1, 2, 3, in either build,
`turnSign(n, type)` is the sign of the `n`-th letter of the name of the type: 1 for `l`,
-1 for `r`, 0 for `s`; `lsr` gives 1, 0, -1 and `rlr` gives -1, 1, -1. -/
theorem turnSign_letters (checkElemt : Bool) (type : DubinsType) :
    turnSign checkElemt 1 type = some (typeLetters type).1.sign ∧
    turnSign checkElemt 2 type = some (typeLetters type).2.1.sign ∧
    turnSign checkElemt 3 type = some (typeLetters type).2.2.sign ∧
    (turnSign checkElemt 1 DubinsType.lsr, turnSign checkElemt 2 DubinsType.lsr,
        turnSign checkElemt 3 DubinsType.lsr) = (some 1, some 0, some (-1)) ∧
    (turnSign checkElemt 1 DubinsType.rlr, turnSign checkElemt 2 DubinsType.rlr,
        turnSign checkElemt 3 DubinsType.rlr) = (some (-1), some 1, some (-1)) := by
  cases checkElemt <;> cases type <;> decide

/-- Claim C30, the code at the failing input: with `ISEEML_CHECK_ARRAY_ELEMT`, for the
indices 6 and 7 `getSolution` computes the position 6, where the nearest valid position
is 5, and reads `array[6]`, outside the array of six candidates; below 0 and up to 5
the position is the nearest valid one. -/
theorem getSolution_beyond :
    getSolutionIndex true 6 = 6 ∧ getSolutionIndex true 7 = 6 ∧
    min (max (6 : Int) 0) (nbPossiblePaths - 1) = 5 ∧
    min (max (7 : Int) 0) (nbPossiblePaths - 1) = 5 ∧
    getSolution true ([((LinCurvPath.new false (CurvConfig.new ⟨⟨0, 0⟩, 0⟩ 0) 0 0).toPath false),
      ((LinCurvPath.new false (CurvConfig.new ⟨⟨0, 0⟩, 0⟩ 0) 0 3).toPath false),
      ((LinCurvPath.new false (CurvConfig.new ⟨⟨0, 0⟩, 0⟩ 0) 0 2).toPath false),
      ((LinCurvPath.new false (CurvConfig.new ⟨⟨0, 0⟩, 0⟩ 0) 0 5).toPath false),
      ((LinCurvPath.new false (CurvConfig.new ⟨⟨0, 0⟩, 0⟩ 0) 0 0).toPath false),
      ((LinCurvPath.new false (CurvConfig.new ⟨⟨0, 0⟩, 0⟩ 0) 0 4).toPath false)] : List (Path ℝ)) 6 = none ∧
    getSolution true ([((LinCurvPath.new false (CurvConfig.new ⟨⟨0, 0⟩, 0⟩ 0) 0 0).toPath false),
      ((LinCurvPath.new false (CurvConfig.new ⟨⟨0, 0⟩, 0⟩ 0) 0 3).toPath false),
      ((LinCurvPath.new false (CurvConfig.new ⟨⟨0, 0⟩, 0⟩ 0) 0 2).toPath false),
      ((LinCurvPath.new false (CurvConfig.new ⟨⟨0, 0⟩, 0⟩ 0) 0 5).toPath false),
      ((LinCurvPath.new false (CurvConfig.new ⟨⟨0, 0⟩, 0⟩ 0) 0 0).toPath false),
      ((LinCurvPath.new false (CurvConfig.new ⟨⟨0, 0⟩, 0⟩ 0) 0 4).toPath false)] : List (Path ℝ)) 7 = none ∧
    (∀ index : Int, index ≤ 5 →
      getSolutionIndex true index = min (max index 0) (nbPossiblePaths - 1)) ∧
    (∀ index : Int, 6 ≤ index → getSolutionIndex true index = 6) ∧
    (∀ (paths : List (Path ℝ)) (index : Int),
      getSolution true paths index
        = (if 0 ≤ getSolutionIndex true index then
            paths.get? (getSolutionIndex true index).toNat else none)) := by
  refine ⟨by decide, by decide, by decide, by decide, rfl, rfl, ?_, ?_, ?_⟩
  · intro index h
    unfold getSolutionIndex nbPossiblePaths
    simp only [if_true]
    split_ifs <;> omega
  · intro index h
    unfold getSolutionIndex nbPossiblePaths
    simp only [if_true]
    split_ifs <;> omega
  · intro paths index
    rfl

end rob.DubinsLikePath

/-! ## Sampling beyond the length with the precondition checks -/

namespace rob.CompoundPath

/-- With `ISEEML_CHECK_COMP_PATH_PRECOND`, on the last piece and with an arc length above
`l`, an iteration of the loop of `operator[]` leaves the state as it is: the loop never
ends. -/
theorem operatorLoop_stuck {α : Type} [LinearOrderedField α] (checkElemt : Bool)
    (P : CompoundPath α) (pieceNb : Int) (arcLength l : α) (h1 : pieceNb = P.nbPieces)
    (h2 : arcLength > l) (fuel : Nat) :
    operatorLoop true checkElemt P fuel pieceNb arcLength l = Outcome.outOfFuel := by
  induction fuel with
  | zero => rfl
  | succ n ih =>
    have hbeq : (pieceNb == P.nbPieces) = true := by simpa using h1
    rw [operatorLoop, if_pos h2]
    simp only [hbeq, Bool.and_self, if_true]
    exact ih

/-- Claim C25, the code at the failing input: with `ISEEML_CHECK_COMP_PATH_PRECOND`, and
with or without `ISEEML_CHECK_ARRAY_ELEMT`, an `ArrayPaths` of one elementary slot, a
straight segment of length 2, sampled at `s = 3`.  The loop of `operator[]` is still
running after any number of iterations: no configuration is returned. -/
theorem operatorIdx_never_returns :
    ∀ (ce : Bool) (fuel : Nat),
      length ce (ArrayPaths.toCompoundPath ce
      ((ArrayPaths.new 1).setPath 0 (.basic ((LinCurvPath.new ce (CurvConfig.new ⟨⟨0, 0⟩, 0⟩ 0) 0 2).toPath ce)))) = some 2 ∧
      operatorIdx true ce (ArrayPaths.toCompoundPath ce
      ((ArrayPaths.new 1).setPath 0 (.basic ((LinCurvPath.new ce (CurvConfig.new ⟨⟨0, 0⟩, 0⟩ 0) 0 2).toPath ce)))) fuel 3 = Outcome.outOfFuel := by
  intro ce fuel
  have hg : ∀ i, 1 ≤ i → i ≤ (ArrayPaths.toCompoundPath ce
      ((ArrayPaths.new 1).setPath 0 (.basic ((LinCurvPath.new ce (CurvConfig.new ⟨⟨0, 0⟩, 0⟩ 0) 0 2).toPath ce)))).nbPieces →
      (ArrayPaths.toCompoundPath ce
      ((ArrayPaths.new 1).setPath 0 (.basic ((LinCurvPath.new ce (CurvConfig.new ⟨⟨0, 0⟩, 0⟩ 0) 0 2).toPath ce))))._piece i = some ((fun _ : Int => ((LinCurvPath.new ce (CurvConfig.new ⟨⟨0, 0⟩, 0⟩ 0) 0 2).toPath ce)) i) :=
    ArrayPaths.piece_one ce ((LinCurvPath.new ce (CurvConfig.new ⟨⟨0, 0⟩, 0⟩ 0) 0 2).toPath ce)
  have hlen := length_sum_Icc ce _ _ hg
  rw [ArrayPaths.nbPieces_one, Finset.Icc_self, Finset.sum_singleton] at hlen
  have hp1 : piece ce (ArrayPaths.toCompoundPath ce
      ((ArrayPaths.new 1).setPath 0 (.basic ((LinCurvPath.new ce (CurvConfig.new ⟨⟨0, 0⟩, 0⟩ 0) 0 2).toPath ce)))) 1 = some ((LinCurvPath.new ce (CurvConfig.new ⟨⟨0, 0⟩, 0⟩ 0) 0 2).toPath ce) := by
    rw [piece_of_mem ce _ 1 le_rfl (by rw [ArrayPaths.nbPieces_one])]
    rfl
  refine ⟨hlen, ?_⟩
  rw [operatorIdx, hp1]
  exact operatorLoop_stuck ce _ 1 3 _ (ArrayPaths.nbPieces_one ce _).symm (by
    show (3 : ℝ) > 2
    norm_num) fuel

end rob.CompoundPath

/-! ## Ties between candidates -/

namespace rob.DubinsLikePath

variable {α : Type} [LinearOrderedField α]

theorem not_lt_of_eq_pos (small : α) (a b : Path α)
    (ha : Object.isPositive small a.length) (hab : a.length = b.length) :
    ¬ Path.lt small a b := by
  unfold Path.lt
  rintro (h | h)
  · exact absurd h.2 (by rw [hab]; exact lt_irrefl _)
  · exact h (hab ▸ ha)

theorem lt_of_not_pos (small : α) (a b : Path α)
    (hb : ¬ Object.isPositive small b.length) : Path.lt small a b :=
  Or.inr hb

/-- Claim C26. In one comparison of an earlier candidate with a later one, the later one
is kept when both have the same positive length and the earlier one is kept when neither
has a positive length; so `bestPathIndex` gives `rlr` on six candidates of one positive
length and `lsl` on six candidates none of which has a positive length, in either
build. -/
theorem bestPathIndex_ties (checkElemt : Bool) (small : α) (paths : List (Path α))
    (hlen : paths.length = 6) :
    (∀ a b : Path α, Object.isPositive small a.length → a.length = b.length →
      (if Path.lt small a b then a else b) = b) ∧
    (∀ a b : Path α, ¬ Object.isPositive small a.length →
      ¬ Object.isPositive small b.length → (if Path.lt small a b then a else b) = a) ∧
    (∀ len : α, Object.isPositive small len → (∀ q ∈ paths, q.length = len) →
      bestPathIndex checkElemt small paths = some DubinsType.rlr.toInt) ∧
    ((∀ q ∈ paths, ¬ Object.isPositive small q.length) →
      bestPathIndex checkElemt small paths = some DubinsType.lsl.toInt) := by
  obtain ⟨p0, p1, p2, p3, p4, p5, rfl⟩ :
      ∃ p0 p1 p2 p3 p4 p5, paths = [p0, p1, p2, p3, p4, p5] := by
    match paths, hlen with
    | [p0, p1, p2, p3, p4, p5], _ => exact ⟨_, _, _, _, _, _, rfl⟩
  have g0 : getSolution checkElemt [p0, p1, p2, p3, p4, p5] 0 = some p0 := by
    simpa using getSolution_of_lt checkElemt [p0, p1, p2, p3, p4, p5] 0 (by omega)
  have g1 : getSolution checkElemt [p0, p1, p2, p3, p4, p5] 1 = some p1 := by
    simpa using getSolution_of_lt checkElemt [p0, p1, p2, p3, p4, p5] 1 (by omega)
  have g2 : getSolution checkElemt [p0, p1, p2, p3, p4, p5] 2 = some p2 := by
    simpa using getSolution_of_lt checkElemt [p0, p1, p2, p3, p4, p5] 2 (by omega)
  have g3 : getSolution checkElemt [p0, p1, p2, p3, p4, p5] 3 = some p3 := by
    simpa using getSolution_of_lt checkElemt [p0, p1, p2, p3, p4, p5] 3 (by omega)
  have g4 : getSolution checkElemt [p0, p1, p2, p3, p4, p5] 4 = some p4 := by
    simpa using getSolution_of_lt checkElemt [p0, p1, p2, p3, p4, p5] 4 (by omega)
  have g5 : getSolution checkElemt [p0, p1, p2, p3, p4, p5] 5 = some p5 := by
    simpa using getSolution_of_lt checkElemt [p0, p1, p2, p3, p4, p5] 5 (by omega)
  refine ⟨fun a b ha hab => if_neg (not_lt_of_eq_pos small a b ha hab),
    fun a b _ hb => if_pos (lt_of_not_pos small a b hb), ?_, ?_⟩
  · intro len hpos hall
    have e0 : p0.length = len := hall p0 (by simp)
    have e1 : p1.length = len := hall p1 (by simp)
    have e2 : p2.length = len := hall p2 (by simp)
    have e3 : p3.length = len := hall p3 (by simp)
    have e4 : p4.length = len := hall p4 (by simp)
    have e5 : p5.length = len := hall p5 (by simp)
    have h01 := not_lt_of_eq_pos small p0 p1 (e0 ▸ hpos) (e0.trans e1.symm)
    have h23 := not_lt_of_eq_pos small p2 p3 (e2 ▸ hpos) (e2.trans e3.symm)
    have h45 := not_lt_of_eq_pos small p4 p5 (e4 ▸ hpos) (e4.trans e5.symm)
    have h13 := not_lt_of_eq_pos small p1 p3 (e1 ▸ hpos) (e1.trans e3.symm)
    have h35 := not_lt_of_eq_pos small p3 p5 (e3 ▸ hpos) (e3.trans e5.symm)
    simp only [bestPathIndex, solutionLt, DubinsType.toInt, g0, g1, g2, g3, g4, g5,
      Option.bind_some, Option.some_bind, Option.map_some', h01, h23, h45, h13, h35,
      decide_False, if_false, Bool.false_eq_true]
  · intro hall
    have h01 := lt_of_not_pos small p0 p1 (hall p1 (by simp))
    have h23 := lt_of_not_pos small p2 p3 (hall p3 (by simp))
    have h45 := lt_of_not_pos small p4 p5 (hall p5 (by simp))
    have h02 := lt_of_not_pos small p0 p2 (hall p2 (by simp))
    have h04 := lt_of_not_pos small p0 p4 (hall p4 (by simp))
    simp only [bestPathIndex, solutionLt, DubinsType.toInt, g0, g1, g2, g3, g4, g5,
      Option.bind_some, Option.some_bind, Option.map_some', h01, h23, h45, h02, h04,
      decide_True, if_true]

theorem bestPathIndex_ties_witness :
    ([((LinCurvPath.new false (CurvConfig.new ⟨⟨0, 0⟩, 0⟩ 0) 0 3).toPath false),
      ((LinCurvPath.new false (CurvConfig.new ⟨⟨0, 0⟩, 0⟩ 0) 0 3).toPath false),
      ((LinCurvPath.new false (CurvConfig.new ⟨⟨0, 0⟩, 0⟩ 0) 0 3).toPath false),
      ((LinCurvPath.new false (CurvConfig.new ⟨⟨0, 0⟩, 0⟩ 0) 0 3).toPath false),
      ((LinCurvPath.new false (CurvConfig.new ⟨⟨0, 0⟩, 0⟩ 0) 0 3).toPath false),
      ((LinCurvPath.new false (CurvConfig.new ⟨⟨0, 0⟩, 0⟩ 0) 0 3).toPath false)] : List (Path ℝ)).length = 6 ∧
    bestPathIndex false (1 / 1000)
      ([((LinCurvPath.new false (CurvConfig.new ⟨⟨0, 0⟩, 0⟩ 0) 0 3).toPath false),
      ((LinCurvPath.new false (CurvConfig.new ⟨⟨0, 0⟩, 0⟩ 0) 0 3).toPath false),
      ((LinCurvPath.new false (CurvConfig.new ⟨⟨0, 0⟩, 0⟩ 0) 0 3).toPath false),
      ((LinCurvPath.new false (CurvConfig.new ⟨⟨0, 0⟩, 0⟩ 0) 0 3).toPath false),
      ((LinCurvPath.new false (CurvConfig.new ⟨⟨0, 0⟩, 0⟩ 0) 0 3).toPath false),
      ((LinCurvPath.new false (CurvConfig.new ⟨⟨0, 0⟩, 0⟩ 0) 0 3).toPath false)] : List (Path ℝ)) = some DubinsType.rlr.toInt :=
  ⟨rfl, (bestPathIndex_ties false (1 / 1000)
      ([((LinCurvPath.new false (CurvConfig.new ⟨⟨0, 0⟩, 0⟩ 0) 0 3).toPath false),
      ((LinCurvPath.new false (CurvConfig.new ⟨⟨0, 0⟩, 0⟩ 0) 0 3).toPath false),
      ((LinCurvPath.new false (CurvConfig.new ⟨⟨0, 0⟩, 0⟩ 0) 0 3).toPath false),
      ((LinCurvPath.new false (CurvConfig.new ⟨⟨0, 0⟩, 0⟩ 0) 0 3).toPath false),
      ((LinCurvPath.new false (CurvConfig.new ⟨⟨0, 0⟩, 0⟩ 0) 0 3).toPath false),
      ((LinCurvPath.new false (CurvConfig.new ⟨⟨0, 0⟩, 0⟩ 0) 0 3).toPath false)] : List (Path ℝ)) rfl).2.2.1 3
    (by
      show (3 : ℝ) > 1 / 1000
      norm_num)
    (by
      intro q hq
      simp only [List.mem_cons, List.mem_singleton, List.not_mem_nil, or_false, or_self] at hq
      rw [hq]
      rfl)⟩

end rob.DubinsLikePath

/-! ## Composition of frames is associative -/

namespace Object

theorem cos_mod2pi (x : ℝ) : Real.cos (mod2pi x) = Real.cos x := by
  obtain ⟨k, hk⟩ := mod2pi_cong x
  rw [hk, Real.cos_add_int_mul_two_pi]

theorem sin_mod2pi (x : ℝ) : Real.sin (mod2pi x) = Real.sin x := by
  obtain ⟨k, hk⟩ := mod2pi_cong x
  rw [hk, Real.sin_add_int_mul_two_pi]

theorem mod2pi_congr {x y : ℝ} (k : ℤ) (h : x = y + k * (2 * Real.pi)) :
    mod2pi x = mod2pi y := by
  obtain ⟨j, hj⟩ := mod2pi_cong y
  obtain ⟨h1, h2⟩ := mod2pi_mem y
  refine mod2pi_eq_of_cong h1 h2 (k - j) ?_
  rw [hj, h]
  push_cast
  ring

end Object

namespace rob.OrPtConfig

/-- Claim C28. For all oriented configurations `a`, `b` and `c`, `(a + b) + c` and
`a + (b + c)` have the same position and the same orientation. -/
theorem plus_assoc (a b c : OrPtConfig ℝ) :
    (a.plus b).plus c = a.plus (b.plus c) ∧
    ((a.plus b).plus c).Position = (a.plus (b.plus c)).Position ∧
    ((a.plus b).plus c).Orientation = (a.plus (b.plus c)).Orientation := by
  have key : (a.plus b).plus c = a.plus (b.plus c) := by
    obtain ⟨k1, hk1⟩ := Object.mod2pi_cong (b.Orientation + a.Orientation)
    obtain ⟨k2, hk2⟩ := Object.mod2pi_cong (c.Orientation + b.Orientation)
    ext
    · simp only [plus, new, Point.translate, Point.sub, Point.origin, Vector.rotate,
        Object.cos_mod2pi, Object.sin_mod2pi, Real.cos_add, Real.sin_add, sub_zero]
      ring
    · simp only [plus, new, Point.translate, Point.sub, Point.origin, Vector.rotate,
        Object.cos_mod2pi, Object.sin_mod2pi, Real.cos_add, Real.sin_add, sub_zero]
      ring
    · simp only [plus, new]
      apply Object.mod2pi_congr (k1 - k2)
      rw [hk1, hk2]
      push_cast
      ring
  exact ⟨key, by rw [key], by rw [key]⟩

end rob.OrPtConfig

/-! ## The pieces of an `ArrayPaths` -/

namespace rob.ArrayPaths

theorem pieces_length {α : Type} (s : CoupleTypePointer α) (h : 0 ≤ s.nbPieces) :
    ((s.pieces.length : Nat) : Int) = s.nbPieces := by
  cases s with
  | null => rfl
  | basic p => rfl
  | compound c =>
    simp only [CoupleTypePointer.pieces, CoupleTypePointer.nbPieces, List.length_map,
      List.length_range] at h ⊢
    omega

theorem concat_length {α : Type} (l : List (CoupleTypePointer α)) (h : ∀ s ∈ l, 0 ≤ s.nbPieces) :
    (((CoupleTypePointer.concat l).length : Nat) : Int)
      = (l.map CoupleTypePointer.nbPieces).sum := by
  induction l with
  | nil => rfl
  | cons s rest ih =>
    have hs := pieces_length s (h s (by simp))
    have hr := ih (fun q hq => h q (by simp [hq]))
    simp only [CoupleTypePointer.concat, List.length_append, List.map_cons, List.sum_cons]
    push_cast
    omega

theorem sum_nbPieces_nonneg {α : Type} (l : List (CoupleTypePointer α))
    (h : ∀ s ∈ l, 0 ≤ s.nbPieces) : 0 ≤ (l.map CoupleTypePointer.nbPieces).sum := by
  rw [← concat_length l h]
  exact Int.natCast_nonneg _

/-- The loop of `_piece`, started on the slot that follows the slots `pre` with an index
inside the pieces of the slots `rest` that are left: it stops on a slot of the array, with
an index inside that slot, at the same place of the concatenation. -/
theorem pieceLoop_spec {α : Type} (A : ArrayPaths α) :
    ∀ (rest pre : List (CoupleTypePointer α)) (idx : Int) (fuel : Nat),
      A.array = pre ++ rest → (∀ s ∈ rest, 0 ≤ s.nbPieces) → 1 ≤ idx →
      idx ≤ (rest.map CoupleTypePointer.nbPieces).sum → rest.length ≤ fuel →
      ∃ (i : Nat) (slot : CoupleTypePointer α) (idx1 : Int),
        _pieceLoop A fuel pre.length idx = some (i, idx1, slot.nbPieces) ∧
        (i : Int) < A.nb_paths ∧ A.array.get? i = some slot ∧ 1 ≤ idx1 ∧
        idx1 ≤ slot.nbPieces ∧
        (CoupleTypePointer.concat rest).get? (idx - 1).toNat
          = slot.pieces.get? (idx1 - 1).toNat := by
  intro rest
  induction rest with
  | nil =>
    intro pre idx fuel _ _ h1 h2 _
    simp only [List.map_nil, List.sum_nil] at h2
    omega
  | cons s rest ih =>
    intro pre idx fuel harr hnn h1 h2 hfuel
    obtain ⟨f, rfl⟩ : ∃ f, fuel = f + 1 := by
      cases fuel with
      | zero => simp at hfuel
      | succ f => exact ⟨f, rfl⟩
    have hget : A.array.get? pre.length = some s := by
      rw [harr, List.get?_eq_getElem?, List.getElem?_append_right (le_refl _)]
      simp
    have hs := pieces_length s (hnn s (by simp))
    have hs0 := hnn s (by simp)
    have hlenA : A.nb_paths = (pre.length : Int) + 1 + rest.length := by
      rw [nb_paths, harr]
      simp only [List.length_append, List.length_cons]
      push_cast
      ring
    rw [_pieceLoop, hget]
    simp only [List.map_cons, List.sum_cons] at h2
    by_cases hstep : idx > s.nbPieces
    · have hrest : ∀ q ∈ rest, 0 ≤ q.nbPieces := fun q hq => hnn q (by simp [hq])
      have hne : 1 ≤ rest.length := by
        cases rest with
        | nil =>
          simp only [List.map_nil, List.sum_nil] at h2
          omega
        | cons q r => simp
      have hlt : (((pre.length + 1 : Nat)) : Int) < A.nb_paths := by
        rw [hlenA]
        push_cast
        omega
      simp only [hstep, if_true, hlt]
      have harr2 : A.array = (pre ++ [s]) ++ rest := by
        rw [harr]
        simp
      obtain ⟨i, slot, idx1, e1, e2, e3, e4, e5, e6⟩ :=
        ih (pre ++ [s]) (idx - s.nbPieces) f harr2 hrest (by omega) (by omega)
          (by simp only [List.length_cons] at hfuel; omega)
      refine ⟨i, slot, idx1, ?_, e2, e3, e4, e5, ?_⟩
      · rw [← e1]
        simp
      · rw [← e6]
        simp only [CoupleTypePointer.concat, List.get?_eq_getElem?]
        rw [List.getElem?_append_right (by omega)]
        congr 1
        omega
    · refine ⟨pre.length, s, idx, ?_, ?_, hget, h1, by omega, ?_⟩
      · simp only [hstep, if_false]
      · rw [hlenA]
        omega
      · simp only [CoupleTypePointer.concat, List.get?_eq_getElem?]
        rw [List.getElem?_append_left (by omega)]

/-- Claim C24. For every `ArrayPaths` whose compound slots have a number of pieces that
is not negative, in either build: `nbPieces()` is the sum over the slots of 1 for an
elementary slot and of the slot's own `nbPieces()` for a compound slot, which is the
number of pieces of the in-order concatenation of the slots' pieces; and for every index
with `1 <= index <= nbPieces()`, `_piece(index)` and `piece(index)` are the piece at place
`index` (counted from 1) of that concatenation. -/
theorem piece_flatten {α : Type} [LinearOrderedField α] (checkElemt : Bool) (A : ArrayPaths α)
    (hnn : ∀ c : CompoundPath α, CoupleTypePointer.compound c ∈ A.array → 0 ≤ c.nbPieces) :
    A.nbPieces = (A.array.map fun s =>
      match s with
      | CoupleTypePointer.compound c => c.nbPieces
      | _ => 1).sum ∧
    A.nbPieces = ((A.flatten.length : Nat) : Int) ∧
    ∀ index : Int, 1 ≤ index → index ≤ A.nbPieces →
      _piece checkElemt A index = (A.flatten.get? (index - 1).toNat).join ∧
      CompoundPath.piece checkElemt (A.toCompoundPath checkElemt) index
        = (A.flatten.get? (index - 1).toNat).join := by
  have hall : ∀ s ∈ A.array, 0 ≤ s.nbPieces := by
    intro s hs
    cases s with
    | null => exact Int.one_nonneg
    | basic p => exact Int.one_nonneg
    | compound c => exact hnn c hs
  have hmain : ∀ index : Int, 1 ≤ index → index ≤ A.nbPieces →
      _piece checkElemt A index = (A.flatten.get? (index - 1).toNat).join := by
    intro index h1 h2
    obtain ⟨i, slot, idx1, e1, e2, e3, e4, e5, e6⟩ :=
      pieceLoop_spec A A.array [] index (A.array.length + 1) rfl hall h1 h2 (by omega)
    have hge : ¬ ((i : Int) ≥ A.nb_paths) := by omega
    rw [_piece]
    simp only [List.length_nil] at e1
    rw [e1]
    simp only [hge, if_false, e3]
    rw [flatten, e6]
    cases slot with
    | null =>
      have h : idx1 = 1 := by
        simp only [CoupleTypePointer.nbPieces] at e5
        omega
      subst h
      rfl
    | basic p =>
      have h : idx1 = 1 := by
        simp only [CoupleTypePointer.nbPieces] at e5
        omega
      subst h
      rfl
    | compound c =>
      simp only [CoupleTypePointer.nbPieces] at e5
      have hlt : (idx1 - 1).toNat < c.nbPieces.toNat := by omega
      have hback : (((idx1 - 1).toNat : Nat) : Int) + 1 = idx1 := by omega
      simp only [CoupleTypePointer.pieces, List.get?_eq_getElem?, List.getElem?_map,
        List.getElem?_range hlt, Option.map_some', Option.join, hback]
      exact CompoundPath.piece_of_mem checkElemt c idx1 e4 e5
  refine ⟨?_, ?_, fun index h1 h2 => ⟨hmain index h1 h2, ?_⟩⟩
  · rw [nbPieces]
    congr 1
    apply List.map_congr_left
    intro s _
    cases s <;> rfl
  · rw [nbPieces, flatten, concat_length A.array hall]
  · rw [CompoundPath.piece_of_mem checkElemt _ index h1 h2]
    exact hmain index h1 h2

theorem piece_flatten_witness :
    (∀ c : CompoundPath ℝ, CoupleTypePointer.compound c ∈
        (((ArrayPaths.new 2).setPath 0 (.basic ((LinCurvPath.new false (CurvConfig.new ⟨⟨0, 0⟩, 0⟩ 0) 0 2).toPath false))).setPath 1
      (.compound (ArrayPaths.toCompoundPath false
      ((ArrayPaths.new 1).setPath 0 (.basic ((LinCurvPath.new false (CurvConfig.new ⟨⟨2, 0⟩, 0⟩ 0) 0 3).toPath false))))) : ArrayPaths ℝ).array →
      0 ≤ c.nbPieces) ∧
    _piece false (((ArrayPaths.new 2).setPath 0 (.basic ((LinCurvPath.new false (CurvConfig.new ⟨⟨0, 0⟩, 0⟩ 0) 0 2).toPath false))).setPath 1
      (.compound (ArrayPaths.toCompoundPath false
      ((ArrayPaths.new 1).setPath 0 (.basic ((LinCurvPath.new false (CurvConfig.new ⟨⟨2, 0⟩, 0⟩ 0) 0 3).toPath false))))) : ArrayPaths ℝ) 2
      = ((((ArrayPaths.new 2).setPath 0 (.basic ((LinCurvPath.new false (CurvConfig.new ⟨⟨0, 0⟩, 0⟩ 0) 0 2).toPath false))).setPath 1
      (.compound (ArrayPaths.toCompoundPath false
      ((ArrayPaths.new 1).setPath 0 (.basic ((LinCurvPath.new false (CurvConfig.new ⟨⟨2, 0⟩, 0⟩ 0) 0 3).toPath false))))) : ArrayPaths ℝ).flatten.get? ((2 : Int) - 1).toNat).join :=
  have hnn : ∀ c : CompoundPath ℝ, CoupleTypePointer.compound c ∈
      (((ArrayPaths.new 2).setPath 0 (.basic ((LinCurvPath.new false (CurvConfig.new ⟨⟨0, 0⟩, 0⟩ 0) 0 2).toPath false))).setPath 1
      (.compound (ArrayPaths.toCompoundPath false
      ((ArrayPaths.new 1).setPath 0 (.basic ((LinCurvPath.new false (CurvConfig.new ⟨⟨2, 0⟩, 0⟩ 0) 0 3).toPath false))))) : ArrayPaths ℝ).array → 0 ≤ c.nbPieces := by
    intro c hc
    have hc2 : c = (ArrayPaths.toCompoundPath false
      ((ArrayPaths.new 1).setPath 0 (.basic ((LinCurvPath.new false (CurvConfig.new ⟨⟨2, 0⟩, 0⟩ 0) 0 3).toPath false)))) := by
      simpa [ArrayPaths.new, ArrayPaths.setPath, List.replicate] using hc
    rw [hc2]
    decide
  ⟨hnn, ((piece_flatten false _ hnn).2.2 2 (by decide) (by decide)).1⟩

end rob.ArrayPaths

/-! ## Rounding to `double` -/

namespace Object

theorem ulpExponent_eq {α : Type} [LinearOrderedField α] [FloorRing α] (x : α) (e : Int)
    (he : -1074 ≤ e) (h1 : (2 : α) ^ (e + 52) ≤ |x|) (h2 : |x| < (2 : α) ^ (e + 53)) :
    ulpExponent x = e := by
  have hpos : (0 : α) < |x| := lt_of_lt_of_le (zpow_pos (by norm_num) _) h1
  have hlog1 : e + 52 ≤ Int.log 2 |x| := by
    rw [← Int.zpow_le_iff_le_log (by norm_num) hpos]
    simpa using h1
  have hlog2 : Int.log 2 |x| < e + 53 := by
    rw [← Int.lt_zpow_iff_log_lt (by norm_num) hpos]
    simpa using h2
  unfold ulpExponent
  omega

theorem roundHalfEven_eq {α : Type} [LinearOrderedField α] [FloorRing α] (q : α) (n : Int)
    (h : |q - n| < 1 / 2) : roundHalfEven q = n := by
  have h1 := (abs_lt.mp h).1
  have h2 := (abs_lt.mp h).2
  unfold roundHalfEven
  rcases le_or_lt (n : α) q with hle | hlt
  · have hfl : ⌊q⌋ = n := by
      rw [Int.floor_eq_iff]
      constructor
      · exact hle
      · linarith
    rw [hfl, if_pos (by linarith)]
  · have hfl : ⌊q⌋ = n - 1 := by
      rw [Int.floor_eq_iff]
      push_cast
      constructor
      · linarith
      · linarith
    rw [hfl]
    push_cast
    rw [if_neg (by linarith), if_pos (by linarith)]
    ring

/-- The rounding of `x`, from the binade of `x` and the integer nearest to `x` counted
in units in the last place. -/
theorem roundDouble_eq {α : Type} [LinearOrderedField α] [FloorRing α] (x : α) (e n : Int)
    (he : -1074 ≤ e) (h1 : (2 : α) ^ (e + 52) ≤ |x|) (h2 : |x| < (2 : α) ^ (e + 53))
    (hn : |x / 2 ^ e - n| < 1 / 2) : roundDouble x = n * 2 ^ e := by
  unfold roundDouble
  rw [ulpExponent_eq x e he h1 h2, roundHalfEven_eq _ n hn]

theorem roundDouble_zero {α : Type} [LinearOrderedField α] [FloorRing α] :
    roundDouble (0 : α) = 0 := by
  simp [roundDouble, roundHalfEven]

theorem roundDouble_two_M_PI : roundDouble (2 * M_PI) = 2 * M_PI := by
  rw [roundDouble_eq (2 * M_PI) (-50) 7074237752028440 (by norm_num)
    (by rw [abs_of_pos (by norm_num [M_PI])]; norm_num [M_PI])
    (by rw [abs_of_pos (by norm_num [M_PI])]; norm_num [M_PI])
    (by norm_num [M_PI])]
  norm_num [M_PI]

/-- The double nearest to `1e17 - 2 * M_PI` is `1e17`: around `1e17` two doubles that
follow each other are 16 apart. -/
theorem roundDouble_stall : roundDouble ((10 : ℚ) ^ 17 - 2 * M_PI) = 10 ^ 17 := by
  rw [roundDouble_eq _ 4 6250000000000000 (by norm_num)
    (by rw [abs_of_pos (by norm_num [M_PI])]; norm_num [M_PI])
    (by rw [abs_of_pos (by norm_num [M_PI])]; norm_num [M_PI])
    (by rw [abs_lt]; constructor <;> norm_num [M_PI])]
  norm_num

theorem mod2piDownRounded_stall (fuel : Nat) :
    mod2piDownRounded (roundDouble (2 * M_PI)) fuel (10 ^ 17) = rob.Outcome.outOfFuel := by
  induction fuel with
  | zero => rfl
  | succ n ih =>
    rw [mod2piDownRounded, if_pos (by norm_num [M_PI]), roundDouble_two_M_PI, roundDouble_stall]
    rw [roundDouble_two_M_PI] at ih
    exact ih

end Object

namespace rob.OrPtConfig

/-- Claim C17, the code at the failing input: on doubles, `2 * M_PI` is exact and
`1e17 - 2 * M_PI` rounds to `1e17`, so the loop `while (res > M_PI) res -= PIx2;` of
`mod2pi(1e17)` is still running after any number of iterations, and
`OrPtConfig(Point(0, 0), 1e17)` returns no configuration; `mod2pi(4)` returns
`4 - 2 * M_PI` after one iteration. -/
theorem newRounded_never_returns :
    Object.roundDouble (2 * Object.M_PI) = 2 * Object.M_PI ∧
    Object.roundDouble ((10 : ℚ) ^ 17 - 2 * Object.M_PI) = 10 ^ 17 ∧
    (∀ fuel : Nat, Object.mod2piRounded fuel (10 ^ 17) = Outcome.outOfFuel) ∧
    (∀ fuel : Nat, newRounded fuel ⟨0, 0⟩ (10 ^ 17) = Outcome.outOfFuel) ∧
    Object.mod2piRounded 2 4 = Outcome.value (4 - 2 * Object.M_PI) := by
  have hstall : ∀ fuel : Nat, Object.mod2piRounded fuel (10 ^ 17) = Outcome.outOfFuel := by
    intro fuel
    rw [Object.mod2piRounded, Object.mod2piDownRounded_stall]
  refine ⟨Object.roundDouble_two_M_PI, Object.roundDouble_stall, hstall, ?_, ?_⟩
  · intro fuel
    rw [newRounded, hstall]
  · have h4 : Object.roundDouble ((4 : ℚ) - 2 * Object.M_PI) = 4 - 2 * Object.M_PI := by
      rw [Object.roundDouble_eq _ (-51) (-5141276249315888) (by norm_num)
        (by rw [abs_of_neg (by norm_num [Object.M_PI])]; norm_num [Object.M_PI])
        (by rw [abs_of_neg (by norm_num [Object.M_PI])]; norm_num [Object.M_PI])
        (by norm_num [Object.M_PI])]
      norm_num [Object.M_PI]
    rw [Object.mod2piRounded, Object.roundDouble_two_M_PI]
    simp only [Object.mod2piDownRounded, Object.mod2piUpRounded, h4]
    norm_num [Object.M_PI]

end rob.OrPtConfig

/-! ## Sampling a compound path on doubles -/

namespace rob.CompoundPath

variable {α : Type} [LinearOrderedField α]

/-- Without rounding, the loop on doubles is the loop in exact arithmetic. -/
theorem operatorLoopRounded_id (checkPrecond checkElemt : Bool) (P : CompoundPath α)
    (fuel : Nat) : ∀ (pieceNb : Int) (arcLength l : α),
      operatorLoopRounded id checkPrecond checkElemt P fuel pieceNb arcLength l
        = operatorLoop checkPrecond checkElemt P fuel pieceNb arcLength l := by
  induction fuel with
  | zero => intro _ _ _; rfl
  | succ n ih =>
    intro pieceNb arcLength l
    simp only [operatorLoopRounded, operatorLoop, id_eq, ih]

/-- The walk of `operator[]` on doubles: from piece `j + 1` with the arc length left
there, the loop stops on the first piece where the arc length left is at most the
length of the piece. -/
theorem operatorLoopRounded_walk (rnd : α → α) (checkPrecond checkElemt : Bool)
    (P : CompoundPath α) (g : Int → Path α)
    (hg : ∀ i, 1 ≤ i → i ≤ P.nbPieces → P._piece i = some (g i))
    (s : α) (m : Nat) (hm : (m : Int) + 1 ≤ P.nbPieces)
    (hbefore : ∀ j : Nat, j < m → (g ((j : Int) + 1)).length < arcLengthLeft rnd g s j)
    (hstop : arcLengthLeft rnd g s m ≤ (g ((m : Int) + 1)).length) (n : Nat) :
    ∀ (j fuel : Nat), j + n = m → n + 1 ≤ fuel →
      operatorLoopRounded rnd checkPrecond checkElemt P fuel ((j : Int) + 1)
          (arcLengthLeft rnd g s j) (g ((j : Int) + 1)).length
        = Outcome.value ((g ((m : Int) + 1)).operatorIdx (arcLengthLeft rnd g s m)) := by
  induction n with
  | zero =>
    intro j fuel hj hfuel
    have hjm : j = m := by omega
    subst hjm
    obtain ⟨f, rfl⟩ : ∃ f, fuel = f + 1 := ⟨fuel - 1, by omega⟩
    rw [operatorLoopRounded, if_neg (not_lt.mpr hstop),
      piece_of_mem checkElemt P _ (by omega) hm, hg _ (by omega) hm]
  | succ n ih =>
    intro j fuel hj hfuel
    obtain ⟨f, rfl⟩ : ∃ f, fuel = f + 1 := ⟨fuel - 1, by omega⟩
    have hlt : j < m := by omega
    have hgt : arcLengthLeft rnd g s j > (g ((j : Int) + 1)).length := hbefore j hlt
    have hne : ¬ ((j : Int) + 1 = P.nbPieces) := by omega
    have hnext : piece checkElemt P ((j : Int) + 1 + 1) = some (g ((j : Int) + 1 + 1)) := by
      rw [piece_of_mem checkElemt P _ (by omega) (by omega)]
      exact hg _ (by omega) (by omega)
    have hbeq : (((j : Int) + 1) == P.nbPieces) = false := by simpa using hne
    have hnx := ih (j + 1) f (by omega) (by omega)
    have hc : (((j + 1 : Nat)) : Int) = (j : Int) + 1 := by push_cast; rfl
    rw [hc] at hnx
    rw [operatorLoopRounded, if_pos hgt]
    simp only [hbeq, Bool.and_false, Bool.false_eq_true, if_false]
    rw [hnext]
    exact hnx

theorem operatorIdxRounded_walk (rnd : α → α) (checkPrecond checkElemt : Bool)
    (P : CompoundPath α) (g : Int → Path α)
    (hg : ∀ i, 1 ≤ i → i ≤ P.nbPieces → P._piece i = some (g i))
    (s : α) (m : Nat) (hm : (m : Int) + 1 ≤ P.nbPieces)
    (hbefore : ∀ j : Nat, j < m → (g ((j : Int) + 1)).length < arcLengthLeft rnd g s j)
    (hstop : arcLengthLeft rnd g s m ≤ (g ((m : Int) + 1)).length)
    (fuel : Nat) (hfuel : m + 1 ≤ fuel) :
    operatorIdxRounded rnd checkPrecond checkElemt P fuel s
      = Outcome.value ((g ((m : Int) + 1)).operatorIdx (arcLengthLeft rnd g s m)) := by
  have h1 : piece checkElemt P 1 = some (g 1) := by
    rw [piece_of_mem checkElemt P 1 le_rfl (by omega)]
    exact hg 1 le_rfl (by omega)
  have h := operatorLoopRounded_walk rnd checkPrecond checkElemt P g hg s m hm hbefore hstop
    m 0 fuel (by omega) hfuel
  have h0 : (((0 : Nat) : Int) + 1) = 1 := by norm_num
  rw [h0] at h
  rw [operatorIdxRounded, h1]
  exact h

/-- When the subtractions of the walk are exact, the arc length left after `j` pieces is
`s` minus the sum of their lengths. -/
theorem arcLengthLeft_exact (rnd : α → α) (g : Int → Path α) (s : α) (m : Nat)
    (hsub : ∀ j : Nat, j < m →
      rnd (s - ∑ i in Finset.Icc 1 (j : Int), (g i).length - (g ((j : Int) + 1)).length)
        = s - ∑ i in Finset.Icc 1 (j : Int), (g i).length - (g ((j : Int) + 1)).length) :
    ∀ j : Nat, j ≤ m →
      arcLengthLeft rnd g s j = s - ∑ i in Finset.Icc 1 (j : Int), (g i).length := by
  intro j
  induction j with
  | zero =>
    intro _
    simp [arcLengthLeft]
  | succ j ih =>
    intro hj
    have hc : (((j + 1 : Nat)) : Int) = (j : Int) + 1 := by push_cast; rfl
    rw [arcLengthLeft, ih (by omega), hsub j (by omega), hc,
      sum_Icc_pred _ ((j : Int) + 1) (by omega), add_sub_cancel_right]
    ring

theorem lengthLoopRounded_exact (rnd : α → α) (checkElemt : Bool) (P : CompoundPath α)
    (g : Int → Path α) (hg : ∀ i, 1 ≤ i → i ≤ P.nbPieces → P._piece i = some (g i))
    (hadd : ∀ j : Nat, (j : Int) + 1 ≤ P.nbPieces →
      rnd (∑ i in Finset.Icc 1 (j : Int), (g i).length + (g ((j : Int) + 1)).length)
        = ∑ i in Finset.Icc 1 (j : Int), (g i).length + (g ((j : Int) + 1)).length)
    (n : Nat) : ∀ j : Nat, (j : Int) + n ≤ P.nbPieces →
      lengthLoopRounded rnd checkElemt P n ((j : Int) + 1)
          (∑ i in Finset.Icc 1 (j : Int), (g i).length)
        = some (∑ i in Finset.Icc 1 ((j : Int) + n), (g i).length) := by
  induction n with
  | zero =>
    intro j _
    simp [lengthLoopRounded]
  | succ n ih =>
    intro j hj
    have hp : piece checkElemt P ((j : Int) + 1) = some (g ((j : Int) + 1)) := by
      rw [piece_of_mem checkElemt P _ (by omega) (by push_cast at hj; omega)]
      exact hg _ (by omega) (by push_cast at hj; omega)
    have hnx := ih (j + 1) (by push_cast at hj ⊢; omega)
    have hc : (((j + 1 : Nat)) : Int) = (j : Int) + 1 := by push_cast; rfl
    have hc2 : (j : Int) + 1 + (n : Int) = (j : Int) + ((n + 1 : Nat) : Int) := by
      push_cast; ring
    rw [hc, sum_Icc_pred _ ((j : Int) + 1) (by omega), add_sub_cancel_right, hc2] at hnx
    rw [lengthLoopRounded, hp, Option.some_bind, hadd j (by push_cast at hj; omega)]
    exact hnx

/-- When the additions of `length()` are exact, `length()` on doubles is the sum of the
lengths of the pieces. -/
theorem lengthRounded_exact (rnd : α → α) (checkElemt : Bool) (P : CompoundPath α)
    (g : Int → Path α) (hg : ∀ i, 1 ≤ i → i ≤ P.nbPieces → P._piece i = some (g i))
    (hnb : 0 ≤ P.nbPieces)
    (hadd : ∀ j : Nat, (j : Int) + 1 ≤ P.nbPieces →
      rnd (∑ i in Finset.Icc 1 (j : Int), (g i).length + (g ((j : Int) + 1)).length)
        = ∑ i in Finset.Icc 1 (j : Int), (g i).length + (g ((j : Int) + 1)).length) :
    lengthRounded rnd checkElemt P
      = some (∑ i in Finset.Icc 1 P.nbPieces, (g i).length) := by
  have h := lengthLoopRounded_exact rnd checkElemt P g hg hadd P.nbPieces.toNat 0 (by omega)
  have h0 : ((0 : Nat) : Int) + 1 = 1 := by norm_num
  have h1 : ((0 : Nat) : Int) + (P.nbPieces.toNat : Int) = P.nbPieces := by omega
  have h2 : ∑ i in Finset.Icc 1 ((0 : Nat) : Int), (g i).length = 0 := by simp
  rw [h0, h1, h2] at h
  exact h

/-- When the subtractions of the walk are exact, `operator[](s)` on doubles stops on the
first piece whose cumulated length reaches `s`. -/
theorem operatorIdxRounded_first_piece (rnd : α → α) (checkPrecond checkElemt : Bool)
    (P : CompoundPath α) (g : Int → Path α)
    (hg : ∀ i, 1 ≤ i → i ≤ P.nbPieces → P._piece i = some (g i))
    (s : α) (k : Int) (hk1 : 1 ≤ k) (hk : k ≤ P.nbPieces)
    (hsk : s ≤ ∑ j in Finset.Icc 1 k, (g j).length)
    (hbefore : ∀ j, 1 ≤ j → j < k → ∑ i in Finset.Icc 1 j, (g i).length < s)
    (hsub : ∀ j : Nat, (j : Int) + 1 < k →
      rnd (s - ∑ i in Finset.Icc 1 (j : Int), (g i).length - (g ((j : Int) + 1)).length)
        = s - ∑ i in Finset.Icc 1 (j : Int), (g i).length - (g ((j : Int) + 1)).length)
    (fuel : Nat) (hfuel : P.nbPieces.toNat ≤ fuel) :
    operatorIdxRounded rnd checkPrecond checkElemt P fuel s
      = Outcome.value ((g k).operatorIdx (s - ∑ j in Finset.Icc 1 (k - 1), (g j).length)) := by
  have hkm : (((k - 1).toNat : Nat) : Int) + 1 = k := by omega
  have hkm1 : (((k - 1).toNat : Nat) : Int) = k - 1 := by omega
  have hleft := arcLengthLeft_exact rnd g s (k - 1).toNat
    (fun j hj => hsub j (by omega))
  have h := operatorIdxRounded_walk rnd checkPrecond checkElemt P g hg s (k - 1).toNat
    (by omega)
    (fun j hj => by
      rw [hleft j hj.le]
      have h2 := hbefore ((j : Int) + 1) (by omega) (by omega)
      rw [sum_Icc_pred _ ((j : Int) + 1) (by omega), add_sub_cancel_right] at h2
      linarith)
    (by
      rw [hleft _ le_rfl, hkm, hkm1]
      rw [sum_Icc_pred _ k hk1] at hsk
      linarith)
    fuel (by omega)
  rw [hleft _ le_rfl, hkm, hkm1] at h
  exact h

/-- Claim C6, amended. For every compound path with at least one piece, every arc
length `s` and every build, on doubles (`rnd` is the rounding of a difference or of a
sum).  When the arc length left, `s` minus the lengths of the pieces walked as the
machine computes it, is at most the length of the piece reached for the first time at a
piece `m + 1` of the path, `operator[](s)` terminates within `m + 1` iterations and
returns that piece sampled at the arc length left.  When the additions of `length()` and
the subtractions of the walk (before the piece `k` below) are exact, this is so for every
`s` not above `length()`: the piece is the first one whose cumulated length (pieces
`1..k`) is at least `s`, and it is sampled at `s - (sum of the lengths of pieces
1..k-1)`; on a boundary between two pieces the earlier piece is sampled, at its end. -/
theorem operatorIdx_in_range (rnd : α → α) (checkPrecond checkElemt : Bool)
    (P : CompoundPath α) (g : Int → Path α)
    (hg : ∀ i, 1 ≤ i → i ≤ P.nbPieces → P._piece i = some (g i))
    (hnb : 1 ≤ P.nbPieces) (s : α) :
    (∀ m : Nat, (m : Int) + 1 ≤ P.nbPieces →
      (∀ j : Nat, j < m → (g ((j : Int) + 1)).length < arcLengthLeft rnd g s j) →
      arcLengthLeft rnd g s m ≤ (g ((m : Int) + 1)).length →
      ∀ fuel, m + 1 ≤ fuel →
        operatorIdxRounded rnd checkPrecond checkElemt P fuel s
          = Outcome.value ((g ((m : Int) + 1)).operatorIdx (arcLengthLeft rnd g s m))) ∧
    ((∀ j : Nat, (j : Int) + 1 ≤ P.nbPieces →
        rnd (∑ i in Finset.Icc 1 (j : Int), (g i).length + (g ((j : Int) + 1)).length)
          = ∑ i in Finset.Icc 1 (j : Int), (g i).length + (g ((j : Int) + 1)).length) →
      ∃ total, lengthRounded rnd checkElemt P = some total ∧
        (s ≤ total →
          ∃ k : Int, 1 ≤ k ∧ k ≤ P.nbPieces ∧
            s ≤ ∑ j in Finset.Icc 1 k, (g j).length ∧
            (∀ j, 1 ≤ j → j < k → ∑ i in Finset.Icc 1 j, (g i).length < s) ∧
            ((∀ j : Nat, (j : Int) + 1 < k →
                rnd (s - ∑ i in Finset.Icc 1 (j : Int), (g i).length
                    - (g ((j : Int) + 1)).length)
                  = s - ∑ i in Finset.Icc 1 (j : Int), (g i).length
                    - (g ((j : Int) + 1)).length) →
              ∀ fuel, P.nbPieces.toNat ≤ fuel →
                operatorIdxRounded rnd checkPrecond checkElemt P fuel s
                  = Outcome.value
                      ((g k).operatorIdx
                        (s - ∑ j in Finset.Icc 1 (k - 1), (g j).length))))) := by
  refine ⟨fun m hm hbefore hstop fuel hfuel =>
    operatorIdxRounded_walk rnd checkPrecond checkElemt P g hg s m hm hbefore hstop fuel hfuel,
    fun hadd => ⟨_, lengthRounded_exact rnd checkElemt P g hg (by omega) hadd, fun hs => ?_⟩⟩
  obtain ⟨k, hk1, hk2, hk3, hk4⟩ := exists_first_piece g s P.nbPieces hnb hs
  exact ⟨k, hk1, hk2, hk3, hk4, fun hsub fuel hfuel =>
    operatorIdxRounded_first_piece rnd checkPrecond checkElemt P g hg s k hk1 hk2 hk3 hk4
      hsub fuel hfuel⟩

theorem sum_Icc_mono_of_nonneg (f : Int → α) (a : Int) (ha : 0 ≤ a) (n : Nat)
    (hf : ∀ i, a < i → i ≤ a + n → 0 ≤ f i) :
    ∑ i in Finset.Icc 1 a, f i ≤ ∑ i in Finset.Icc 1 (a + n), f i := by
  induction n with
  | zero => simp
  | succ n ih =>
    have h1 := ih (fun i h1 h2 => hf i h1 (by push_cast; omega))
    have hc : a + ((n + 1 : Nat) : Int) - 1 = a + (n : Int) := by push_cast; omega
    rw [sum_Icc_pred f (a + ((n + 1 : Nat) : Int)) (by push_cast; omega), hc]
    have h2 := hf (a + ((n + 1 : Nat) : Int)) (by push_cast; omega) le_rfl
    linarith

end rob.CompoundPath

namespace rob.LinCurvPath

theorem configAt_orientation_mem (checkElemt : Bool) (c : CurvConfig ℝ) (sh len s : ℝ) :
    -Real.pi < (configAt checkElemt c sh len s).Orientation ∧
      (configAt checkElemt c sh len s).Orientation ≤ Real.pi :=
  Object.mod2pi_mem _

/-- A path of length zero built by the main constructor ends where it starts, when the
orientation of its start lies in `(-π, π]`. -/
theorem configAt_zero (checkElemt : Bool) (c : CurvConfig ℝ) (sh : ℝ)
    (h1 : -Real.pi < c.Orientation) (h2 : c.Orientation ≤ Real.pi) :
    configAt checkElemt c sh 0 0 = c := by
  have hc : (if checkElemt then (if (0 : ℝ) < 0 then 0 else if (0 : ℝ) > 0 then 0 else 0)
      else (0 : ℝ)) = 0 := by
    cases checkElemt <;> simp
  unfold configAt
  simp only [hc]
  simp [CurvConfig.ofPoint, OrPtConfig.new, Point.translate, CurvConfig.new,
    Object.mod2pi_of_mem h1 h2]

end rob.LinCurvPath

/-! ## Sampling a compound path at its length -/

namespace rob.CompoundPath

/-- From a piece `k` on, pieces of length zero that each start where the piece before
ends all end where piece `k` ends. -/
theorem end_chain (checkElemt : Bool) (lc : Int → LinCurvPath ℝ) (k nb : Int) (hk : 1 ≤ k)
    (hctor : ∀ i, 1 ≤ i → i ≤ nb → ∃ st sh len, lc i = LinCurvPath.new checkElemt st sh len)
    (hzero : ∀ i, k < i → i ≤ nb → (lc i).Length = 0 ∧ (lc i).Start = (lc (i - 1)).End)
    (n : Nat) : k + n ≤ nb → (lc (k + n)).End = (lc k).End := by
  induction n with
  | zero =>
    intro _
    simp
  | succ n ih =>
    intro hn
    have hprev := ih (by push_cast at hn; omega)
    have hc : k + ((n + 1 : Nat) : Int) - 1 = k + (n : Int) := by push_cast; omega
    obtain ⟨hz, hs⟩ := hzero (k + ((n + 1 : Nat) : Int)) (by push_cast; omega) hn
    rw [hc] at hs
    obtain ⟨st, sh, len, hnew⟩ := hctor (k + ((n + 1 : Nat) : Int)) (by push_cast; omega) hn
    obtain ⟨st1, sh1, len1, hnew1⟩ := hctor (k + (n : Int)) (by omega)
      (by push_cast at hn; omega)
    rw [hnew] at hz hs
    have hlen : len = 0 := hz
    have hst : st = (lc (k + (n : Int))).End := hs
    have hmem : -Real.pi < st.Orientation ∧ st.Orientation ≤ Real.pi := by
      rw [hst, hnew1]
      exact LinCurvPath.configAt_orientation_mem checkElemt st1 sh1 len1 len1
    rw [hnew, ← hprev, ← hst, hlen]
    exact LinCurvPath.configAt_zero checkElemt st sh hmem.1 hmem.2

/-- Claim C5, amended. For every compound path with at least one piece, whose pieces are
`LinCurvPath` segments built by their main constructor, in every build and on doubles
(`rnd` is the rounding of a sum or of a difference), `path.end()` is the end of
`piece(nbPieces())` and sampling at the total length returns it, `path[path.length()]`
equals `path.end()`, in these cases.  First, when the walk from `length()` stops on a
piece with an arc length left equal to the length of that piece, the pieces after it, if
any, having length zero and each starting at the configuration where the piece before it
ends.  Second, when every piece after the first either has positive length or is such a
piece of length zero, and the additions of `length()` and the subtractions of the walk
are exact. -/
theorem operatorIdx_length_eq_end (rnd : ℝ → ℝ) (checkPrecond checkElemt : Bool)
    (P : CompoundPath ℝ) (lc : Int → LinCurvPath ℝ)
    (hctor : ∀ i, 1 ≤ i → i ≤ P.nbPieces →
      ∃ st sh len, lc i = LinCurvPath.new checkElemt st sh len)
    (hp : ∀ i, 1 ≤ i → i ≤ P.nbPieces → P._piece i = some ((lc i).toPath checkElemt))
    (hnb : 1 ≤ P.nbPieces) :
    end_ checkElemt P = some (lc P.nbPieces).End.toOrPtConfig ∧
    (∀ (total : ℝ) (m : Nat), lengthRounded rnd checkElemt P = some total →
      (m : Int) + 1 ≤ P.nbPieces →
      (∀ j : Nat, j < m → (lc ((j : Int) + 1)).Length
        < arcLengthLeft rnd (fun i => (lc i).toPath checkElemt) total j) →
      arcLengthLeft rnd (fun i => (lc i).toPath checkElemt) total m
        = (lc ((m : Int) + 1)).Length →
      (∀ i, (m : Int) + 1 < i → i ≤ P.nbPieces →
        (lc i).Length = 0 ∧ (lc i).Start = (lc (i - 1)).End) →
      ∀ fuel, m + 1 ≤ fuel →
        operatorIdxRounded rnd checkPrecond checkElemt P fuel total
          = Outcome.value (lc P.nbPieces).End) ∧
    ((∀ i, 2 ≤ i → i ≤ P.nbPieces →
        0 < (lc i).Length ∨ ((lc i).Length = 0 ∧ (lc i).Start = (lc (i - 1)).End)) →
      (∀ j : Nat, (j : Int) + 1 ≤ P.nbPieces →
        rnd (∑ i in Finset.Icc 1 (j : Int), (lc i).Length + (lc ((j : Int) + 1)).Length)
          = ∑ i in Finset.Icc 1 (j : Int), (lc i).Length + (lc ((j : Int) + 1)).Length) →
      (∀ j : Nat, (j : Int) + 1 < P.nbPieces →
        rnd (∑ i in Finset.Icc 1 P.nbPieces, (lc i).Length
            - ∑ i in Finset.Icc 1 (j : Int), (lc i).Length - (lc ((j : Int) + 1)).Length)
          = ∑ i in Finset.Icc 1 P.nbPieces, (lc i).Length
            - ∑ i in Finset.Icc 1 (j : Int), (lc i).Length - (lc ((j : Int) + 1)).Length) →
      ∃ total, lengthRounded rnd checkElemt P = some total ∧
        ∀ fuel, P.nbPieces.toNat ≤ fuel →
          operatorIdxRounded rnd checkPrecond checkElemt P fuel total
            = Outcome.value (lc P.nbPieces).End) := by
  refine ⟨?_, ?_, ?_⟩
  · rw [end_, piece_of_mem checkElemt P P.nbPieces hnb le_rfl, hp P.nbPieces hnb le_rfl]
    rfl
  · intro total m _ hm hbefore hstop hzero fuel hfuel
    have hop := operatorIdxRounded_walk rnd checkPrecond checkElemt P
      (fun i => (lc i).toPath checkElemt) hp total m hm hbefore hstop.le fuel hfuel
    have hend : (lc P.nbPieces).End = (lc ((m : Int) + 1)).End := by
      have h := end_chain checkElemt lc ((m : Int) + 1) P.nbPieces (by omega) hctor hzero
        (P.nbPieces - ((m : Int) + 1)).toNat (by omega)
      have hc : (m : Int) + 1 + (((P.nbPieces - ((m : Int) + 1)).toNat : Nat) : Int)
          = P.nbPieces := by omega
      rw [hc] at h
      exact h
    rw [hop, hstop, hend]
    obtain ⟨st, sh, len, hnew⟩ := hctor ((m : Int) + 1) (by omega) hm
    simp only [hnew]
    rfl
  · intro hlater hadd hsub
    have hlen : lengthRounded rnd checkElemt P
        = some (∑ i in Finset.Icc 1 P.nbPieces, (lc i).Length) :=
      lengthRounded_exact rnd checkElemt P (fun i => (lc i).toPath checkElemt) hp (by omega)
        hadd
    refine ⟨_, hlen, fun fuel hfuel => ?_⟩
    obtain ⟨k, hk1, hk2, hk3, hk4⟩ := exists_first_piece
      (fun i => (lc i).toPath checkElemt) (∑ i in Finset.Icc 1 P.nbPieces, (lc i).Length)
      P.nbPieces hnb le_rfl
    have hk3a : ∑ i in Finset.Icc 1 P.nbPieces, (lc i).Length
        ≤ ∑ i in Finset.Icc 1 k, (lc i).Length := hk3
    have hnonneg : ∀ i, k < i → i ≤ P.nbPieces → 0 ≤ (lc i).Length := by
      intro i h1 h2
      rcases hlater i (by omega) h2 with h | h
      · exact h.le
      · exact h.1.ge
    have hmono : ∀ a b : Int, k ≤ a → a ≤ b → b ≤ P.nbPieces →
        ∑ i in Finset.Icc 1 a, (lc i).Length ≤ ∑ i in Finset.Icc 1 b, (lc i).Length := by
      intro a b h1 h2 h3
      have h := sum_Icc_mono_of_nonneg (fun i => (lc i).Length) a (by omega) (b - a).toNat
        (fun i hi1 hi2 => hnonneg i (by omega) (by omega))
      have hc : a + (((b - a).toNat : Nat) : Int) = b := by omega
      rw [hc] at h
      exact h
    have hzero : ∀ i, k < i → i ≤ P.nbPieces →
        (lc i).Length = 0 ∧ (lc i).Start = (lc (i - 1)).End := by
      intro i h1 h2
      have hz : (lc i).Length = 0 := by
        have ha := hmono k (i - 1) le_rfl (by omega) (by omega)
        have hb := hmono i P.nbPieces (by omega) h2 le_rfl
        have hc := sum_Icc_pred (fun i => (lc i).Length) i (by omega)
        have hd := hnonneg i h1 h2
        simp only at hc
        linarith
      rcases hlater i (by omega) h2 with h | h
      · rw [hz] at h
        exact absurd h (lt_irrefl _)
      · exact h
    have hend : (lc P.nbPieces).End = (lc k).End := by
      have h := end_chain checkElemt lc k P.nbPieces hk1 hctor hzero (P.nbPieces - k).toNat
        (by omega)
      have hc : k + (((P.nbPieces - k).toNat : Nat) : Int) = P.nbPieces := by omega
      rw [hc] at h
      exact h
    have hres : ∑ i in Finset.Icc 1 P.nbPieces, (lc i).Length
        - ∑ i in Finset.Icc 1 (k - 1), (lc i).Length = (lc k).Length := by
      have ha := hmono k P.nbPieces le_rfl hk2 le_rfl
      have hc := sum_Icc_pred (fun i => (lc i).Length) k hk1
      simp only at hc
      linarith
    have hop := operatorIdxRounded_first_piece rnd checkPrecond checkElemt P
      (fun i => (lc i).toPath checkElemt) hp (∑ i in Finset.Icc 1 P.nbPieces, (lc i).Length)
      k hk1 hk2 hk3 hk4 (fun j hj => hsub j (by omega)) fuel hfuel
    have hop2 : operatorIdxRounded rnd checkPrecond checkElemt P fuel
        (∑ i in Finset.Icc 1 P.nbPieces, (lc i).Length)
        = Outcome.value (((lc k).toPath checkElemt).operatorIdx
            (∑ i in Finset.Icc 1 P.nbPieces, (lc i).Length
              - ∑ i in Finset.Icc 1 (k - 1), (lc i).Length)) := hop
    rw [hop2, hres, hend]
    obtain ⟨st, sh, len, hnew⟩ := hctor k hk1 hk2
    rw [hnew]
    rfl

end rob.CompoundPath

/-! ## Doubles that additions and subtractions give exactly -/

namespace Object

variable {α : Type} [LinearOrderedField α] [FloorRing α]

theorem roundDouble_one : roundDouble (1 : α) = 1 := by
  rw [roundDouble_eq (1 : α) (-52) 4503599627370496 (by norm_num)
    (by rw [abs_of_pos (by norm_num)]; norm_num)
    (by rw [abs_of_pos (by norm_num)]; norm_num)
    (by norm_num)]
  norm_num

theorem roundDouble_two : roundDouble (2 : α) = 2 := by
  rw [roundDouble_eq (2 : α) (-51) 4503599627370496 (by norm_num)
    (by rw [abs_of_pos (by norm_num)]; norm_num)
    (by rw [abs_of_pos (by norm_num)]; norm_num)
    (by norm_num)]
  norm_num

theorem roundDouble_half : roundDouble ((1 : α) / 2) = 1 / 2 := by
  rw [roundDouble_eq ((1 : α) / 2) (-53) 4503599627370496 (by norm_num)
    (by rw [abs_of_pos (by norm_num)]; norm_num)
    (by rw [abs_of_pos (by norm_num)]; norm_num)
    (by norm_num)]
  norm_num

end Object

/-! ## Two unit segments, on doubles -/

namespace rob.CompoundPath

theorem length_unit_pair (i : Int) :
    ((fun i : Int => if i = 1 then ((LinCurvPath.new false (CurvConfig.new ⟨⟨0, 0⟩, 0⟩ 0) 0 1).toPath false) else ((LinCurvPath.new false (CurvConfig.new ⟨⟨5, 5⟩, 0⟩ 0) 0 1).toPath false)) i).length = 1 := by
  by_cases hi : i = 1
  · simp only [hi, if_true]
    rfl
  · simp only [hi, if_false]
    rfl

theorem sum_Icc_zero {α : Type} [LinearOrderedField α] (f : Int → α) :
    ∑ i in Finset.Icc 1 ((0 : Nat) : Int), f i = 0 := by
  simp

theorem sum_Icc_one {α : Type} [LinearOrderedField α] (f : Int → α) :
    ∑ i in Finset.Icc 1 ((1 : Nat) : Int), f i = f 1 := by
  simp

theorem add_exact_unit_pair (j : Nat) (hj : (j : Int) + 1 ≤ (ArrayPaths.toCompoundPath false
      (((ArrayPaths.new 2).setPath 0 (.basic ((LinCurvPath.new false (CurvConfig.new ⟨⟨0, 0⟩, 0⟩ 0) 0 1).toPath false))).setPath 1 (.basic ((LinCurvPath.new false (CurvConfig.new ⟨⟨5, 5⟩, 0⟩ 0) 0 1).toPath false)))).nbPieces) :
    Object.roundDouble (∑ i in Finset.Icc 1 (j : Int), ((fun i : Int => if i = 1 then ((LinCurvPath.new false (CurvConfig.new ⟨⟨0, 0⟩, 0⟩ 0) 0 1).toPath false) else ((LinCurvPath.new false (CurvConfig.new ⟨⟨5, 5⟩, 0⟩ 0) 0 1).toPath false)) i).length
        + ((fun i : Int => if i = 1 then ((LinCurvPath.new false (CurvConfig.new ⟨⟨0, 0⟩, 0⟩ 0) 0 1).toPath false) else ((LinCurvPath.new false (CurvConfig.new ⟨⟨5, 5⟩, 0⟩ 0) 0 1).toPath false)) ((j : Int) + 1)).length)
      = ∑ i in Finset.Icc 1 (j : Int), ((fun i : Int => if i = 1 then ((LinCurvPath.new false (CurvConfig.new ⟨⟨0, 0⟩, 0⟩ 0) 0 1).toPath false) else ((LinCurvPath.new false (CurvConfig.new ⟨⟨5, 5⟩, 0⟩ 0) 0 1).toPath false)) i).length
        + ((fun i : Int => if i = 1 then ((LinCurvPath.new false (CurvConfig.new ⟨⟨0, 0⟩, 0⟩ 0) 0 1).toPath false) else ((LinCurvPath.new false (CurvConfig.new ⟨⟨5, 5⟩, 0⟩ 0) 0 1).toPath false)) ((j : Int) + 1)).length := by
  rw [ArrayPaths.nbPieces_two] at hj
  have h : j = 0 ∨ j = 1 := by omega
  have h2 : (1 : ℝ) + 1 = 2 := by norm_num
  rcases h with rfl | rfl
  · rw [sum_Icc_zero, length_unit_pair, zero_add, Object.roundDouble_one]
  · rw [sum_Icc_one, length_unit_pair, length_unit_pair, h2, Object.roundDouble_two]

theorem lengthRounded_unit_pair :
    lengthRounded Object.roundDouble false (ArrayPaths.toCompoundPath false
      (((ArrayPaths.new 2).setPath 0 (.basic ((LinCurvPath.new false (CurvConfig.new ⟨⟨0, 0⟩, 0⟩ 0) 0 1).toPath false))).setPath 1 (.basic ((LinCurvPath.new false (CurvConfig.new ⟨⟨5, 5⟩, 0⟩ 0) 0 1).toPath false)))) = some 2 := by
  have h := lengthRounded_exact Object.roundDouble false _ _
    (ArrayPaths.piece_two false ((LinCurvPath.new false (CurvConfig.new ⟨⟨0, 0⟩, 0⟩ 0) 0 1).toPath false) ((LinCurvPath.new false (CurvConfig.new ⟨⟨5, 5⟩, 0⟩ 0) 0 1).toPath false)) (by rw [ArrayPaths.nbPieces_two]; decide)
    add_exact_unit_pair
  rw [ArrayPaths.nbPieces_two, sum_Icc_two, length_unit_pair, length_unit_pair] at h
  have h2 : (1 : ℝ) + 1 = 2 := by norm_num
  rw [h2] at h
  exact h

/-- Claim C6 fails as stated, in two ways.  First, on a boundary: an `ArrayPaths` of two
elementary slots, straight segments of length 1 starting at `(0, 0)` and at `(5, 5)`,
sampled at `s = 1`; all the values are doubles and no operation rounds.  The cumulated
length exceeds 1 at piece 2, so the claim gives `piece(2)[0]`, at abscissa 5; the code
returns `piece(1)[1]`, at abscissa 1.  Second, without pieces: the default-constructed
Dubins path has length 0, and `operator[](0)` reads `LcPieces[0]` of an empty array, in
every build. -/
theorem operatorIdx_in_range_counterexample :
    (lengthRounded Object.roundDouble false (ArrayPaths.toCompoundPath false
      (((ArrayPaths.new 2).setPath 0 (.basic ((LinCurvPath.new false (CurvConfig.new ⟨⟨0, 0⟩, 0⟩ 0) 0 1).toPath false))).setPath 1 (.basic ((LinCurvPath.new false (CurvConfig.new ⟨⟨5, 5⟩, 0⟩ 0) 0 1).toPath false)))) = some 2 ∧
      ExceedsAt (fun i : Int => if i = 1 then ((LinCurvPath.new false (CurvConfig.new ⟨⟨0, 0⟩, 0⟩ 0) 0 1).toPath false) else ((LinCurvPath.new false (CurvConfig.new ⟨⟨5, 5⟩, 0⟩ 0) 0 1).toPath false)) 1 2 ∧
      operatorIdxRounded Object.roundDouble false false (ArrayPaths.toCompoundPath false
      (((ArrayPaths.new 2).setPath 0 (.basic ((LinCurvPath.new false (CurvConfig.new ⟨⟨0, 0⟩, 0⟩ 0) 0 1).toPath false))).setPath 1 (.basic ((LinCurvPath.new false (CurvConfig.new ⟨⟨5, 5⟩, 0⟩ 0) 0 1).toPath false)))) 2 1
        = Outcome.value ((LinCurvPath.new false (CurvConfig.new ⟨⟨0, 0⟩, 0⟩ 0) 0 1).operatorIdx false 1) ∧
      ((LinCurvPath.new false (CurvConfig.new ⟨⟨0, 0⟩, 0⟩ 0) 0 1).operatorIdx false 1).Position.XCoord = 1 ∧
      ((LinCurvPath.new false (CurvConfig.new ⟨⟨5, 5⟩, 0⟩ 0) 0 1).operatorIdx false (1 - 1)).Position.XCoord = 5 ∧
      operatorIdxRounded Object.roundDouble false false (ArrayPaths.toCompoundPath false
      (((ArrayPaths.new 2).setPath 0 (.basic ((LinCurvPath.new false (CurvConfig.new ⟨⟨0, 0⟩, 0⟩ 0) 0 1).toPath false))).setPath 1 (.basic ((LinCurvPath.new false (CurvConfig.new ⟨⟨5, 5⟩, 0⟩ 0) 0 1).toPath false)))) 2 1
        ≠ Outcome.value ((LinCurvPath.new false (CurvConfig.new ⟨⟨5, 5⟩, 0⟩ 0) 0 1).operatorIdx false (1 - 1))) ∧
    (∀ ce : Bool, lengthRounded Object.roundDouble ce (DubinsLikePath.toCompoundPath ce ⟨0, [], DubinsType.lsl, 0⟩) = some 0) ∧
    (∀ (cp ce : Bool) (fuel : Nat),
      operatorIdxRounded Object.roundDouble cp ce (DubinsLikePath.toCompoundPath ce ⟨0, [], DubinsType.lsl, 0⟩) fuel 0 = Outcome.undefined) := by
  have hx1 : ((LinCurvPath.new false (CurvConfig.new ⟨⟨0, 0⟩, 0⟩ 0) 0 1).operatorIdx false 1).Position.XCoord = 1 := by
    have h := LinCurvPath.configAt_line_x false 0 0 1 1 zero_le_one le_rfl
    rw [zero_add] at h
    exact h
  have hx2 : ((LinCurvPath.new false (CurvConfig.new ⟨⟨5, 5⟩, 0⟩ 0) 0 1).operatorIdx false (1 - 1)).Position.XCoord = 5 := by
    have h := LinCurvPath.configAt_line_x false 5 5 1 0 le_rfl zero_le_one
    rw [add_zero] at h
    rw [sub_self]
    exact h
  have hop := operatorIdxRounded_walk Object.roundDouble false false _ _
    (ArrayPaths.piece_two false ((LinCurvPath.new false (CurvConfig.new ⟨⟨0, 0⟩, 0⟩ 0) 0 1).toPath false) ((LinCurvPath.new false (CurvConfig.new ⟨⟨5, 5⟩, 0⟩ 0) 0 1).toPath false)) 1 0 (by rw [ArrayPaths.nbPieces_two]; decide)
    (fun j hj => absurd hj (Nat.not_lt_zero j))
    (by rw [length_unit_pair]; exact le_refl (1 : ℝ)) 2 (by decide)
  have hop1 : operatorIdxRounded Object.roundDouble false false (ArrayPaths.toCompoundPath false
      (((ArrayPaths.new 2).setPath 0 (.basic ((LinCurvPath.new false (CurvConfig.new ⟨⟨0, 0⟩, 0⟩ 0) 0 1).toPath false))).setPath 1 (.basic ((LinCurvPath.new false (CurvConfig.new ⟨⟨5, 5⟩, 0⟩ 0) 0 1).toPath false)))) 2 1
      = Outcome.value ((LinCurvPath.new false (CurvConfig.new ⟨⟨0, 0⟩, 0⟩ 0) 0 1).operatorIdx false 1) := hop
  clear hop
  refine ⟨⟨lengthRounded_unit_pair, ⟨?_, ?_⟩, hop1, hx1, hx2, ?_⟩, ?_, ?_⟩
  · rw [sum_Icc_two, length_unit_pair, length_unit_pair]
    exact (lt_add_one (1 : ℝ))
  · intro j h1 h2
    have hj : j = 1 := by omega
    subst hj
    rw [Finset.Icc_self, Finset.sum_singleton, length_unit_pair]
  · rw [hop1]
    intro h
    have h3 : ((LinCurvPath.new false (CurvConfig.new ⟨⟨0, 0⟩, 0⟩ 0) 0 1).operatorIdx false 1).Position.XCoord
        = ((LinCurvPath.new false (CurvConfig.new ⟨⟨5, 5⟩, 0⟩ 0) 0 1).operatorIdx false (1 - 1)).Position.XCoord :=
      congrArg (fun c : CurvConfig ℝ => c.Position.XCoord) (Outcome.value.inj h)
    rw [hx1, hx2] at h3
    norm_num at h3
  · intro ce
    cases ce <;> rfl
  · intro cp ce fuel
    cases ce <;> rfl

theorem operatorIdx_in_range_witness :
    (∀ i : Int, 1 ≤ i → i ≤ (ArrayPaths.toCompoundPath false
      (((ArrayPaths.new 2).setPath 0 (.basic ((LinCurvPath.new false (CurvConfig.new ⟨⟨0, 0⟩, 0⟩ 0) 0 1).toPath false))).setPath 1 (.basic ((LinCurvPath.new false (CurvConfig.new ⟨⟨5, 5⟩, 0⟩ 0) 0 1).toPath false)))).nbPieces →
      (ArrayPaths.toCompoundPath false
      (((ArrayPaths.new 2).setPath 0 (.basic ((LinCurvPath.new false (CurvConfig.new ⟨⟨0, 0⟩, 0⟩ 0) 0 1).toPath false))).setPath 1 (.basic ((LinCurvPath.new false (CurvConfig.new ⟨⟨5, 5⟩, 0⟩ 0) 0 1).toPath false))))._piece i = some ((fun i : Int => if i = 1 then ((LinCurvPath.new false (CurvConfig.new ⟨⟨0, 0⟩, 0⟩ 0) 0 1).toPath false) else ((LinCurvPath.new false (CurvConfig.new ⟨⟨5, 5⟩, 0⟩ 0) 0 1).toPath false)) i)) ∧
    (1 ≤ (ArrayPaths.toCompoundPath false
      (((ArrayPaths.new 2).setPath 0 (.basic ((LinCurvPath.new false (CurvConfig.new ⟨⟨0, 0⟩, 0⟩ 0) 0 1).toPath false))).setPath 1 (.basic ((LinCurvPath.new false (CurvConfig.new ⟨⟨5, 5⟩, 0⟩ 0) 0 1).toPath false)))).nbPieces) ∧
    operatorIdxRounded Object.roundDouble false false (ArrayPaths.toCompoundPath false
      (((ArrayPaths.new 2).setPath 0 (.basic ((LinCurvPath.new false (CurvConfig.new ⟨⟨0, 0⟩, 0⟩ 0) 0 1).toPath false))).setPath 1 (.basic ((LinCurvPath.new false (CurvConfig.new ⟨⟨5, 5⟩, 0⟩ 0) 0 1).toPath false)))) 2 (3 / 2)
      = Outcome.value (((fun i : Int => if i = 1 then ((LinCurvPath.new false (CurvConfig.new ⟨⟨0, 0⟩, 0⟩ 0) 0 1).toPath false) else ((LinCurvPath.new false (CurvConfig.new ⟨⟨5, 5⟩, 0⟩ 0) 0 1).toPath false)) (((1 : Nat) : Int) + 1)).operatorIdx
          (arcLengthLeft Object.roundDouble (fun i : Int => if i = 1 then ((LinCurvPath.new false (CurvConfig.new ⟨⟨0, 0⟩, 0⟩ 0) 0 1).toPath false) else ((LinCurvPath.new false (CurvConfig.new ⟨⟨5, 5⟩, 0⟩ 0) 0 1).toPath false)) (3 / 2) 1)) ∧
    arcLengthLeft Object.roundDouble (fun i : Int => if i = 1 then ((LinCurvPath.new false (CurvConfig.new ⟨⟨0, 0⟩, 0⟩ 0) 0 1).toPath false) else ((LinCurvPath.new false (CurvConfig.new ⟨⟨5, 5⟩, 0⟩ 0) 0 1).toPath false)) (3 / 2) 1 = 1 / 2 ∧
    ∃ total, lengthRounded Object.roundDouble false (ArrayPaths.toCompoundPath false
      (((ArrayPaths.new 2).setPath 0 (.basic ((LinCurvPath.new false (CurvConfig.new ⟨⟨0, 0⟩, 0⟩ 0) 0 1).toPath false))).setPath 1 (.basic ((LinCurvPath.new false (CurvConfig.new ⟨⟨5, 5⟩, 0⟩ 0) 0 1).toPath false)))) = some total :=
  have hleft : arcLengthLeft Object.roundDouble (fun i : Int => if i = 1 then ((LinCurvPath.new false (CurvConfig.new ⟨⟨0, 0⟩, 0⟩ 0) 0 1).toPath false) else ((LinCurvPath.new false (CurvConfig.new ⟨⟨5, 5⟩, 0⟩ 0) 0 1).toPath false)) (3 / 2) 1 = 1 / 2 := by
    have h : (3 : ℝ) / 2 - 1 = 1 / 2 := by norm_num
    simp only [arcLengthLeft]
    rw [length_unit_pair, h, Object.roundDouble_half]
  have hthm := operatorIdx_in_range Object.roundDouble false false _ _
    (ArrayPaths.piece_two false ((LinCurvPath.new false (CurvConfig.new ⟨⟨0, 0⟩, 0⟩ 0) 0 1).toPath false) ((LinCurvPath.new false (CurvConfig.new ⟨⟨5, 5⟩, 0⟩ 0) 0 1).toPath false)) (by decide) (3 / 2)
  ⟨ArrayPaths.piece_two false _ _, by decide,
    hthm.1 1 (by decide)
      (fun j hj => by
        have hj0 : j = 0 := by omega
        subst hj0
        rw [length_unit_pair]
        show (1 : ℝ) < 3 / 2
        norm_num)
      (by
        rw [hleft, length_unit_pair]
        norm_num)
      2 (by decide),
    hleft,
    (hthm.2 add_exact_unit_pair).imp fun _ h => h.1⟩

/-! ## Two segments of length zero, and a segment followed by a segment of length zero -/

theorem length_zero_pair (i : Int) :
    ((fun i : Int => if i = 1 then ((LinCurvPath.new false (CurvConfig.new ⟨⟨0, 0⟩, 0⟩ 0) 0 0).toPath false) else ((LinCurvPath.new false (CurvConfig.new ⟨⟨5, 5⟩, 0⟩ 0) 0 0).toPath false)) i).length = 0 := by
  by_cases hi : i = 1
  · simp only [hi, if_true]
    rfl
  · simp only [hi, if_false]
    rfl

theorem add_exact_zero_pair (j : Nat) (_hj : (j : Int) + 1 ≤ (ArrayPaths.toCompoundPath false
      (((ArrayPaths.new 2).setPath 0 (.basic ((LinCurvPath.new false (CurvConfig.new ⟨⟨0, 0⟩, 0⟩ 0) 0 0).toPath false))).setPath 1 (.basic ((LinCurvPath.new false (CurvConfig.new ⟨⟨5, 5⟩, 0⟩ 0) 0 0).toPath false)))).nbPieces) :
    Object.roundDouble (∑ i in Finset.Icc 1 (j : Int), ((fun i : Int => if i = 1 then ((LinCurvPath.new false (CurvConfig.new ⟨⟨0, 0⟩, 0⟩ 0) 0 0).toPath false) else ((LinCurvPath.new false (CurvConfig.new ⟨⟨5, 5⟩, 0⟩ 0) 0 0).toPath false)) i).length
        + ((fun i : Int => if i = 1 then ((LinCurvPath.new false (CurvConfig.new ⟨⟨0, 0⟩, 0⟩ 0) 0 0).toPath false) else ((LinCurvPath.new false (CurvConfig.new ⟨⟨5, 5⟩, 0⟩ 0) 0 0).toPath false)) ((j : Int) + 1)).length)
      = ∑ i in Finset.Icc 1 (j : Int), ((fun i : Int => if i = 1 then ((LinCurvPath.new false (CurvConfig.new ⟨⟨0, 0⟩, 0⟩ 0) 0 0).toPath false) else ((LinCurvPath.new false (CurvConfig.new ⟨⟨5, 5⟩, 0⟩ 0) 0 0).toPath false)) i).length
        + ((fun i : Int => if i = 1 then ((LinCurvPath.new false (CurvConfig.new ⟨⟨0, 0⟩, 0⟩ 0) 0 0).toPath false) else ((LinCurvPath.new false (CurvConfig.new ⟨⟨5, 5⟩, 0⟩ 0) 0 0).toPath false)) ((j : Int) + 1)).length := by
  simp only [length_zero_pair, Finset.sum_const_zero, add_zero, Object.roundDouble_zero]

/-- Claim C5 fails as stated: an `ArrayPaths` of two elementary slots, each a zero-length
`LinCurvPath` built by the main constructor, the first at `(0, 0)` and the second at
`(5, 5)`; all the values are doubles and no operation rounds.  Its length is 0, sampling
at 0 gives the end of the first piece, at abscissa 0, while `end()` is the end of the
second piece, at abscissa 5. -/
theorem operatorIdx_length_counterexample :
    lengthRounded Object.roundDouble false (ArrayPaths.toCompoundPath false
      (((ArrayPaths.new 2).setPath 0 (.basic ((LinCurvPath.new false (CurvConfig.new ⟨⟨0, 0⟩, 0⟩ 0) 0 0).toPath false))).setPath 1 (.basic ((LinCurvPath.new false (CurvConfig.new ⟨⟨5, 5⟩, 0⟩ 0) 0 0).toPath false)))) = some 0 ∧
    operatorIdxRounded Object.roundDouble false false (ArrayPaths.toCompoundPath false
      (((ArrayPaths.new 2).setPath 0 (.basic ((LinCurvPath.new false (CurvConfig.new ⟨⟨0, 0⟩, 0⟩ 0) 0 0).toPath false))).setPath 1 (.basic ((LinCurvPath.new false (CurvConfig.new ⟨⟨5, 5⟩, 0⟩ 0) 0 0).toPath false)))) 2 0
      = Outcome.value (LinCurvPath.new false (CurvConfig.new ⟨⟨0, 0⟩, 0⟩ 0) 0 0).End ∧
    end_ false (ArrayPaths.toCompoundPath false
      (((ArrayPaths.new 2).setPath 0 (.basic ((LinCurvPath.new false (CurvConfig.new ⟨⟨0, 0⟩, 0⟩ 0) 0 0).toPath false))).setPath 1 (.basic ((LinCurvPath.new false (CurvConfig.new ⟨⟨5, 5⟩, 0⟩ 0) 0 0).toPath false))))
      = some (LinCurvPath.new false (CurvConfig.new ⟨⟨5, 5⟩, 0⟩ 0) 0 0).End.toOrPtConfig ∧
    (LinCurvPath.new false (CurvConfig.new ⟨⟨0, 0⟩, 0⟩ 0) 0 0).End.Position.XCoord = 0 ∧
    (LinCurvPath.new false (CurvConfig.new ⟨⟨5, 5⟩, 0⟩ 0) 0 0).End.Position.XCoord = 5 ∧
    ¬ ∃ c, operatorIdxRounded Object.roundDouble false false (ArrayPaths.toCompoundPath false
      (((ArrayPaths.new 2).setPath 0 (.basic ((LinCurvPath.new false (CurvConfig.new ⟨⟨0, 0⟩, 0⟩ 0) 0 0).toPath false))).setPath 1 (.basic ((LinCurvPath.new false (CurvConfig.new ⟨⟨5, 5⟩, 0⟩ 0) 0 0).toPath false)))) 2 0 = Outcome.value c ∧
      end_ false (ArrayPaths.toCompoundPath false
      (((ArrayPaths.new 2).setPath 0 (.basic ((LinCurvPath.new false (CurvConfig.new ⟨⟨0, 0⟩, 0⟩ 0) 0 0).toPath false))).setPath 1 (.basic ((LinCurvPath.new false (CurvConfig.new ⟨⟨5, 5⟩, 0⟩ 0) 0 0).toPath false)))) = some c.toOrPtConfig := by
  have hx1 : (LinCurvPath.new false (CurvConfig.new ⟨⟨0, 0⟩, 0⟩ 0) 0 0).End.Position.XCoord = 0 := by
    have h := LinCurvPath.configAt_line_x false 0 0 0 0 le_rfl le_rfl
    rw [add_zero] at h
    exact h
  have hx2 : (LinCurvPath.new false (CurvConfig.new ⟨⟨5, 5⟩, 0⟩ 0) 0 0).End.Position.XCoord = 5 := by
    have h := LinCurvPath.configAt_line_x false 5 5 0 0 le_rfl le_rfl
    rw [add_zero] at h
    exact h
  have hlen := lengthRounded_exact Object.roundDouble false _ _
    (ArrayPaths.piece_two false ((LinCurvPath.new false (CurvConfig.new ⟨⟨0, 0⟩, 0⟩ 0) 0 0).toPath false) ((LinCurvPath.new false (CurvConfig.new ⟨⟨5, 5⟩, 0⟩ 0) 0 0).toPath false)) (by rw [ArrayPaths.nbPieces_two]; decide)
    add_exact_zero_pair
  simp only [length_zero_pair, Finset.sum_const_zero] at hlen
  have hop := operatorIdxRounded_walk Object.roundDouble false false _ _
    (ArrayPaths.piece_two false ((LinCurvPath.new false (CurvConfig.new ⟨⟨0, 0⟩, 0⟩ 0) 0 0).toPath false) ((LinCurvPath.new false (CurvConfig.new ⟨⟨5, 5⟩, 0⟩ 0) 0 0).toPath false)) 0 0 (by rw [ArrayPaths.nbPieces_two]; decide)
    (fun j hj => absurd hj (Nat.not_lt_zero j))
    (by rw [length_zero_pair]; exact le_refl (0 : ℝ)) 2 (by decide)
  have hop1 : operatorIdxRounded Object.roundDouble false false (ArrayPaths.toCompoundPath false
      (((ArrayPaths.new 2).setPath 0 (.basic ((LinCurvPath.new false (CurvConfig.new ⟨⟨0, 0⟩, 0⟩ 0) 0 0).toPath false))).setPath 1 (.basic ((LinCurvPath.new false (CurvConfig.new ⟨⟨5, 5⟩, 0⟩ 0) 0 0).toPath false)))) 2 0
      = Outcome.value (LinCurvPath.new false (CurvConfig.new ⟨⟨0, 0⟩, 0⟩ 0) 0 0).End := hop
  clear hop
  have hend : end_ false (ArrayPaths.toCompoundPath false
      (((ArrayPaths.new 2).setPath 0 (.basic ((LinCurvPath.new false (CurvConfig.new ⟨⟨0, 0⟩, 0⟩ 0) 0 0).toPath false))).setPath 1 (.basic ((LinCurvPath.new false (CurvConfig.new ⟨⟨5, 5⟩, 0⟩ 0) 0 0).toPath false))))
      = some (LinCurvPath.new false (CurvConfig.new ⟨⟨5, 5⟩, 0⟩ 0) 0 0).End.toOrPtConfig := rfl
  refine ⟨hlen, hop1, hend, hx1, hx2, ?_⟩
  rintro ⟨c, hc1, hc2⟩
  rw [hop1] at hc1
  rw [hend] at hc2
  have h1 : (LinCurvPath.new false (CurvConfig.new ⟨⟨0, 0⟩, 0⟩ 0) 0 0).End = c := Outcome.value.inj hc1
  have h2 : (LinCurvPath.new false (CurvConfig.new ⟨⟨5, 5⟩, 0⟩ 0) 0 0).End.toOrPtConfig = c.toOrPtConfig := Option.some.inj hc2
  rw [← h1] at h2
  have h3 := congrArg (fun o : OrPtConfig ℝ => o.Position.XCoord) h2
  simp only [hx1, hx2] at h3
  norm_num at h3

theorem length_zero_tail (i : Int) :
    ((fun i : Int => if i = 1 then (LinCurvPath.new false (CurvConfig.new ⟨⟨0, 0⟩, 0⟩ 0) 0 1) else (LinCurvPath.new false (LinCurvPath.new false (CurvConfig.new ⟨⟨0, 0⟩, 0⟩ 0) 0 1).End 0 0)) i).Length = if i = 1 then 1 else 0 := by
  by_cases hi : i = 1
  · simp only [hi, if_true]
    rfl
  · simp only [hi, if_false]
    rfl

theorem operatorIdx_length_eq_end_witness :
    (∀ i : Int, 1 ≤ i → i ≤ (ArrayPaths.toCompoundPath false
      (((ArrayPaths.new 2).setPath 0 (.basic ((LinCurvPath.new false (CurvConfig.new ⟨⟨0, 0⟩, 0⟩ 0) 0 1).toPath false))).setPath 1 (.basic ((LinCurvPath.new false (LinCurvPath.new false (CurvConfig.new ⟨⟨0, 0⟩, 0⟩ 0) 0 1).End 0 0).toPath false)))).nbPieces →
      ∃ st sh len, (fun i : Int => if i = 1 then (LinCurvPath.new false (CurvConfig.new ⟨⟨0, 0⟩, 0⟩ 0) 0 1) else (LinCurvPath.new false (LinCurvPath.new false (CurvConfig.new ⟨⟨0, 0⟩, 0⟩ 0) 0 1).End 0 0)) i = LinCurvPath.new false st sh len) ∧
    (∀ i : Int, 1 ≤ i → i ≤ (ArrayPaths.toCompoundPath false
      (((ArrayPaths.new 2).setPath 0 (.basic ((LinCurvPath.new false (CurvConfig.new ⟨⟨0, 0⟩, 0⟩ 0) 0 1).toPath false))).setPath 1 (.basic ((LinCurvPath.new false (LinCurvPath.new false (CurvConfig.new ⟨⟨0, 0⟩, 0⟩ 0) 0 1).End 0 0).toPath false)))).nbPieces →
      (ArrayPaths.toCompoundPath false
      (((ArrayPaths.new 2).setPath 0 (.basic ((LinCurvPath.new false (CurvConfig.new ⟨⟨0, 0⟩, 0⟩ 0) 0 1).toPath false))).setPath 1 (.basic ((LinCurvPath.new false (LinCurvPath.new false (CurvConfig.new ⟨⟨0, 0⟩, 0⟩ 0) 0 1).End 0 0).toPath false))))._piece i = some (((fun i : Int => if i = 1 then (LinCurvPath.new false (CurvConfig.new ⟨⟨0, 0⟩, 0⟩ 0) 0 1) else (LinCurvPath.new false (LinCurvPath.new false (CurvConfig.new ⟨⟨0, 0⟩, 0⟩ 0) 0 1).End 0 0)) i).toPath false)) ∧
    (1 ≤ (ArrayPaths.toCompoundPath false
      (((ArrayPaths.new 2).setPath 0 (.basic ((LinCurvPath.new false (CurvConfig.new ⟨⟨0, 0⟩, 0⟩ 0) 0 1).toPath false))).setPath 1 (.basic ((LinCurvPath.new false (LinCurvPath.new false (CurvConfig.new ⟨⟨0, 0⟩, 0⟩ 0) 0 1).End 0 0).toPath false)))).nbPieces) ∧
    (∀ i : Int, 2 ≤ i → i ≤ (ArrayPaths.toCompoundPath false
      (((ArrayPaths.new 2).setPath 0 (.basic ((LinCurvPath.new false (CurvConfig.new ⟨⟨0, 0⟩, 0⟩ 0) 0 1).toPath false))).setPath 1 (.basic ((LinCurvPath.new false (LinCurvPath.new false (CurvConfig.new ⟨⟨0, 0⟩, 0⟩ 0) 0 1).End 0 0).toPath false)))).nbPieces →
      0 < ((fun i : Int => if i = 1 then (LinCurvPath.new false (CurvConfig.new ⟨⟨0, 0⟩, 0⟩ 0) 0 1) else (LinCurvPath.new false (LinCurvPath.new false (CurvConfig.new ⟨⟨0, 0⟩, 0⟩ 0) 0 1).End 0 0)) i).Length ∨
        (((fun i : Int => if i = 1 then (LinCurvPath.new false (CurvConfig.new ⟨⟨0, 0⟩, 0⟩ 0) 0 1) else (LinCurvPath.new false (LinCurvPath.new false (CurvConfig.new ⟨⟨0, 0⟩, 0⟩ 0) 0 1).End 0 0)) i).Length = 0 ∧
          ((fun i : Int => if i = 1 then (LinCurvPath.new false (CurvConfig.new ⟨⟨0, 0⟩, 0⟩ 0) 0 1) else (LinCurvPath.new false (LinCurvPath.new false (CurvConfig.new ⟨⟨0, 0⟩, 0⟩ 0) 0 1).End 0 0)) i).Start = ((fun i : Int => if i = 1 then (LinCurvPath.new false (CurvConfig.new ⟨⟨0, 0⟩, 0⟩ 0) 0 1) else (LinCurvPath.new false (LinCurvPath.new false (CurvConfig.new ⟨⟨0, 0⟩, 0⟩ 0) 0 1).End 0 0)) (i - 1)).End)) ∧
    (∀ j : Nat, (j : Int) + 1 ≤ (ArrayPaths.toCompoundPath false
      (((ArrayPaths.new 2).setPath 0 (.basic ((LinCurvPath.new false (CurvConfig.new ⟨⟨0, 0⟩, 0⟩ 0) 0 1).toPath false))).setPath 1 (.basic ((LinCurvPath.new false (LinCurvPath.new false (CurvConfig.new ⟨⟨0, 0⟩, 0⟩ 0) 0 1).End 0 0).toPath false)))).nbPieces →
      Object.roundDouble (∑ i in Finset.Icc 1 (j : Int), ((fun i : Int => if i = 1 then (LinCurvPath.new false (CurvConfig.new ⟨⟨0, 0⟩, 0⟩ 0) 0 1) else (LinCurvPath.new false (LinCurvPath.new false (CurvConfig.new ⟨⟨0, 0⟩, 0⟩ 0) 0 1).End 0 0)) i).Length
          + ((fun i : Int => if i = 1 then (LinCurvPath.new false (CurvConfig.new ⟨⟨0, 0⟩, 0⟩ 0) 0 1) else (LinCurvPath.new false (LinCurvPath.new false (CurvConfig.new ⟨⟨0, 0⟩, 0⟩ 0) 0 1).End 0 0)) ((j : Int) + 1)).Length)
        = ∑ i in Finset.Icc 1 (j : Int), ((fun i : Int => if i = 1 then (LinCurvPath.new false (CurvConfig.new ⟨⟨0, 0⟩, 0⟩ 0) 0 1) else (LinCurvPath.new false (LinCurvPath.new false (CurvConfig.new ⟨⟨0, 0⟩, 0⟩ 0) 0 1).End 0 0)) i).Length
          + ((fun i : Int => if i = 1 then (LinCurvPath.new false (CurvConfig.new ⟨⟨0, 0⟩, 0⟩ 0) 0 1) else (LinCurvPath.new false (LinCurvPath.new false (CurvConfig.new ⟨⟨0, 0⟩, 0⟩ 0) 0 1).End 0 0)) ((j : Int) + 1)).Length) ∧
    (∀ j : Nat, (j : Int) + 1 < (ArrayPaths.toCompoundPath false
      (((ArrayPaths.new 2).setPath 0 (.basic ((LinCurvPath.new false (CurvConfig.new ⟨⟨0, 0⟩, 0⟩ 0) 0 1).toPath false))).setPath 1 (.basic ((LinCurvPath.new false (LinCurvPath.new false (CurvConfig.new ⟨⟨0, 0⟩, 0⟩ 0) 0 1).End 0 0).toPath false)))).nbPieces →
      Object.roundDouble (∑ i in Finset.Icc 1 (ArrayPaths.toCompoundPath false
      (((ArrayPaths.new 2).setPath 0 (.basic ((LinCurvPath.new false (CurvConfig.new ⟨⟨0, 0⟩, 0⟩ 0) 0 1).toPath false))).setPath 1 (.basic ((LinCurvPath.new false (LinCurvPath.new false (CurvConfig.new ⟨⟨0, 0⟩, 0⟩ 0) 0 1).End 0 0).toPath false)))).nbPieces, ((fun i : Int => if i = 1 then (LinCurvPath.new false (CurvConfig.new ⟨⟨0, 0⟩, 0⟩ 0) 0 1) else (LinCurvPath.new false (LinCurvPath.new false (CurvConfig.new ⟨⟨0, 0⟩, 0⟩ 0) 0 1).End 0 0)) i).Length
          - ∑ i in Finset.Icc 1 (j : Int), ((fun i : Int => if i = 1 then (LinCurvPath.new false (CurvConfig.new ⟨⟨0, 0⟩, 0⟩ 0) 0 1) else (LinCurvPath.new false (LinCurvPath.new false (CurvConfig.new ⟨⟨0, 0⟩, 0⟩ 0) 0 1).End 0 0)) i).Length
          - ((fun i : Int => if i = 1 then (LinCurvPath.new false (CurvConfig.new ⟨⟨0, 0⟩, 0⟩ 0) 0 1) else (LinCurvPath.new false (LinCurvPath.new false (CurvConfig.new ⟨⟨0, 0⟩, 0⟩ 0) 0 1).End 0 0)) ((j : Int) + 1)).Length)
        = ∑ i in Finset.Icc 1 (ArrayPaths.toCompoundPath false
      (((ArrayPaths.new 2).setPath 0 (.basic ((LinCurvPath.new false (CurvConfig.new ⟨⟨0, 0⟩, 0⟩ 0) 0 1).toPath false))).setPath 1 (.basic ((LinCurvPath.new false (LinCurvPath.new false (CurvConfig.new ⟨⟨0, 0⟩, 0⟩ 0) 0 1).End 0 0).toPath false)))).nbPieces, ((fun i : Int => if i = 1 then (LinCurvPath.new false (CurvConfig.new ⟨⟨0, 0⟩, 0⟩ 0) 0 1) else (LinCurvPath.new false (LinCurvPath.new false (CurvConfig.new ⟨⟨0, 0⟩, 0⟩ 0) 0 1).End 0 0)) i).Length
          - ∑ i in Finset.Icc 1 (j : Int), ((fun i : Int => if i = 1 then (LinCurvPath.new false (CurvConfig.new ⟨⟨0, 0⟩, 0⟩ 0) 0 1) else (LinCurvPath.new false (LinCurvPath.new false (CurvConfig.new ⟨⟨0, 0⟩, 0⟩ 0) 0 1).End 0 0)) i).Length
          - ((fun i : Int => if i = 1 then (LinCurvPath.new false (CurvConfig.new ⟨⟨0, 0⟩, 0⟩ 0) 0 1) else (LinCurvPath.new false (LinCurvPath.new false (CurvConfig.new ⟨⟨0, 0⟩, 0⟩ 0) 0 1).End 0 0)) ((j : Int) + 1)).Length) ∧
    end_ false (ArrayPaths.toCompoundPath false
      (((ArrayPaths.new 2).setPath 0 (.basic ((LinCurvPath.new false (CurvConfig.new ⟨⟨0, 0⟩, 0⟩ 0) 0 1).toPath false))).setPath 1 (.basic ((LinCurvPath.new false (LinCurvPath.new false (CurvConfig.new ⟨⟨0, 0⟩, 0⟩ 0) 0 1).End 0 0).toPath false))))
        = some ((fun i : Int => if i = 1 then (LinCurvPath.new false (CurvConfig.new ⟨⟨0, 0⟩, 0⟩ 0) 0 1) else (LinCurvPath.new false (LinCurvPath.new false (CurvConfig.new ⟨⟨0, 0⟩, 0⟩ 0) 0 1).End 0 0)) (ArrayPaths.toCompoundPath false
      (((ArrayPaths.new 2).setPath 0 (.basic ((LinCurvPath.new false (CurvConfig.new ⟨⟨0, 0⟩, 0⟩ 0) 0 1).toPath false))).setPath 1 (.basic ((LinCurvPath.new false (LinCurvPath.new false (CurvConfig.new ⟨⟨0, 0⟩, 0⟩ 0) 0 1).End 0 0).toPath false)))).nbPieces).End.toOrPtConfig ∧
    (∃ total, lengthRounded Object.roundDouble false (ArrayPaths.toCompoundPath false
      (((ArrayPaths.new 2).setPath 0 (.basic ((LinCurvPath.new false (CurvConfig.new ⟨⟨0, 0⟩, 0⟩ 0) 0 1).toPath false))).setPath 1 (.basic ((LinCurvPath.new false (LinCurvPath.new false (CurvConfig.new ⟨⟨0, 0⟩, 0⟩ 0) 0 1).End 0 0).toPath false)))) = some total ∧
      ∀ fuel, (ArrayPaths.toCompoundPath false
      (((ArrayPaths.new 2).setPath 0 (.basic ((LinCurvPath.new false (CurvConfig.new ⟨⟨0, 0⟩, 0⟩ 0) 0 1).toPath false))).setPath 1 (.basic ((LinCurvPath.new false (LinCurvPath.new false (CurvConfig.new ⟨⟨0, 0⟩, 0⟩ 0) 0 1).End 0 0).toPath false)))).nbPieces.toNat ≤ fuel →
        operatorIdxRounded Object.roundDouble false false (ArrayPaths.toCompoundPath false
      (((ArrayPaths.new 2).setPath 0 (.basic ((LinCurvPath.new false (CurvConfig.new ⟨⟨0, 0⟩, 0⟩ 0) 0 1).toPath false))).setPath 1 (.basic ((LinCurvPath.new false (LinCurvPath.new false (CurvConfig.new ⟨⟨0, 0⟩, 0⟩ 0) 0 1).End 0 0).toPath false)))) fuel total
          = Outcome.value ((fun i : Int => if i = 1 then (LinCurvPath.new false (CurvConfig.new ⟨⟨0, 0⟩, 0⟩ 0) 0 1) else (LinCurvPath.new false (LinCurvPath.new false (CurvConfig.new ⟨⟨0, 0⟩, 0⟩ 0) 0 1).End 0 0)) (ArrayPaths.toCompoundPath false
      (((ArrayPaths.new 2).setPath 0 (.basic ((LinCurvPath.new false (CurvConfig.new ⟨⟨0, 0⟩, 0⟩ 0) 0 1).toPath false))).setPath 1 (.basic ((LinCurvPath.new false (LinCurvPath.new false (CurvConfig.new ⟨⟨0, 0⟩, 0⟩ 0) 0 1).End 0 0).toPath false)))).nbPieces).End) :=
  have hctor : ∀ i : Int, 1 ≤ i → i ≤ (ArrayPaths.toCompoundPath false
      (((ArrayPaths.new 2).setPath 0 (.basic ((LinCurvPath.new false (CurvConfig.new ⟨⟨0, 0⟩, 0⟩ 0) 0 1).toPath false))).setPath 1 (.basic ((LinCurvPath.new false (LinCurvPath.new false (CurvConfig.new ⟨⟨0, 0⟩, 0⟩ 0) 0 1).End 0 0).toPath false)))).nbPieces →
      ∃ st sh len, (fun i : Int => if i = 1 then (LinCurvPath.new false (CurvConfig.new ⟨⟨0, 0⟩, 0⟩ 0) 0 1) else (LinCurvPath.new false (LinCurvPath.new false (CurvConfig.new ⟨⟨0, 0⟩, 0⟩ 0) 0 1).End 0 0)) i = LinCurvPath.new false st sh len := by
    intro i _ _
    by_cases hi : i = 1
    · simp only [hi, if_true]
      exact ⟨_, _, _, rfl⟩
    · simp only [hi, if_false]
      exact ⟨_, _, _, rfl⟩
  have hp : ∀ i : Int, 1 ≤ i → i ≤ (ArrayPaths.toCompoundPath false
      (((ArrayPaths.new 2).setPath 0 (.basic ((LinCurvPath.new false (CurvConfig.new ⟨⟨0, 0⟩, 0⟩ 0) 0 1).toPath false))).setPath 1 (.basic ((LinCurvPath.new false (LinCurvPath.new false (CurvConfig.new ⟨⟨0, 0⟩, 0⟩ 0) 0 1).End 0 0).toPath false)))).nbPieces →
      (ArrayPaths.toCompoundPath false
      (((ArrayPaths.new 2).setPath 0 (.basic ((LinCurvPath.new false (CurvConfig.new ⟨⟨0, 0⟩, 0⟩ 0) 0 1).toPath false))).setPath 1 (.basic ((LinCurvPath.new false (LinCurvPath.new false (CurvConfig.new ⟨⟨0, 0⟩, 0⟩ 0) 0 1).End 0 0).toPath false))))._piece i = some (((fun i : Int => if i = 1 then (LinCurvPath.new false (CurvConfig.new ⟨⟨0, 0⟩, 0⟩ 0) 0 1) else (LinCurvPath.new false (LinCurvPath.new false (CurvConfig.new ⟨⟨0, 0⟩, 0⟩ 0) 0 1).End 0 0)) i).toPath false) := by
    intro i h1 h2
    rw [ArrayPaths.piece_two false _ _ i h1 h2]
    by_cases hi : i = 1
    · simp only [hi, if_true]
    · simp only [hi, if_false]
  have hlater : ∀ i : Int, 2 ≤ i → i ≤ (ArrayPaths.toCompoundPath false
      (((ArrayPaths.new 2).setPath 0 (.basic ((LinCurvPath.new false (CurvConfig.new ⟨⟨0, 0⟩, 0⟩ 0) 0 1).toPath false))).setPath 1 (.basic ((LinCurvPath.new false (LinCurvPath.new false (CurvConfig.new ⟨⟨0, 0⟩, 0⟩ 0) 0 1).End 0 0).toPath false)))).nbPieces →
      0 < ((fun i : Int => if i = 1 then (LinCurvPath.new false (CurvConfig.new ⟨⟨0, 0⟩, 0⟩ 0) 0 1) else (LinCurvPath.new false (LinCurvPath.new false (CurvConfig.new ⟨⟨0, 0⟩, 0⟩ 0) 0 1).End 0 0)) i).Length ∨
        (((fun i : Int => if i = 1 then (LinCurvPath.new false (CurvConfig.new ⟨⟨0, 0⟩, 0⟩ 0) 0 1) else (LinCurvPath.new false (LinCurvPath.new false (CurvConfig.new ⟨⟨0, 0⟩, 0⟩ 0) 0 1).End 0 0)) i).Length = 0 ∧
          ((fun i : Int => if i = 1 then (LinCurvPath.new false (CurvConfig.new ⟨⟨0, 0⟩, 0⟩ 0) 0 1) else (LinCurvPath.new false (LinCurvPath.new false (CurvConfig.new ⟨⟨0, 0⟩, 0⟩ 0) 0 1).End 0 0)) i).Start = ((fun i : Int => if i = 1 then (LinCurvPath.new false (CurvConfig.new ⟨⟨0, 0⟩, 0⟩ 0) 0 1) else (LinCurvPath.new false (LinCurvPath.new false (CurvConfig.new ⟨⟨0, 0⟩, 0⟩ 0) 0 1).End 0 0)) (i - 1)).End) := by
    intro i h1 h2
    rw [ArrayPaths.nbPieces_two] at h2
    have hi : i = 2 := by omega
    subst hi
    exact Or.inr ⟨rfl, rfl⟩
  have hadd : ∀ j : Nat, (j : Int) + 1 ≤ (ArrayPaths.toCompoundPath false
      (((ArrayPaths.new 2).setPath 0 (.basic ((LinCurvPath.new false (CurvConfig.new ⟨⟨0, 0⟩, 0⟩ 0) 0 1).toPath false))).setPath 1 (.basic ((LinCurvPath.new false (LinCurvPath.new false (CurvConfig.new ⟨⟨0, 0⟩, 0⟩ 0) 0 1).End 0 0).toPath false)))).nbPieces →
      Object.roundDouble (∑ i in Finset.Icc 1 (j : Int), ((fun i : Int => if i = 1 then (LinCurvPath.new false (CurvConfig.new ⟨⟨0, 0⟩, 0⟩ 0) 0 1) else (LinCurvPath.new false (LinCurvPath.new false (CurvConfig.new ⟨⟨0, 0⟩, 0⟩ 0) 0 1).End 0 0)) i).Length
          + ((fun i : Int => if i = 1 then (LinCurvPath.new false (CurvConfig.new ⟨⟨0, 0⟩, 0⟩ 0) 0 1) else (LinCurvPath.new false (LinCurvPath.new false (CurvConfig.new ⟨⟨0, 0⟩, 0⟩ 0) 0 1).End 0 0)) ((j : Int) + 1)).Length)
        = ∑ i in Finset.Icc 1 (j : Int), ((fun i : Int => if i = 1 then (LinCurvPath.new false (CurvConfig.new ⟨⟨0, 0⟩, 0⟩ 0) 0 1) else (LinCurvPath.new false (LinCurvPath.new false (CurvConfig.new ⟨⟨0, 0⟩, 0⟩ 0) 0 1).End 0 0)) i).Length
          + ((fun i : Int => if i = 1 then (LinCurvPath.new false (CurvConfig.new ⟨⟨0, 0⟩, 0⟩ 0) 0 1) else (LinCurvPath.new false (LinCurvPath.new false (CurvConfig.new ⟨⟨0, 0⟩, 0⟩ 0) 0 1).End 0 0)) ((j : Int) + 1)).Length := by
    intro j hj
    rw [ArrayPaths.nbPieces_two] at hj
    have h : j = 0 ∨ j = 1 := by omega
    rcases h with rfl | rfl
    · rw [sum_Icc_zero, length_zero_tail]
      norm_num
      exact Object.roundDouble_one
    · rw [sum_Icc_one, length_zero_tail, length_zero_tail]
      norm_num
      exact Object.roundDouble_one
  have hsub : ∀ j : Nat, (j : Int) + 1 < (ArrayPaths.toCompoundPath false
      (((ArrayPaths.new 2).setPath 0 (.basic ((LinCurvPath.new false (CurvConfig.new ⟨⟨0, 0⟩, 0⟩ 0) 0 1).toPath false))).setPath 1 (.basic ((LinCurvPath.new false (LinCurvPath.new false (CurvConfig.new ⟨⟨0, 0⟩, 0⟩ 0) 0 1).End 0 0).toPath false)))).nbPieces →
      Object.roundDouble (∑ i in Finset.Icc 1 (ArrayPaths.toCompoundPath false
      (((ArrayPaths.new 2).setPath 0 (.basic ((LinCurvPath.new false (CurvConfig.new ⟨⟨0, 0⟩, 0⟩ 0) 0 1).toPath false))).setPath 1 (.basic ((LinCurvPath.new false (LinCurvPath.new false (CurvConfig.new ⟨⟨0, 0⟩, 0⟩ 0) 0 1).End 0 0).toPath false)))).nbPieces, ((fun i : Int => if i = 1 then (LinCurvPath.new false (CurvConfig.new ⟨⟨0, 0⟩, 0⟩ 0) 0 1) else (LinCurvPath.new false (LinCurvPath.new false (CurvConfig.new ⟨⟨0, 0⟩, 0⟩ 0) 0 1).End 0 0)) i).Length
          - ∑ i in Finset.Icc 1 (j : Int), ((fun i : Int => if i = 1 then (LinCurvPath.new false (CurvConfig.new ⟨⟨0, 0⟩, 0⟩ 0) 0 1) else (LinCurvPath.new false (LinCurvPath.new false (CurvConfig.new ⟨⟨0, 0⟩, 0⟩ 0) 0 1).End 0 0)) i).Length
          - ((fun i : Int => if i = 1 then (LinCurvPath.new false (CurvConfig.new ⟨⟨0, 0⟩, 0⟩ 0) 0 1) else (LinCurvPath.new false (LinCurvPath.new false (CurvConfig.new ⟨⟨0, 0⟩, 0⟩ 0) 0 1).End 0 0)) ((j : Int) + 1)).Length)
        = ∑ i in Finset.Icc 1 (ArrayPaths.toCompoundPath false
      (((ArrayPaths.new 2).setPath 0 (.basic ((LinCurvPath.new false (CurvConfig.new ⟨⟨0, 0⟩, 0⟩ 0) 0 1).toPath false))).setPath 1 (.basic ((LinCurvPath.new false (LinCurvPath.new false (CurvConfig.new ⟨⟨0, 0⟩, 0⟩ 0) 0 1).End 0 0).toPath false)))).nbPieces, ((fun i : Int => if i = 1 then (LinCurvPath.new false (CurvConfig.new ⟨⟨0, 0⟩, 0⟩ 0) 0 1) else (LinCurvPath.new false (LinCurvPath.new false (CurvConfig.new ⟨⟨0, 0⟩, 0⟩ 0) 0 1).End 0 0)) i).Length
          - ∑ i in Finset.Icc 1 (j : Int), ((fun i : Int => if i = 1 then (LinCurvPath.new false (CurvConfig.new ⟨⟨0, 0⟩, 0⟩ 0) 0 1) else (LinCurvPath.new false (LinCurvPath.new false (CurvConfig.new ⟨⟨0, 0⟩, 0⟩ 0) 0 1).End 0 0)) i).Length
          - ((fun i : Int => if i = 1 then (LinCurvPath.new false (CurvConfig.new ⟨⟨0, 0⟩, 0⟩ 0) 0 1) else (LinCurvPath.new false (LinCurvPath.new false (CurvConfig.new ⟨⟨0, 0⟩, 0⟩ 0) 0 1).End 0 0)) ((j : Int) + 1)).Length := by
    intro j hj
    rw [ArrayPaths.nbPieces_two] at hj
    have h : j = 0 := by omega
    subst h
    rw [ArrayPaths.nbPieces_two, sum_Icc_two, sum_Icc_zero, length_zero_tail, length_zero_tail,
      length_zero_tail]
    norm_num
    exact Object.roundDouble_zero
  ⟨hctor, hp, by decide, hlater, hadd, hsub,
    (operatorIdx_length_eq_end Object.roundDouble false false _ _ hctor hp (by decide)).1,
    (operatorIdx_length_eq_end Object.roundDouble false false _ _ hctor hp (by decide)).2.2
      hlater hadd hsub⟩

end rob.CompoundPath

/-! ## Rounding at the end of the walk: segments of lengths 0.1 and 0.2 -/

namespace Object

variable {α : Type} [LinearOrderedField α] [FloorRing α]

theorem roundHalfEven_tie (q : α) (n : Int) (h : q = n + 1 / 2) :
    roundHalfEven q = if n % 2 = 0 then n else n + 1 := by
  have hfl : ⌊q⌋ = n := by
    rw [Int.floor_eq_iff, h]
    constructor <;> linarith
  unfold roundHalfEven
  rw [hfl, h]
  rw [if_neg (by simp), if_neg (by simp)]

/-- The double nearest to `0.1` is a double. -/
theorem roundDouble_tenth :
    roundDouble ((3602879701896397 / 36028797018963968) : α) = 3602879701896397 / 36028797018963968 := by
  rw [roundDouble_eq _ (-56) 7205759403792794 (by norm_num)
    (by rw [abs_of_pos (by norm_num)]; norm_num)
    (by rw [abs_of_pos (by norm_num)]; norm_num)
    (by norm_num)]
  norm_num

/-- On doubles `0.1 + 0.2` is `0.30000000000000004`: the exact sum is half way between
two doubles and goes to the one whose last bit is 0. -/
theorem roundDouble_tenth_add_fifth :
    roundDouble (((3602879701896397 / 36028797018963968) : α) + (3602879701896397 / 18014398509481984))
      = 5404319552844596 / 18014398509481984 := by
  have hu : ulpExponent (((3602879701896397 / 36028797018963968) : α) + (3602879701896397 / 18014398509481984)) = -54 :=
    ulpExponent_eq _ (-54) (by norm_num)
      (by rw [abs_of_pos (by norm_num)]; norm_num)
      (by rw [abs_of_pos (by norm_num)]; norm_num)
  unfold roundDouble
  rw [hu, roundHalfEven_tie _ 5404319552844595 (by norm_num)]
  norm_num

/-- On doubles `0.30000000000000004 - 0.1` is `0.20000000000000004`, the double after
`0.2`. -/
theorem roundDouble_sum_sub_tenth :
    roundDouble (((5404319552844596 / 18014398509481984) : α) - (3602879701896397 / 36028797018963968))
      = 7205759403792795 / 36028797018963968 := by
  rw [roundDouble_eq _ (-55) 7205759403792795 (by norm_num)
    (by rw [abs_of_pos (by norm_num)]; norm_num)
    (by rw [abs_of_pos (by norm_num)]; norm_num)
    (by norm_num)]
  norm_num

theorem roundDouble_left_sub_fifth :
    roundDouble (((7205759403792795 / 36028797018963968) : α) - (3602879701896397 / 18014398509481984))
      = 1 / 36028797018963968 := by
  rw [roundDouble_eq _ (-107) 4503599627370496 (by norm_num)
    (by rw [abs_of_pos (by norm_num)]; norm_num)
    (by rw [abs_of_pos (by norm_num)]; norm_num)
    (by norm_num)]
  norm_num

end Object

namespace rob.CompoundPath

/-- With `ISEEML_CHECK_COMP_PATH_PRECOND`, on the last piece and with an arc length above
`l`, the loop on doubles never ends either. -/
theorem operatorLoopRounded_stuck {α : Type} [LinearOrderedField α] (rnd : α → α)
    (checkElemt : Bool) (P : CompoundPath α) (pieceNb : Int) (arcLength l : α)
    (h1 : pieceNb = P.nbPieces) (h2 : arcLength > l) (fuel : Nat) :
    operatorLoopRounded rnd true checkElemt P fuel pieceNb arcLength l = Outcome.outOfFuel := by
  induction fuel with
  | zero => rfl
  | succ n ih =>
    have hbeq : (pieceNb == P.nbPieces) = true := by simpa using h1
    rw [operatorLoopRounded, if_pos h2]
    simp only [hbeq, Bool.and_self, if_true]
    exact ih

/-- The walk leaves the path at `s = length()` for ordinary lengths: an `ArrayPaths` of
two straight segments of lengths `0.1` and `0.2` (the doubles nearest to them), the second
starting where the first ends.  On doubles `length()` is `0.30000000000000004`, and the
arc length left on the last piece is `0.20000000000000004`, above its length.  Without
the flags the loop goes on to `piece(3)`, which an `ArrayPaths` takes as its last piece,
and returns that piece sampled at `2 ^ (-55)`, near its start; with
`ISEEML_CHECK_COMP_PATH_PRECOND` the loop never ends. -/
theorem walk_past_last_piece :
    lengthRounded Object.roundDouble false (ArrayPaths.toCompoundPath false
      (((ArrayPaths.new 2).setPath 0 (.basic ((LinCurvPath.new false (CurvConfig.new ⟨⟨0, 0⟩, 0⟩ 0) 0 (3602879701896397 / 36028797018963968)).toPath false))).setPath 1 (.basic ((LinCurvPath.new false (CurvConfig.new ⟨⟨(3602879701896397 / 36028797018963968), 0⟩, 0⟩ 0) 0 (3602879701896397 / 18014398509481984)).toPath false))))
      = some (5404319552844596 / 18014398509481984) ∧
    arcLengthLeft Object.roundDouble (fun i : Int => if i = 1 then ((LinCurvPath.new false (CurvConfig.new ⟨⟨0, 0⟩, 0⟩ 0) 0 (3602879701896397 / 36028797018963968)).toPath false) else ((LinCurvPath.new false (CurvConfig.new ⟨⟨(3602879701896397 / 36028797018963968), 0⟩, 0⟩ 0) 0 (3602879701896397 / 18014398509481984)).toPath false))
        (5404319552844596 / 18014398509481984) 1 = (7205759403792795 / 36028797018963968) ∧
    ((fun i : Int => if i = 1 then ((LinCurvPath.new false (CurvConfig.new ⟨⟨0, 0⟩, 0⟩ 0) 0 (3602879701896397 / 36028797018963968)).toPath false) else ((LinCurvPath.new false (CurvConfig.new ⟨⟨(3602879701896397 / 36028797018963968), 0⟩, 0⟩ 0) 0 (3602879701896397 / 18014398509481984)).toPath false)) 2).length
      < arcLengthLeft Object.roundDouble (fun i : Int => if i = 1 then ((LinCurvPath.new false (CurvConfig.new ⟨⟨0, 0⟩, 0⟩ 0) 0 (3602879701896397 / 36028797018963968)).toPath false) else ((LinCurvPath.new false (CurvConfig.new ⟨⟨(3602879701896397 / 36028797018963968), 0⟩, 0⟩ 0) 0 (3602879701896397 / 18014398509481984)).toPath false))
        (5404319552844596 / 18014398509481984) 1 ∧
    operatorIdxRounded Object.roundDouble false false (ArrayPaths.toCompoundPath false
      (((ArrayPaths.new 2).setPath 0 (.basic ((LinCurvPath.new false (CurvConfig.new ⟨⟨0, 0⟩, 0⟩ 0) 0 (3602879701896397 / 36028797018963968)).toPath false))).setPath 1 (.basic ((LinCurvPath.new false (CurvConfig.new ⟨⟨(3602879701896397 / 36028797018963968), 0⟩, 0⟩ 0) 0 (3602879701896397 / 18014398509481984)).toPath false)))) 3
        (5404319552844596 / 18014398509481984)
      = Outcome.value ((LinCurvPath.new false (CurvConfig.new ⟨⟨(3602879701896397 / 36028797018963968), 0⟩, 0⟩ 0) 0 (3602879701896397 / 18014398509481984)).operatorIdx false
          (1 / 36028797018963968)) ∧
    ∀ fuel : Nat, operatorIdxRounded Object.roundDouble true false (ArrayPaths.toCompoundPath false
      (((ArrayPaths.new 2).setPath 0 (.basic ((LinCurvPath.new false (CurvConfig.new ⟨⟨0, 0⟩, 0⟩ 0) 0 (3602879701896397 / 36028797018963968)).toPath false))).setPath 1 (.basic ((LinCurvPath.new false (CurvConfig.new ⟨⟨(3602879701896397 / 36028797018963968), 0⟩, 0⟩ 0) 0 (3602879701896397 / 18014398509481984)).toPath false)))) fuel
        (5404319552844596 / 18014398509481984) = Outcome.outOfFuel := by
  have hp1 : piece false (ArrayPaths.toCompoundPath false
      (((ArrayPaths.new 2).setPath 0 (.basic ((LinCurvPath.new false (CurvConfig.new ⟨⟨0, 0⟩, 0⟩ 0) 0 (3602879701896397 / 36028797018963968)).toPath false))).setPath 1 (.basic ((LinCurvPath.new false (CurvConfig.new ⟨⟨(3602879701896397 / 36028797018963968), 0⟩, 0⟩ 0) 0 (3602879701896397 / 18014398509481984)).toPath false)))) 1 = some ((LinCurvPath.new false (CurvConfig.new ⟨⟨0, 0⟩, 0⟩ 0) 0 (3602879701896397 / 36028797018963968)).toPath false) := rfl
  have hp2 : piece false (ArrayPaths.toCompoundPath false
      (((ArrayPaths.new 2).setPath 0 (.basic ((LinCurvPath.new false (CurvConfig.new ⟨⟨0, 0⟩, 0⟩ 0) 0 (3602879701896397 / 36028797018963968)).toPath false))).setPath 1 (.basic ((LinCurvPath.new false (CurvConfig.new ⟨⟨(3602879701896397 / 36028797018963968), 0⟩, 0⟩ 0) 0 (3602879701896397 / 18014398509481984)).toPath false)))) (1 + 1) = some ((LinCurvPath.new false (CurvConfig.new ⟨⟨(3602879701896397 / 36028797018963968), 0⟩, 0⟩ 0) 0 (3602879701896397 / 18014398509481984)).toPath false) := rfl
  have hp3 : piece false (ArrayPaths.toCompoundPath false
      (((ArrayPaths.new 2).setPath 0 (.basic ((LinCurvPath.new false (CurvConfig.new ⟨⟨0, 0⟩, 0⟩ 0) 0 (3602879701896397 / 36028797018963968)).toPath false))).setPath 1 (.basic ((LinCurvPath.new false (CurvConfig.new ⟨⟨(3602879701896397 / 36028797018963968), 0⟩, 0⟩ 0) 0 (3602879701896397 / 18014398509481984)).toPath false)))) (1 + 1 + 1) = some ((LinCurvPath.new false (CurvConfig.new ⟨⟨(3602879701896397 / 36028797018963968), 0⟩, 0⟩ 0) 0 (3602879701896397 / 18014398509481984)).toPath false) := rfl
  have hl1 : ((LinCurvPath.new false (CurvConfig.new ⟨⟨0, 0⟩, 0⟩ 0) 0 (3602879701896397 / 36028797018963968)).toPath false).length = (3602879701896397 / 36028797018963968) := rfl
  have hl2 : ((LinCurvPath.new false (CurvConfig.new ⟨⟨(3602879701896397 / 36028797018963968), 0⟩, 0⟩ 0) 0 (3602879701896397 / 18014398509481984)).toPath false).length = (3602879701896397 / 18014398509481984) := rfl
  have hleft : arcLengthLeft Object.roundDouble (fun i : Int => if i = 1 then ((LinCurvPath.new false (CurvConfig.new ⟨⟨0, 0⟩, 0⟩ 0) 0 (3602879701896397 / 36028797018963968)).toPath false) else ((LinCurvPath.new false (CurvConfig.new ⟨⟨(3602879701896397 / 36028797018963968), 0⟩, 0⟩ 0) 0 (3602879701896397 / 18014398509481984)).toPath false))
      (5404319552844596 / 18014398509481984) 1 = (7205759403792795 / 36028797018963968) := by
    simp only [arcLengthLeft]
    exact Object.roundDouble_sum_sub_tenth
  have hgt1 : ((5404319552844596 / 18014398509481984) : ℝ) > (3602879701896397 / 36028797018963968) := by norm_num
  have hgt2 : ((7205759403792795 / 36028797018963968) : ℝ) > (3602879701896397 / 18014398509481984) := by norm_num
  have hle3 : ¬ (((1 / 36028797018963968) : ℝ) > (3602879701896397 / 18014398509481984)) := by norm_num
  refine ⟨?_, hleft, ?_, ?_, ?_⟩
  · show lengthLoopRounded Object.roundDouble false _ 2 1 0 = _
    rw [lengthLoopRounded, hp1, Option.some_bind, lengthLoopRounded, hp2, Option.some_bind,
      lengthLoopRounded, hl1, hl2, zero_add, Object.roundDouble_tenth,
      Object.roundDouble_tenth_add_fifth]
  · rw [hleft]
    show ((3602879701896397 / 18014398509481984) : ℝ) < _
    norm_num
  · have e : operatorIdxRounded Object.roundDouble false false (ArrayPaths.toCompoundPath false
      (((ArrayPaths.new 2).setPath 0 (.basic ((LinCurvPath.new false (CurvConfig.new ⟨⟨0, 0⟩, 0⟩ 0) 0 (3602879701896397 / 36028797018963968)).toPath false))).setPath 1 (.basic ((LinCurvPath.new false (CurvConfig.new ⟨⟨(3602879701896397 / 36028797018963968), 0⟩, 0⟩ 0) 0 (3602879701896397 / 18014398509481984)).toPath false)))) 3
        (5404319552844596 / 18014398509481984)
        = operatorLoopRounded Object.roundDouble false false (ArrayPaths.toCompoundPath false
      (((ArrayPaths.new 2).setPath 0 (.basic ((LinCurvPath.new false (CurvConfig.new ⟨⟨0, 0⟩, 0⟩ 0) 0 (3602879701896397 / 36028797018963968)).toPath false))).setPath 1 (.basic ((LinCurvPath.new false (CurvConfig.new ⟨⟨(3602879701896397 / 36028797018963968), 0⟩, 0⟩ 0) 0 (3602879701896397 / 18014398509481984)).toPath false)))) (2 + 1) 1
            (5404319552844596 / 18014398509481984) (3602879701896397 / 36028797018963968) := rfl
    rw [e, operatorLoopRounded, if_pos hgt1]
    simp only [Bool.false_and, Bool.false_eq_true, if_false, hp2]
    rw [hl2, Object.roundDouble_sum_sub_tenth]
    show operatorLoopRounded Object.roundDouble false false _ (1 + 1) (1 + 1) _ _ = _
    rw [operatorLoopRounded, if_pos hgt2]
    simp only [Bool.false_and, Bool.false_eq_true, if_false, hp3]
    rw [hl2, Object.roundDouble_left_sub_fifth]
    show operatorLoopRounded Object.roundDouble false false _ (0 + 1) (1 + 1 + 1) _ _ = _
    rw [operatorLoopRounded, if_neg hle3]
    simp only [hp3]
    rfl
  · intro fuel
    cases fuel with
    | zero => rfl
    | succ f =>
      have e : operatorIdxRounded Object.roundDouble true false (ArrayPaths.toCompoundPath false
      (((ArrayPaths.new 2).setPath 0 (.basic ((LinCurvPath.new false (CurvConfig.new ⟨⟨0, 0⟩, 0⟩ 0) 0 (3602879701896397 / 36028797018963968)).toPath false))).setPath 1 (.basic ((LinCurvPath.new false (CurvConfig.new ⟨⟨(3602879701896397 / 36028797018963968), 0⟩, 0⟩ 0) 0 (3602879701896397 / 18014398509481984)).toPath false)))) (f + 1)
          (5404319552844596 / 18014398509481984)
          = operatorLoopRounded Object.roundDouble true false (ArrayPaths.toCompoundPath false
      (((ArrayPaths.new 2).setPath 0 (.basic ((LinCurvPath.new false (CurvConfig.new ⟨⟨0, 0⟩, 0⟩ 0) 0 (3602879701896397 / 36028797018963968)).toPath false))).setPath 1 (.basic ((LinCurvPath.new false (CurvConfig.new ⟨⟨(3602879701896397 / 36028797018963968), 0⟩, 0⟩ 0) 0 (3602879701896397 / 18014398509481984)).toPath false)))) (f + 1) 1
              (5404319552844596 / 18014398509481984) (3602879701896397 / 36028797018963968) := rfl
      have hb1 : ((1 : Int) == (ArrayPaths.toCompoundPath false
      (((ArrayPaths.new 2).setPath 0 (.basic ((LinCurvPath.new false (CurvConfig.new ⟨⟨0, 0⟩, 0⟩ 0) 0 (3602879701896397 / 36028797018963968)).toPath false))).setPath 1 (.basic ((LinCurvPath.new false (CurvConfig.new ⟨⟨(3602879701896397 / 36028797018963968), 0⟩, 0⟩ 0) 0 (3602879701896397 / 18014398509481984)).toPath false)))).nbPieces) = false := by decide
      rw [e, operatorLoopRounded, if_pos hgt1]
      simp only [hb1, Bool.and_false, Bool.false_and, Bool.false_eq_true, if_false, hp2]
      rw [hl2, Object.roundDouble_sum_sub_tenth]
      exact operatorLoopRounded_stuck Object.roundDouble false _ (1 + 1) _ _ rfl hgt2 f

end rob.CompoundPath

end iSeeML
